import Mathlib

/-!
# BoxBox: session registry, routing coordinator and capture engine

A shallow embedding of `src/extension/background.js` (the coordinator and its
persisted session registry) and `src/extension/offscreen.js` (the capture
engine with its per-viewer signaling state).

Conventions of the embedding:

* a JS `Map` or plain object is an insertion-ordered association list
  (`JsMap`), with `get`, `has`, `set`, `delete` behaving as in JS;
* every handler is run as one uninterrupted turn: the `await` points of an
  `async` function are sequenced in program order;
* values produced by the platform (`crypto.randomUUID()`, media objects,
  outcomes of promises) are parameters of the handler that consumes them;
* calls that leave the context (`chrome.runtime.sendMessage`,
  `chrome.tabs.sendMessage`, `track.stop()`, `pc.close()`, ...) are recorded,
  in program order, in an effect list returned next to the new state;
* JS truthiness is kept: the empty string and the number `0` are falsy.
-/

namespace BoxBox

/-! ## Keyed collections -/

/-- Insertion-ordered keyed collection standing for a JS `Map` or object. -/
def JsMap (κ : Type) (α : Type) : Type := List (κ × α)

namespace JsMap

variable {κ α : Type} [DecidableEq κ]

/-- The collection without entries: `new Map()` or `{}`. -/
def empty : JsMap κ α := ([] : List (κ × α))

/-- Value stored under key `k`, as `map.get(k)` or `obj[k]`. -/
def get : JsMap κ α → κ → Option α
  | [], _ => none
  | (k', v) :: m, k => if k' = k then some v else get m k

/-- Membership test `map.has(k)`. -/
def has (m : JsMap κ α) (k : κ) : Bool := (get m k).isSome

/-- Assignment `map.set(k, v)`: an existing key keeps its position. -/
def set : JsMap κ α → κ → α → JsMap κ α
  | [], k, v => [(k, v)]
  | (k', v') :: m, k, v => if k' = k then (k, v) :: m else (k', v') :: set m k v

/-- Removal `map.delete(k)` or `delete obj[k]`. -/
def delete : JsMap κ α → κ → JsMap κ α
  | [], _ => []
  | (k', v') :: m, k => if k' = k then delete m k else (k', v') :: delete m k

/-- Keys in enumeration order: `Object.keys(obj)` or `map.keys()`. -/
def keys (m : JsMap κ α) : List κ := List.map Prod.fst m

/-- Entries in enumeration order: `map.entries()`. -/
def entries (m : JsMap κ α) : List (κ × α) := m

end JsMap

instance {κ α : Type} [DecidableEq κ] [DecidableEq α] : DecidableEq (JsMap κ α) :=
  inferInstanceAs (DecidableEq (List (κ × α)))

/-- JS truthiness of a string value. -/
def truthyStr (s : String) : Bool := decide (s ≠ "")

/-- JS truthiness of a possibly missing (`undefined`/`null`) string. -/
def truthyOpt : Option String → Bool
  | some s => truthyStr s
  | none => false

/-- JS truthiness of a possibly missing number (tab ids are numbers). -/
def truthyNum : Option Nat → Bool
  | some n => decide (n ≠ 0)
  | none => false

/-! ## Session registry (background.js) -/

/-- Theme options object; its content is never inspected here. -/
structure Theme where
  json : String
  deriving DecidableEq, Repr

/-- Value stored under one output tab in `session.outputs`: either the list
of overlay ids or the legacy single object `{ overlayId }`. -/
inductive OutputEntry
  | list (ids : List String)
  | legacy (overlayId : Option String)
  deriving DecidableEq, Repr

/-- Session record as written by `handleStartCapture`. -/
structure Session where
  sessionId : String
  sourceTabId : Option Nat
  sourceTabTitle : String
  sourceOrdinal : Option Nat
  sourceOverlayId : Option String
  theme : Option Theme
  outputs : Option (JsMap Nat OutputEntry)
  deriving DecidableEq

/-- Overlay ids of one `outputs` entry, as every handler normalises it:
`Array.isArray(v) ? v : [v?.overlayId].filter(Boolean)`. -/
def entryList : Option OutputEntry → List String
  | some (.list ids) => ids
  | some (.legacy (some o)) => if truthyStr o then [o] else []
  | some (.legacy none) => []
  | none => []

/-- Source: `computeSessionOutputCount` (background.js 253-264). The loop
accumulates `cnt` over `Object.keys(session?.outputs || {})`. -/
def computeSessionOutputCount (session : Session) : Nat :=
  let outputs : JsMap Nat OutputEntry := session.outputs.getD JsMap.empty
  (JsMap.keys outputs).foldl
    (fun cnt tid =>
      cnt + (match JsMap.get outputs tid with
        | some (.list v) => v.length
        | some (.legacy (some o)) => if truthyStr o then 1 else 0
        | _ => 0))
    0

/-- Count contributed by one tab, in the words of the specification: the
length of the overlay-id list, `1` for a legacy object that has an overlay
id, `0` for anything else. -/
def specEntryCount : Option OutputEntry → Nat
  | some (.list ids) => ids.length
  | some (.legacy (some o)) => if o = "" then 0 else 1
  | _ => 0

/-- Output count in the words of the specification: the sum over the tab
keys of the outputs map, `0` without an outputs map. -/
def specOutputCount (session : Session) : Nat :=
  match session.outputs with
  | none => 0
  | some outputs => ((JsMap.keys outputs).map (fun tid => specEntryCount (JsMap.get outputs tid))).sum

/-! ## Coordinator: persisted store, messages, effects (background.js) -/

/-- Saved overlay geometry (an object, hence truthy whenever present). -/
structure Geom where
  x : Int
  y : Int
  width : Int
  height : Int
  deriving DecidableEq

/-- Contents of `chrome.storage.local`: the three structured keys
`SESSIONS_KEY`, `OPTIONS_KEY`, `GEOM_KEY`, and every other key (among them
the per-overlay state keys `STATE_KEY_PREFIX + overlayId`) in `kv`. -/
structure Store where
  sessions : Option (JsMap String Session)
  options : Option Theme
  geom : Option (JsMap String Geom)
  kv : JsMap String String
  deriving DecidableEq

/-- Source: `STATE_KEY_PREFIX` (background.js 5). -/
def STATE_KEY_PREFIX : String := "__peek_overlay_state__::"

/-- Tab id as the engine receives it in a message or recovers it from a key:
a number, `undefined`, or `NaN`. -/
inductive TabId
  | undefined
  | nan
  | num (n : Nat)
  deriving DecidableEq, Repr

/-- JS truthiness of a tab id value. -/
def TabId.truthy : TabId → Bool
  | .num n => decide (n ≠ 0)
  | _ => false

/-- Template rendering of a tab id inside a string. -/
def TabId.render : TabId → String
  | .undefined => "undefined"
  | .nan => "NaN"
  | .num n => toString n

/-- ICE candidate, as relayed. -/
abbrev Candidate := String

/-- Payload of `ANSWER` and `ICE_FROM_OUTPUT`. -/
structure SignalPayload where
  sessionId : String
  tabId : TabId
  sdp : Option String
  offerId : Option String
  candidate : Option Candidate
  deriving DecidableEq

/-- Messages addressed to the engine (`target: "offscreen"`). -/
inductive EngineMsg
  | startCapture (sessionId : String) (streamId : Option String) (tabId : TabId)
  | attachSessionToTabCapture (sessionId : String) (tabId : TabId)
  | newOutputAdded (sessionId : String) (tabId : TabId)
  | answer (payload : SignalPayload)
  | iceFromOutput (payload : SignalPayload)
  | stopCapture (sessionId : String)
  | stopStreaming (sessionId : String)
  | stopOutputPeer (sessionId : String) (tabId : TabId)
  deriving DecidableEq

/-- Messages the coordinator sends to a tab. `createOutputOverlayNoId` is
the `CREATE_OUTPUT_OVERLAY` message whose `overlayId` field is `undefined`. -/
inductive TabMsg
  | createOutputOverlay (sessionId : String) (overlayId : String) (options : Option Theme)
  | peekHide (overlayId : String)
  | outputsUpdated (sessionId : String) (count : Nat)
  | createOutputOverlayNoId (sessionId : String) (options : Option Theme)
  | peekSetKind (overlayId : String) (sessionId : String)
  | peekShow (overlayId : String)
  | themeUpdate (options : Theme) (sessionId : String)
  | restoreSourceGeom (overlayId : String) (geom : Geom)
  deriving DecidableEq

/-- Calls of the coordinator that leave its context. -/
inductive Effect
  | tabsSendMessage (tabId : Nat) (m : TabMsg)
  | executeScript (tabId : Nat)
  | runtimeSendMessage (m : EngineMsg)
  | setTimeoutCounts (delayMs : Nat)
  | getMediaStreamId (targetTabId : Nat)
  | createOffscreenDocument
  deriving DecidableEq

/-- Outcome of an awaited platform promise: fulfilled, or rejected with an
error whose `message` may be missing. -/
inductive Outcome
  | ok
  | rejected (message : Option String)
  deriving DecidableEq

/-- Platform answers to the coordinator: the outcome of
`chrome.tabs.sendMessage(tabId, m)` (`retry` tells the attempt that follows a
re-injection from the first one) and of `chrome.scripting.executeScript`. -/
structure Env where
  send : (retry : Bool) → Nat → TabMsg → Outcome
  inject : Nat → Outcome

/-- Transient per-session flags of `sessionRuntimeState`. -/
structure RuntimeState where
  reloading : Bool
  restoring : Bool
  restoringPromise : Bool
  deriving DecidableEq

/-- In-memory and persisted state of the coordinator. -/
structure Coordinator where
  store : Store
  sessionRuntimeState : JsMap String RuntimeState
  recentSessionOrder : List String
  deriving DecidableEq

/-- JS `haystack.includes(needle)`. -/
def jsIncludes (haystack needle : String) : Bool :=
  decide (needle.toList <:+: haystack.toList)

/-- Source: `safeSendToTab` (background.js 236-251 and 324-339). -/
def safeSendToTab (env : Env) (tabId : Nat) (message : TabMsg) : List Effect :=
  match env.send false tabId message with
  | .ok => [.tabsSendMessage tabId message]
  | .rejected e =>
    let msg := (e.getD "").toLower
    .tabsSendMessage tabId message ::
      (if jsIncludes msg "receiving end" then
        .executeScript tabId ::
          (match env.inject tabId with
            | .ok => [.tabsSendMessage tabId message]
            | .rejected _ => [])
      else [])

/-- Source: `hideOverlayIfNeeded` (background.js 704-726). -/
def hideOverlayIfNeeded (env : Env) (tabId : Nat) (overlayId : String) : List Effect :=
  match env.send false tabId (.peekHide overlayId) with
  | .ok => [.tabsSendMessage tabId (.peekHide overlayId)]
  | .rejected e =>
    let msg := (e.getD "").toLower
    .tabsSendMessage tabId (.peekHide overlayId) ::
      (if jsIncludes msg "receiving end" then
        .executeScript tabId ::
          (match env.inject tabId with
            | .ok => [.tabsSendMessage tabId (.peekHide overlayId)]
            | .rejected _ => [])
      else [])

/-- Source: `pushAllCountsToSources` (background.js 309-323). -/
def pushAllCountsToSources (env : Env) (store : Store) : List Effect :=
  let sessions : JsMap String Session := store.sessions.getD JsMap.empty
  (JsMap.keys sessions).foldl
    (fun acc sid =>
      match JsMap.get sessions sid with
      | none => acc
      | some s =>
        match s.sourceTabId with
        | none => acc
        | some tab =>
          if tab = 0 then acc
          else acc ++ safeSendToTab env tab (.outputsUpdated sid (computeSessionOutputCount s)))
    []

/-- Source: `scheduleAllCountsBroadcast` (background.js 292-307): two
immediate broadcasts and one deferred by a timer. -/
def scheduleAllCountsBroadcast (env : Env) (store : Store) (delayMs : Nat) : List Effect :=
  pushAllCountsToSources env store ++ [.setTimeoutCounts delayMs] ++ pushAllCountsToSources env store

/-- Source: `handleCreateOutput` (background.js 481-535). `newOverlayId` is
the value of `crypto.randomUUID()`. A rejection that escapes the function
ends its effects at that point. -/
def handleCreateOutput (env : Env) (newOverlayId : String) (sessionId : String)
    (outputTab : Nat) (c : Coordinator) : Coordinator × List Effect :=
  let sessions : JsMap String Session := c.store.sessions.getD JsMap.empty
  match JsMap.get sessions sessionId with
  | none => (c, [])
  | some session =>
    let outputs : JsMap Nat OutputEntry := session.outputs.getD JsMap.empty
    let prev := JsMap.get outputs outputTab
    let list : List String :=
      (match prev with
        | some (.list l) => l
        | some (.legacy (some o)) => if truthyStr o then [o] else []
        | _ => []) ++ [newOverlayId]
    let session' : Session := { session with outputs := some (JsMap.set outputs outputTab (.list list)) }
    let store' : Store := { c.store with sessions := some (JsMap.set sessions sessionId session') }
    let c' : Coordinator := { c with store := store' }
    let resolvedOptions : Option Theme :=
      match session'.theme with
      | some t => some t
      | none => store'.options
    let m := TabMsg.createOutputOverlay sessionId newOverlayId resolvedOptions
    match env.send false outputTab m with
    | .ok => (c', .tabsSendMessage outputTab m :: pushAllCountsToSources env store')
    | .rejected none => (c', [.tabsSendMessage outputTab m])
    | .rejected (some text) =>
      if jsIncludes text "Receiving end does not exist" then
        match env.inject outputTab with
        | .rejected _ => (c', [.tabsSendMessage outputTab m, .executeScript outputTab])
        | .ok =>
          match env.send true outputTab m with
          | .rejected _ =>
            (c', [.tabsSendMessage outputTab m, .executeScript outputTab, .tabsSendMessage outputTab m])
          | .ok =>
            (c', [.tabsSendMessage outputTab m, .executeScript outputTab, .tabsSendMessage outputTab m]
              ++ pushAllCountsToSources env store')
      else (c', .tabsSendMessage outputTab m :: pushAllCountsToSources env store')

/-- Source: `handleCloseOutput` (background.js 729-783). A session record
without an `outputs` object makes the guard raise before anything is written. -/
def handleCloseOutput (env : Env) (sessionId : String) (tabId : Nat) (overlayId : String)
    (c : Coordinator) : Coordinator × List Effect :=
  let sessions : JsMap String Session := c.store.sessions.getD JsMap.empty
  match JsMap.get sessions sessionId with
  | none => (c, [])
  | some session =>
    match session.outputs with
    | none => (c, [])
    | some outputs =>
      match JsMap.get outputs tabId with
      | none => (c, [])
      | some val =>
        let list : List String := (entryList (some val)).filter (fun id => decide (id ≠ overlayId))
        let outputs' : JsMap Nat OutputEntry :=
          if list.length > 0 then JsMap.set outputs tabId (.list list) else JsMap.delete outputs tabId
        let stopPeer : List Effect :=
          if list.length > 0 then []
          else [.runtimeSendMessage (.stopOutputPeer sessionId (.num tabId))]
        let session' : Session := { session with outputs := some outputs' }
        let store1 : Store := { c.store with sessions := some (JsMap.set sessions sessionId session') }
        let stopStreaming : List Effect :=
          if (JsMap.keys outputs').length = 0 then [.runtimeSendMessage (.stopStreaming sessionId)]
          else []
        let all : JsMap String Geom := store1.geom.getD JsMap.empty
        let store2 : Store :=
          if truthyStr overlayId && JsMap.has all overlayId then
            { store1 with geom := some (JsMap.delete all overlayId) }
          else store1
        let store3 : Store :=
          if truthyStr overlayId then
            { store2 with kv := JsMap.delete store2.kv (STATE_KEY_PREFIX ++ overlayId) }
          else store2
        ({ c with store := store3 },
          [.tabsSendMessage tabId (.peekHide overlayId)] ++ stopPeer ++ stopStreaming
            ++ pushAllCountsToSources env store1)

/-- Source: `handleStopSession` (background.js 593-679). -/
def handleStopSession (env : Env) (sessionId : String) (c : Coordinator) :
    Coordinator × List Effect :=
  let sessions : JsMap String Session := c.store.sessions.getD JsMap.empty
  match JsMap.get sessions sessionId with
  | none => (c, [])
  | some session =>
    let outputs : JsMap Nat OutputEntry := session.outputs.getD JsMap.empty
    let hideOutputs : List Effect :=
      (JsMap.keys outputs).foldl
        (fun acc tabId =>
          (entryList (JsMap.get outputs tabId)).foldl
            (fun acc overlayId =>
              acc ++ [.tabsSendMessage tabId (.peekHide overlayId)]
                ++ hideOverlayIfNeeded env tabId overlayId)
            acc)
        []
    let hideSource : List Effect :=
      match session.sourceTabId, session.sourceOverlayId with
      | some tab, some ov =>
        if tab ≠ 0 ∧ truthyStr ov then hideOverlayIfNeeded env tab ov else []
      | _, _ => []
    let store1 : Store := { c.store with sessions := some (JsMap.delete sessions sessionId) }
    let recent : List String := c.recentSessionOrder.erase sessionId
    let all0 : JsMap String Geom := store1.geom.getD JsMap.empty
    let all1 : JsMap String Geom :=
      match session.sourceOverlayId with
      | some ov => if truthyStr ov && JsMap.has all0 ov then JsMap.delete all0 ov else all0
      | none => all0
    let all2 : JsMap String Geom :=
      (JsMap.keys outputs).foldl
        (fun all tid =>
          (entryList (JsMap.get outputs tid)).foldl
            (fun all ovId => if truthyStr ovId && JsMap.has all ovId then JsMap.delete all ovId else all)
            all)
        all1
    let store2 : Store := { store1 with geom := some all2 }
    let keysSource : List String :=
      match session.sourceOverlayId with
      | some ov => if truthyStr ov then [STATE_KEY_PREFIX ++ ov] else []
      | none => []
    let keysToRemove : List String :=
      (JsMap.keys outputs).foldl
        (fun keys tid =>
          (entryList (JsMap.get outputs tid)).foldl
            (fun keys ovId => if truthyStr ovId then keys ++ [STATE_KEY_PREFIX ++ ovId] else keys)
            keys)
        keysSource
    let store3 : Store :=
      if keysToRemove.length > 0 then
        { store2 with kv := keysToRemove.foldl (fun kv k => JsMap.delete kv k) store2.kv }
      else store2
    ({ c with store := store3, recentSessionOrder := recent },
      [.runtimeSendMessage (.stopCapture sessionId)] ++ hideOutputs ++ hideSource
        ++ scheduleAllCountsBroadcast env store3 250)

/-- How `setupOffscreenDocument` (background.js 1194-1206) ends: the
document exists already, it is created, or its creation is rejected. -/
inductive OffscreenSetup
  | present
  | created
  | failed
  deriving DecidableEq

/-- Source: `setupOffscreenDocument` (background.js 1194-1206). -/
def setupOffscreenDocument (o : OffscreenSetup) : List Effect :=
  match o with
  | .present => []
  | .created => [.createOffscreenDocument]
  | .failed => [.createOffscreenDocument]

/-- What `chrome.tabCapture.getMediaStreamId` hands to its callback: the
error left in `chrome.runtime.lastError`, or a stream id that may be missing. -/
inductive StreamGrant
  | lastError (message : String)
  | streamId (id : Option String)
  deriving DecidableEq

/-- The fields of a `chrome.tabs.Tab` that the coordinator reads. -/
structure SourceTab where
  id : Nat
  title : String
  deriving DecidableEq

/-- First loop of `handleStartCapture` (background.js 369-377). -/
def nextOrdinal (sessions : JsMap String Session) (tabId : Nat) : Nat :=
  (JsMap.keys sessions).foldl
    (fun nextOrdinal sid =>
      match JsMap.get sessions sid with
      | some s =>
        if s.sourceTabId = some tabId then
          let ord := s.sourceOrdinal.getD 0
          if ord ≥ nextOrdinal then ord + 1 else nextOrdinal
        else nextOrdinal
      | none => nextOrdinal)
    1

/-- Second loop of `handleStartCapture` (background.js 386-392). -/
def hasExistingForTab (sessions : JsMap String Session) (tabId : Nat) : Bool :=
  (JsMap.keys sessions).any
    (fun sid =>
      match JsMap.get sessions sid with
      | some s => decide (s.sourceTabId = some tabId)
      | none => false)

/-- Source: `handleStartCapture` (background.js 363-437). `sessionId` is the
value of `crypto.randomUUID()`, `grant` what the callback of
`getMediaStreamId` receives when the stream is requested. A rejected
`setupOffscreenDocument` rejects the whole call before anything is written. -/
def handleStartCapture (env : Env) (offscreen : OffscreenSetup) (sessionId : String)
    (grant : StreamGrant) (sourceTab : SourceTab) (c : Coordinator) : Coordinator × List Effect :=
  if offscreen = .failed then (c, setupOffscreenDocument offscreen)
  else
    let sessions : JsMap String Session := c.store.sessions.getD JsMap.empty
    let tabId := sourceTab.id
    let newSession : Session :=
      { sessionId := sessionId
        sourceTabId := some sourceTab.id
        sourceTabTitle := sourceTab.title
        sourceOrdinal := some (nextOrdinal sessions tabId)
        sourceOverlayId := none
        theme := none
        outputs := some JsMap.empty }
    let existing := hasExistingForTab sessions tabId
    let store' : Store := { c.store with sessions := some (JsMap.set sessions sessionId newSession) }
    let c' : Coordinator :=
      { c with store := store', recentSessionOrder := c.recentSessionOrder ++ [sessionId] }
    if existing then
      (c', setupOffscreenDocument offscreen
        ++ [.runtimeSendMessage (.attachSessionToTabCapture sessionId (.num tabId))]
        ++ scheduleAllCountsBroadcast env store' 250)
    else
      match grant with
      | .lastError _ => (c', setupOffscreenDocument offscreen ++ [.getMediaStreamId sourceTab.id])
      | .streamId none => (c', setupOffscreenDocument offscreen ++ [.getMediaStreamId sourceTab.id])
      | .streamId (some streamId) =>
        if truthyStr streamId then
          (c', setupOffscreenDocument offscreen
            ++ [.getMediaStreamId sourceTab.id,
                .runtimeSendMessage (.startCapture sessionId (some streamId) (.num tabId))]
            ++ scheduleAllCountsBroadcast env store' 250)
        else (c', setupOffscreenDocument offscreen ++ [.getMediaStreamId sourceTab.id])

/-- Source: `handleReconnect` (background.js 803-856). A session without an
`outputs` object makes `session.outputs[tab.id]` throw before anything is
sent. The second `try` block (839-854) reads `sessionForTab`, a name bound
only inside the `tabs.onUpdated` listener: evaluating it throws a
`ReferenceError` that the block's own `catch` swallows, so the block sends
nothing. -/
def handleReconnect (sessionId : String) (tab : Option Nat) (c : Coordinator) : List Effect :=
  match tab with
  | none => []
  | some tabId =>
    if tabId = 0 then []
    else
      let sessions : JsMap String Session := c.store.sessions.getD JsMap.empty
      match JsMap.get sessions sessionId with
      | none => []
      | some session =>
        match session.outputs with
        | none => []
        | some outputs =>
          match JsMap.get outputs tabId with
          | none => []
          | some val =>
            let options : Option Theme :=
              match session.theme with
              | some t => some t
              | none => c.store.options
            let first : List Effect :=
              (entryList (some val)).foldl
                (fun acc overlayId =>
                  acc ++ [.tabsSendMessage tabId (.createOutputOverlay sessionId overlayId options)])
                []
            let second : List Effect := []
            first ++ second

/-- Loop of the `chrome.tabs.onRemoved` listener (background.js 862-871): the
first session whose source is the closed tab is stopped, then the listener
returns. -/
def stopFirstSessionOfTab (env : Env) (tabId : Nat) (sessions : JsMap String Session)
    (c : Coordinator) : List String → Coordinator × List Effect
  | [] => (c, [])
  | sessionId :: rest =>
    match JsMap.get sessions sessionId with
    | some session =>
      if session.sourceTabId = some tabId then handleStopSession env sessionId c
      else stopFirstSessionOfTab env tabId sessions c rest
    | none => stopFirstSessionOfTab env tabId sessions c rest

/-- Source: the `chrome.tabs.onRemoved` listener (background.js 858-872). -/
def onTabRemoved (env : Env) (tabId : Nat) (c : Coordinator) : Coordinator × List Effect :=
  let sessions : JsMap String Session := c.store.sessions.getD JsMap.empty
  stopFirstSessionOfTab env tabId sessions c (JsMap.keys sessions)

/-- Source: `handleAssociateSourceOverlay` (background.js 469-478). -/
def handleAssociateSourceOverlay (env : Env) (sessionId : String) (overlayId : Option String)
    (c : Coordinator) : Coordinator × List Effect :=
  let sessions : JsMap String Session := c.store.sessions.getD JsMap.empty
  match JsMap.get sessions sessionId with
  | some session =>
    let session' : Session := { session with sourceOverlayId := overlayId }
    let store' : Store := { c.store with sessions := some (JsMap.set sessions sessionId session') }
    ({ c with store := store' }, pushAllCountsToSources env store')
  | none => (c, [])

/-- Sequencing of two awaited steps inside one `try` block: the second runs
only when the first is fulfilled. -/
def Outcome.andThen (first second : Outcome) : Outcome :=
  match first with
  | .ok => second
  | .rejected e => .rejected e

/-- Settlement of `try { body } catch (e) { handler(e) }`. -/
def Outcome.tryCatch (body : Outcome) (handler : Option String → Outcome) : Outcome :=
  match body with
  | .ok => .ok
  | .rejected e => handler e

/-- Settlement of the promise that `safeSendToTab` returns (background.js
236-251 and 324-339), following its two nested `try`/`catch` blocks. -/
def safeSendToTabSettles (env : Env) (tabId : Nat) (message : TabMsg) : Outcome :=
  Outcome.tryCatch (env.send false tabId message)
    (fun e =>
      let msg := (e.getD "").toLower
      if jsIncludes msg "receiving end" then
        Outcome.tryCatch (Outcome.andThen (env.inject tabId) (env.send true tabId message))
          (fun _ => .ok)
      else .ok)

/-- Value of the free identifier `sessions` in the body of
`handleRestartCapture` (background.js 440). No declaration of that name is in
scope there: every `sessions` of background.js is a `const` local to another
function. Evaluating the identifier throws a `ReferenceError`. -/
def restartCaptureSessions : Option (JsMap String Session) := none

/-- Source: `handleRestartCapture` (background.js 439-467). The result is
the error with which the returned promise rejects, or the calls made. -/
def handleRestartCapture (offscreen : OffscreenSetup) (grant : StreamGrant) (sessionId : String) :
    Except String (List Effect) :=
  match restartCaptureSessions with
  | none => .error "ReferenceError: sessions is not defined"
  | some sessions =>
    match JsMap.get sessions sessionId with
    | none => .ok []
    | some session =>
      if offscreen = .failed then .error "createDocument rejected"
      else
        match session.sourceTabId with
        | none => .error "TypeError: targetTabId"
        | some sourceTabId =>
          match grant with
          | .lastError _ => .ok (setupOffscreenDocument offscreen ++ [.getMediaStreamId sourceTabId])
          | .streamId none => .ok (setupOffscreenDocument offscreen ++ [.getMediaStreamId sourceTabId])
          | .streamId (some streamId) =>
            if truthyStr streamId then
              .ok (setupOffscreenDocument offscreen
                ++ [.getMediaStreamId sourceTabId,
                    .runtimeSendMessage (.startCapture sessionId (some streamId) .undefined)])
            else .ok (setupOffscreenDocument offscreen ++ [.getMediaStreamId sourceTabId])

/-- Source: the local `safeSend` of `restoreSourceAfterReload` (background.js
1051-1074). A failed injection is caught on its own, so the retry follows it
in any case. Without a source tab id the call itself throws an error that is
not a no-listener error. -/
def restoreSafeSend (env : Env) (sourceTabId : Option Nat) (message : TabMsg) : List Effect :=
  match sourceTabId with
  | none => []
  | some tab =>
    match env.send false tab message with
    | .ok => [.tabsSendMessage tab message]
    | .rejected e =>
      let msg := (e.getD "").toLower
      .tabsSendMessage tab message ::
        (if jsIncludes msg "receiving end" then
          [.executeScript tab, .tabsSendMessage tab message]
        else [])

/-- End of an awaited coordinator call: the state it leaves, the calls it
made, and whether its promise is fulfilled. -/
structure Settled where
  state : Coordinator
  effects : List Effect
  fulfilled : Bool

/-- Source: `restoreSourceAfterReload` (background.js 1005-1116).
`newOverlayId` is the value of `crypto.randomUUID()`. The field
`restoringPromise` tells whether a pending promise is stored; a stored
geometry always has a finite `x`. -/
def restoreSourceAfterReload (env : Env) (offscreen : OffscreenSetup) (grant : StreamGrant)
    (newOverlayId : String) (sessionId : String) (c : Coordinator) : Settled :=
  let state : RuntimeState :=
    (JsMap.get c.sessionRuntimeState sessionId).getD
      { reloading := false, restoring := false, restoringPromise := false }
  if state.restoringPromise then { state := c, effects := [], fulfilled := true }
  else
    let c1 : Coordinator :=
      { c with
        sessionRuntimeState :=
          JsMap.set c.sessionRuntimeState sessionId
            { state with restoring := true, restoringPromise := true } }
    let sessions : JsMap String Session := c1.store.sessions.getD JsMap.empty
    match JsMap.get sessions sessionId with
    | none =>
      { state :=
          { c1 with
            sessionRuntimeState :=
              JsMap.set c1.sessionRuntimeState sessionId
                { reloading := false, restoring := false, restoringPromise := false } }
        effects := []
        fulfilled := true }
    | some session =>
      let sourceTabId := session.sourceTabId
      let keep : Bool := truthyOpt session.sourceOverlayId
      let overlayId : String := if keep then session.sourceOverlayId.getD "" else newOverlayId
      let c2 : Coordinator :=
        if keep then c1
        else
          { c1 with
            store :=
              { c1.store with
                sessions :=
                  some (JsMap.set sessions sessionId
                    { session with sourceOverlayId := some newOverlayId }) } }
      let allGeoms : JsMap String Geom := c1.store.geom.getD JsMap.empty
      let saved : Option Geom := if truthyStr overlayId then JsMap.get allGeoms overlayId else none
      let options : Option Theme :=
        match session.theme with
        | some t => some t
        | none => c1.store.options
      let cnt : Nat := computeSessionOutputCount session
      let sends : List Effect :=
        restoreSafeSend env sourceTabId (.peekSetKind overlayId sessionId)
          ++ restoreSafeSend env sourceTabId (.peekShow overlayId)
          ++ (match options with
              | some o => restoreSafeSend env sourceTabId (.themeUpdate o sessionId)
              | none => [])
          ++ restoreSafeSend env sourceTabId (.outputsUpdated sessionId cnt)
          ++ (match saved with
              | some g => restoreSafeSend env sourceTabId (.restoreSourceGeom overlayId g)
              | none => [])
      let cur : RuntimeState :=
        (JsMap.get c2.sessionRuntimeState sessionId).getD
          { reloading := false, restoring := false, restoringPromise := false }
      let c3 : Coordinator :=
        { c2 with
          sessionRuntimeState :=
            JsMap.set c2.sessionRuntimeState sessionId
              { cur with restoring := false, restoringPromise := false } }
      match handleRestartCapture offscreen grant sessionId with
      | .ok restart =>
        { state := c3
          effects := sends ++ restart ++ [.runtimeSendMessage (.newOutputAdded sessionId .undefined)]
          fulfilled := true }
      | .error _ => { state := c3, effects := sends, fulfilled := false }

/-- Status of a tab as `changeInfo.status` reports it. -/
inductive TabStatus
  | unloaded
  | loading
  | complete
  deriving DecidableEq

/-- The fields of `changeInfo` that the `tabs.onUpdated` listener reads. -/
structure ChangeInfo where
  status : Option TabStatus
  url : Option String
  deriving DecidableEq

/-- How the first loop of the `tabs.onUpdated` listener ends: with a
`TypeError` (a session without `outputs`), without a session, or with the
first session that has the tab as source or as output. -/
inductive TabLookup
  | thrown
  | notFound
  | found (sessionId : String) (session : Session)
  deriving DecidableEq

/-- First loop of the `tabs.onUpdated` listener (background.js 880-889). -/
def findSessionForTab (sessions : JsMap String Session) (tabId : Nat) : List String → TabLookup
  | [] => .notFound
  | sessionId :: rest =>
    match JsMap.get sessions sessionId with
    | none => findSessionForTab sessions tabId rest
    | some s =>
      if s.sourceTabId = some tabId then .found sessionId s
      else
        match s.outputs with
        | none => .thrown
        | some outputs =>
          if (JsMap.get outputs tabId).isSome then .found sessionId s
          else findSessionForTab sessions tabId rest

/-- Output branch of the `tabs.onUpdated` listener (background.js 930-974).
The first message takes its id from `outputInfo.overlayId`, which is
`undefined` when the entry is an array. -/
def restoreOutputsOnUpdate (tabId : Nat) (changeInfo : ChangeInfo) (sessionIdForTab : String)
    (sessionForTab : Session) (c : Coordinator) : List Effect :=
  match sessionForTab.outputs with
  | none => []
  | some outputs =>
    match JsMap.get outputs tabId with
    | none => []
    | some outputInfo =>
      if changeInfo.status = some .loading ∨ changeInfo.status = some .complete then
        let options : Option Theme :=
          match sessionForTab.theme with
          | some t => some t
          | none => c.store.options
        let first : TabMsg :=
          match outputInfo with
          | .legacy (some overlayId) => .createOutputOverlay sessionIdForTab overlayId options
          | .legacy none => .createOutputOverlayNoId sessionIdForTab options
          | .list _ => .createOutputOverlayNoId sessionIdForTab options
        let list : List String :=
          match outputInfo with
          | .list l => l.drop 1
          | .legacy _ => []
        [.tabsSendMessage tabId first]
          ++ list.map (fun overlayId =>
              .tabsSendMessage tabId (.createOutputOverlay sessionIdForTab overlayId options))
          ++ [.runtimeSendMessage (.newOutputAdded sessionIdForTab (.num tabId))]
      else []

/-- Source: the `chrome.tabs.onUpdated` listener (background.js 874-975).
A rejected `restoreSourceAfterReload` rejects the listener, so the statement
that follows the `await` is skipped. -/
def onTabUpdated (env : Env) (offscreen : OffscreenSetup) (grant : StreamGrant)
    (newOverlayId : String) (tabId : Nat) (changeInfo : ChangeInfo) (c : Coordinator) :
    Coordinator × List Effect :=
  let sessions : JsMap String Session := c.store.sessions.getD JsMap.empty
  match findSessionForTab sessions tabId (JsMap.keys sessions) with
  | .thrown => (c, [])
  | .notFound => (c, [])
  | .found sessionIdForTab sessionForTab =>
    if sessionForTab.sourceTabId = some tabId then
      let st : RuntimeState :=
        (JsMap.get c.sessionRuntimeState sessionIdForTab).getD
          { reloading := false, restoring := false, restoringPromise := false }
      let c1 : Coordinator :=
        if changeInfo.status = some .loading ∧ truthyOpt changeInfo.url = false then
          { c with
            sessionRuntimeState :=
              JsMap.set c.sessionRuntimeState sessionIdForTab { st with reloading := true } }
        else c
      if changeInfo.status = some .loading ∧ truthyOpt changeInfo.url = true then
        handleStopSession env sessionIdForTab c1
      else if changeInfo.status = some .complete then
        let cur : RuntimeState :=
          (JsMap.get c1.sessionRuntimeState sessionIdForTab).getD
            { reloading := false, restoring := false, restoringPromise := false }
        if cur.reloading then
          let r := restoreSourceAfterReload env offscreen grant newOverlayId sessionIdForTab c1
          if r.fulfilled then
            ({ r.state with
               sessionRuntimeState :=
                JsMap.set r.state.sessionRuntimeState sessionIdForTab
                  { reloading := false, restoring := false, restoringPromise := false } },
              r.effects)
          else (r.state, r.effects)
        else if truthyOpt changeInfo.url then handleStopSession env sessionIdForTab c1
        else (c1, restoreOutputsOnUpdate tabId changeInfo sessionIdForTab sessionForTab c1)
      else (c1, restoreOutputsOnUpdate tabId changeInfo sessionIdForTab sessionForTab c1)
    else (c, restoreOutputsOnUpdate tabId changeInfo sessionIdForTab sessionForTab c)

/-! ## Source overlay badge (overlay.js) -/

/-- The `dataset` of an overlay root, as far as the badge reads it:
`peekSessionId` is absent until content.js writes it. -/
structure RootDataset where
  peekOverlayId : String
  peekSessionId : Option String
  deriving DecidableEq

/-- Source overlay after `create`: the dataset of its root and
`countSessionId`, the constant `sessionId` that the closure `updateCount`
captured when `hookLogic` ran (overlay.js 692). -/
structure SourceOverlay where
  root : RootDataset
  countSessionId : Option String
  deriving DecidableEq

/-- Source: `create` of a source overlay (overlay.js 408-495). The root is a
new element on which only `peekOverlayId` is set; `hookLogic`, called at line
492 and synchronous up to line 692, reads `root.dataset.peekSessionId` there
once. -/
def createSourceOverlay (id : String) : SourceOverlay :=
  let root : RootDataset := { peekOverlayId := id, peekSessionId := none }
  { root := root, countSessionId := root.peekSessionId }

/-- Source: `PEEK_SET_KIND` with kind `source` and a session id (content.js
573-599) for an overlay that has no connected root yet: `ov.ensure()` runs
`create`, and only then the session id is written into the dataset. -/
def onPeekSetKindSource (overlayId sessionId : String) : SourceOverlay :=
  let ov := createSourceOverlay overlayId
  { ov with root := { ov.root with peekSessionId := some sessionId } }

/-- Property key under which `obj[key]` looks a value up: `undefined` becomes
the string `undefined`. -/
def propertyKey : Option String → String
  | some key => key
  | none => "undefined"

/-- Source: `updateCount` in `hookLogic` (overlay.js 693-706): the number
written into the badge, `cnt || 0`. `sessions` is the stored registry,
`sessionId` the constant of the closure. -/
def updateCount (sessions : Option (JsMap String Session)) (sessionId : Option String) : Nat :=
  match sessions with
  | none => 0
  | some all =>
    match JsMap.get all (propertyKey sessionId) with
    | none => 0
    | some s =>
      match s.outputs with
      | none => 0
      | some outputs => (JsMap.keys outputs).length

/-- The number in the badge of a source overlay after a run of its
`updateCount`, the first one or one started by a registry change. -/
def badgeCount (ov : SourceOverlay) (sessions : Option (JsMap String Session)) : Nat :=
  updateCount sessions ov.countSessionId

/-! ## Numbers (IEEE 754 binary64) -/

/-- JS number: a finite double, given by the exact rational it denotes, an
infinity, or `NaN`. A value received from outside may be any rational, the
doubles among them; every operation below rounds its exact result to a double.
The sign of zero is not tracked: the code modelled here never divides by a
computed zero and never tells `-0` from `0`. -/
inductive JsNum
  | num (q : Rat)
  | posInf
  | negInf
  | nan
  deriving DecidableEq

instance (n : Nat) : OfNat JsNum n := ⟨.num (OfNat.ofNat n)⟩

/-- The double of a natural number below `2 ^ 53` (a length, a video size). -/
def JsNum.ofNat (n : Nat) : JsNum := .num (n : Rat)

/-- JS truthiness of a number: `NaN` and zero are falsy. -/
def JsNum.truthy : JsNum → Bool
  | .num q => decide (q ≠ 0)
  | .posInf => true
  | .negInf => true
  | .nan => false

/-- JS `a !== b` on numbers: `NaN` is not equal to anything, itself
included. -/
def JsNum.strictNe : JsNum → JsNum → Bool
  | .nan, _ => true
  | _, .nan => true
  | a, b => decide (a ≠ b)

/-- Nearest integer to a rational, a tie going to the even neighbour. -/
def roundHalfEven (q : Rat) : Int :=
  let f := Int.floor q
  let r := q - f
  if r < 1 / 2 then f else if 1 / 2 < r then f + 1 else if f % 2 = 0 then f else f + 1

/-- Rounding of an exact result to binary64, nearest with ties to even: 53
bits of significand, exponent of the last place not below `-1074`
(subnormals), and overflow to an infinity from `2 ^ 1024 - 2 ^ 970` on, the
midpoint between the largest finite double and `2 ^ 1024`. -/
def roundDouble (q : Rat) : JsNum :=
  let a := |q|
  if (2 : Rat) ^ 1024 - 2 ^ 970 ≤ a then (if 0 < q then .posInf else .negInf)
  else if a = 0 then .num 0
  else
    let e : Int := max (Int.log 2 a - 52) (-1074)
    let m : Int := roundHalfEven (a / (2 : Rat) ^ e)
    .num ((if 0 < q then 1 else -1) * (m : Rat) * (2 : Rat) ^ e)

/-- JS unary minus. -/
def JsNum.neg : JsNum → JsNum
  | .num q => .num (-q)
  | .posInf => .negInf
  | .negInf => .posInf
  | .nan => .nan

/-- JS `a + b`. -/
def JsNum.add : JsNum → JsNum → JsNum
  | .nan, _ => .nan
  | _, .nan => .nan
  | .posInf, .negInf => .nan
  | .negInf, .posInf => .nan
  | .posInf, _ => .posInf
  | _, .posInf => .posInf
  | .negInf, _ => .negInf
  | _, .negInf => .negInf
  | .num p, .num q => roundDouble (p + q)

/-- JS `a - b`, the sum of `a` and the negated `b`. -/
def JsNum.sub (a b : JsNum) : JsNum := JsNum.add a (JsNum.neg b)

/-- JS `a * b`. -/
def JsNum.mul : JsNum → JsNum → JsNum
  | .nan, _ => .nan
  | _, .nan => .nan
  | .num p, .num q => roundDouble (p * q)
  | .num p, .posInf => if p = 0 then .nan else if 0 < p then .posInf else .negInf
  | .num p, .negInf => if p = 0 then .nan else if 0 < p then .negInf else .posInf
  | .posInf, .num q => if q = 0 then .nan else if 0 < q then .posInf else .negInf
  | .negInf, .num q => if q = 0 then .nan else if 0 < q then .negInf else .posInf
  | .posInf, .posInf => .posInf
  | .negInf, .negInf => .posInf
  | .posInf, .negInf => .negInf
  | .negInf, .posInf => .negInf

/-- JS `a / b` (a zero divisor counts as `+0`). -/
def JsNum.div : JsNum → JsNum → JsNum
  | .nan, _ => .nan
  | _, .nan => .nan
  | .num p, .num q =>
    if q = 0 then (if p = 0 then .nan else if 0 < p then .posInf else .negInf)
    else roundDouble (p / q)
  | .num _, .posInf => .num 0
  | .num _, .negInf => .num 0
  | .posInf, .num q => if 0 ≤ q then .posInf else .negInf
  | .negInf, .num q => if 0 ≤ q then .negInf else .posInf
  | .posInf, .posInf => .nan
  | .posInf, .negInf => .nan
  | .negInf, .posInf => .nan
  | .negInf, .negInf => .nan

/-- JS `Math.max(a, b)`: `NaN` when either argument is. -/
def JsNum.max : JsNum → JsNum → JsNum
  | .nan, _ => .nan
  | _, .nan => .nan
  | .posInf, _ => .posInf
  | _, .posInf => .posInf
  | .negInf, b => b
  | a, .negInf => a
  | .num p, .num q => .num (Max.max p q)

/-- JS `Math.min(a, b)`: `NaN` when either argument is. -/
def JsNum.min : JsNum → JsNum → JsNum
  | .nan, _ => .nan
  | _, .nan => .nan
  | .negInf, _ => .negInf
  | _, .negInf => .negInf
  | .posInf, b => b
  | a, .posInf => a
  | .num p, .num q => .num (Min.min p q)

/-- JS `Math.round(a)`: the integer nearest to the exact value, a half going
up; infinities and `NaN` are returned as they are. -/
def JsNum.round : JsNum → JsNum
  | .num q => .num (Int.floor (q + 1 / 2) : Int)
  | .posInf => .posInf
  | .negInf => .negInf
  | .nan => .nan

/-! ## Capture engine: data (offscreen.js) -/

/-- Signaling state of an `RTCPeerConnection`. -/
inductive SignalingState
  | stable
  | haveLocalOffer
  | haveRemoteOffer
  | haveLocalPranswer
  | haveRemotePranswer
  | closed
  deriving DecidableEq, Repr

/-- Media track identity, by provenance: a track of the captured tab stream
(`getUserMedia`), a track of a canvas stream (`canvas.captureStream`), or a
clone made for one peer connection (`baseTrack.clone()`). The three kinds are
distinct objects; the maps of the engine each hold one kind only. -/
inductive Track
  | capture (id : Nat)
  | canvas (id : Nat)
  | clone (id : Nat)
  deriving DecidableEq, Repr

/-- Video track of a stream, with the attributes the engine reads. -/
structure MediaTrack where
  id : Nat
  ended : Bool
  width : Nat
  height : Nat
  deriving DecidableEq

/-- Stream with its video tracks (capture is video only). -/
structure MediaStream where
  id : Nat
  videoTracks : List MediaTrack
  deriving DecidableEq

/-- Hidden `<video>` element mirroring a capture. -/
structure Video where
  id : Nat
  srcObject : Option MediaStream
  videoWidth : Nat
  videoHeight : Nat
  hasFrameCallback : Bool
  deriving DecidableEq

/-- Peer connection: `addedIce` lists the candidates handed to
`addIceCandidate`, in call order. -/
structure PeerConnection where
  id : Nat
  signalingState : SignalingState
  remoteDescription : Option String
  addedIce : List Candidate
  deriving DecidableEq

/-- Offer payload stored per link. -/
structure OfferPayload where
  sessionId : String
  sdp : String
  srcW : JsNum
  srcH : JsNum
  offerId : String
  tabId : TabId
  deriving DecidableEq

/-- Crop region in source pixels, as stored: four JS numbers. -/
structure Region where
  x : JsNum
  y : JsNum
  w : JsNum
  h : JsNum
  deriving DecidableEq

/-- Render loop handle `{ interval, rvfc, video }`. -/
structure RenderHandle where
  interval : Nat
  rvfc : Nat
  video : Video
  deriving DecidableEq

/-- Crop payload as received from the source overlay: the session id, the
four numbers of `payload.geom` and the viewport size. -/
structure CropPayload where
  sessionId : String
  x : JsNum
  y : JsNum
  width : JsNum
  height : JsNum
  viewportWidth : JsNum
  viewportHeight : JsNum
  deriving DecidableEq

/-- Messages the engine sends back through `chrome.runtime.sendMessage`. -/
inductive EngineOut
  | offerGenerated (payload : OfferPayload)
  | cropAr (sessionId : String) (w : JsNum) (h : JsNum)
  deriving DecidableEq

/-- Calls of the engine that act on platform objects. -/
inductive EngineEffect
  | pcClose (pc : Nat)
  | trackStop (t : Track)
  | clearInterval (handle : Nat)
  | cancelVideoFrameCallback (video : Nat) (handle : Nat)
  | sendMessage (m : EngineOut)
  deriving DecidableEq

/-- Module-level maps of offscreen.js, with the trace of platform calls. -/
structure Engine where
  peerConnections : JsMap String PeerConnection
  pendingOffers : JsMap String OfferPayload
  pendingOutputIce : JsMap String (List Candidate)
  srcDims : JsMap String (Nat × Nat)
  srcViewport : JsMap String Unit
  scaledRegions : JsMap String Region
  videoElements : JsMap String Video
  canvasContexts : JsMap String Nat
  cropGeometries : JsMap String Unit
  animationFrameIds : JsMap String RenderHandle
  originalStreams : JsMap String MediaStream
  pendingCropPayload : JsMap String CropPayload
  currentOfferId : JsMap String String
  baseVideoByTab : JsMap TabId Video
  sessionsByTab : JsMap TabId (List String)
  sessionTab : JsMap String TabId
  baseOwnerByTab : JsMap TabId String
  pcByOutput : JsMap String PeerConnection
  offerByOutput : JsMap String OfferPayload
  pendingIceByOutput : JsMap String (List Candidate)
  offerIdByOutput : JsMap String String
  activeOutputTabs : JsMap String (List String)
  canvasStreams : JsMap String MediaStream
  sessionSenderTracks : JsMap String Nat
  outputSenderTracks : JsMap String Nat
  trace : List EngineEffect
  deriving DecidableEq

/-- Engine right after the module is loaded. -/
def Engine.init : Engine :=
  { peerConnections := [], pendingOffers := [], pendingOutputIce := [], srcDims := [],
    srcViewport := [], scaledRegions := [], videoElements := [], canvasContexts := [],
    cropGeometries := [], animationFrameIds := [], originalStreams := [],
    pendingCropPayload := [], currentOfferId := [], baseVideoByTab := [], sessionsByTab := [],
    sessionTab := [], baseOwnerByTab := [], pcByOutput := [], offerByOutput := [],
    pendingIceByOutput := [], offerIdByOutput := [], activeOutputTabs := [],
    canvasStreams := [], sessionSenderTracks := [], outputSenderTracks := [], trace := [] }

/-- Values the platform hands to the engine during one handler: fresh
objects, ids, and the outcome of the awaited media calls. -/
structure Platform where
  acquired : Option MediaStream
  video : Video
  canvasId : Nat
  canvasStream : MediaStream
  pcId : Nat
  cloneId : Nat
  offerSdp : Option String
  offerId : String
  loopHandle : Nat

/-! ## Capture engine: operations (offscreen.js) -/

/-- Source: `keyFor` (offscreen.js 27-29). -/
def keyFor (sessionId : String) (tabId : TabId) : String :=
  sessionId ++ ":" ++ tabId.render

/-- Source: `LEGACY_OUTPUT_KEY` (offscreen.js 33). -/
def LEGACY_OUTPUT_KEY : String := "__legacy__"

/-- Record one platform call in the trace. -/
def Engine.emit (e : Engine) (x : EngineEffect) : Engine :=
  { e with trace := e.trace ++ [x] }

/-- Source: `stopTrack` (offscreen.js 67-72). -/
def stopTrack (track : Option Track) (e : Engine) : Engine :=
  match track with
  | none => e
  | some t => e.emit (.trackStop t)

/-- Source: `releaseSessionTrack` (offscreen.js 101-107). -/
def releaseSessionTrack (sessionId : String) (e : Engine) : Engine :=
  match JsMap.get e.sessionSenderTracks sessionId with
  | some prev =>
    let e1 := stopTrack (some (.clone prev)) e
    { e1 with sessionSenderTracks := JsMap.delete e1.sessionSenderTracks sessionId }
  | none => e

/-- Source: `releaseOutputTrack` (offscreen.js 109-116). -/
def releaseOutputTrack (sessionId : String) (tabId : TabId) (e : Engine) : Engine :=
  let key := keyFor sessionId tabId
  match JsMap.get e.outputSenderTracks key with
  | some prev =>
    let e1 := stopTrack (some (.clone prev)) e
    { e1 with outputSenderTracks := JsMap.delete e1.outputSenderTracks key }
  | none => e

/-- Source: `normalizeOutputKey` (offscreen.js 118-120). -/
def normalizeOutputKey (tabId : TabId) : String :=
  match tabId with
  | .undefined => LEGACY_OUTPUT_KEY
  | t => t.render

/-- Source: `stopRenderLoop` (offscreen.js 887-903). -/
def stopRenderLoop (sessionId : String) (e : Engine) : Engine :=
  match JsMap.get e.animationFrameIds sessionId with
  | none => e
  | some handle =>
    let e1 := if handle.interval ≠ 0 then e.emit (.clearInterval handle.interval) else e
    let video := handle.video
    let e2 :=
      if handle.rvfc ≠ 0 ∧ video.hasFrameCallback then
        e1.emit (.cancelVideoFrameCallback video.id handle.rvfc)
      else e1
    { e2 with animationFrameIds := JsMap.delete e2.animationFrameIds sessionId }

/-- Source: `startRenderLoop` (offscreen.js 905-1014). The drawing itself
touches only the canvas bitmap, which is not part of the state. -/
def startRenderLoop (p : Platform) (sessionId : String) (e : Engine) : Engine :=
  if JsMap.has e.animationFrameIds sessionId then e
  else
    match JsMap.get e.activeOutputTabs sessionId with
    | none => e
    | some tabs =>
      if tabs.length = 0 then e
      else
        match JsMap.get e.videoElements sessionId, JsMap.get e.canvasContexts sessionId with
        | some video, some _ =>
          if video.hasFrameCallback then
            { e with animationFrameIds :=
                JsMap.set e.animationFrameIds sessionId { interval := 0, rvfc := p.loopHandle, video := video } }
          else
            { e with animationFrameIds :=
                JsMap.set e.animationFrameIds sessionId { interval := p.loopHandle, rvfc := 0, video := video } }
        | _, _ => e

/-- Source: `markOutputActive` (offscreen.js 122-133). -/
def markOutputActive (p : Platform) (sessionId : String) (tabId : TabId) (e : Engine) : Engine :=
  if !truthyStr sessionId then e
  else
    let key := normalizeOutputKey tabId
    let tabs : List String := (JsMap.get e.activeOutputTabs sessionId).getD []
    let e1 : Engine :=
      if JsMap.has e.activeOutputTabs sessionId then e
      else { e with activeOutputTabs := JsMap.set e.activeOutputTabs sessionId [] }
    if key ∈ tabs then e1
    else
      startRenderLoop p sessionId
        { e1 with activeOutputTabs := JsMap.set e1.activeOutputTabs sessionId (tabs ++ [key]) }

/-- Source: `markOutputInactive` (offscreen.js 135-145). -/
def markOutputInactive (sessionId : String) (tabId : TabId) (e : Engine) : Engine :=
  if !truthyStr sessionId then e
  else
    match JsMap.get e.activeOutputTabs sessionId with
    | none => e
    | some tabs =>
      let key := normalizeOutputKey tabId
      if key ∈ tabs then
        let tabs' := tabs.erase key
        if tabs'.length = 0 then
          stopRenderLoop sessionId
            { e with activeOutputTabs := JsMap.delete e.activeOutputTabs sessionId }
        else { e with activeOutputTabs := JsMap.set e.activeOutputTabs sessionId tabs' }
      else e

/-- Stale-offer guard shared by the `ANSWER` and `ICE_FROM_OUTPUT` cases:
`got && expected && got !== expected`. -/
def staleOffer (got expected : Option String) : Bool :=
  truthyOpt got && truthyOpt expected && decide (got ≠ expected)

/-- Continuation of a fulfilled `setRemoteDescription`: the remote
description is in place and the queued candidates are drained. -/
def applyAnswer (pc : PeerConnection) (sdp : Option String) (queued : Option (List Candidate)) :
    PeerConnection × Bool :=
  let pc1 : PeerConnection := { pc with signalingState := .stable, remoteDescription := sdp }
  match queued with
  | some (c :: cs) => ({ pc1 with addedIce := pc1.addedIce ++ (c :: cs) }, true)
  | _ => (pc1, false)

/-- Source: `case "ANSWER"` (offscreen.js 267-404). `accept` tells whether
the promise of `setRemoteDescription` is fulfilled. -/
def onAnswer (accept : Bool) (payload : SignalPayload) (e : Engine) : Engine :=
  let sid := payload.sessionId
  if payload.tabId.truthy then
    let key := keyFor sid payload.tabId
    let expected := JsMap.get e.offerIdByOutput key
    let payloadOfferId := if truthyOpt payload.offerId then payload.offerId else none
    match JsMap.get e.pcByOutput key with
    | none => e
    | some pcAnswer =>
      if !truthyOpt payload.sdp then e
      else if staleOffer payloadOfferId expected then e
      else if pcAnswer.signalingState ≠ .haveLocalOffer then e
      else if !accept then e
      else
        let r := applyAnswer pcAnswer payload.sdp (JsMap.get e.pendingIceByOutput key)
        { e with
          pcByOutput := JsMap.set e.pcByOutput key r.1
          pendingIceByOutput :=
            if r.2 then JsMap.delete e.pendingIceByOutput key else e.pendingIceByOutput }
  else
    let expected := JsMap.get e.currentOfferId sid
    let payloadOfferId := if truthyOpt payload.offerId then payload.offerId else none
    match JsMap.get e.peerConnections sid with
    | none => e
    | some pcAnswer =>
      if !truthyOpt payload.sdp then e
      else if staleOffer payloadOfferId expected then e
      else if pcAnswer.signalingState ≠ .haveLocalOffer then e
      else if !accept then e
      else
        let r := applyAnswer pcAnswer payload.sdp (JsMap.get e.pendingOutputIce sid)
        { e with
          peerConnections := JsMap.set e.peerConnections sid r.1
          pendingOutputIce :=
            if r.2 then JsMap.delete e.pendingOutputIce sid else e.pendingOutputIce }

/-- Source: `case "ICE_FROM_OUTPUT"` (offscreen.js 406-480). -/
def onIceFromOutput (payload : SignalPayload) (e : Engine) : Engine :=
  let sid := payload.sessionId
  if payload.tabId.truthy then
    let key := keyFor sid payload.tabId
    let expected := JsMap.get e.offerIdByOutput key
    match JsMap.get e.pcByOutput key, payload.candidate with
    | some pcIce, some candidate =>
      if !truthyStr candidate then e
      else if staleOffer payload.offerId expected then e
      else if pcIce.remoteDescription.isNone then
        let queue : List Candidate := (JsMap.get e.pendingIceByOutput key).getD []
        { e with pendingIceByOutput := JsMap.set e.pendingIceByOutput key (queue ++ [candidate]) }
      else
        { e with pcByOutput :=
            JsMap.set e.pcByOutput key { pcIce with addedIce := pcIce.addedIce ++ [candidate] } }
    | _, _ => e
  else
    let expected := JsMap.get e.currentOfferId sid
    match JsMap.get e.peerConnections sid, payload.candidate with
    | some pcIce, some candidate =>
      if !truthyStr candidate then e
      else if staleOffer payload.offerId expected then e
      else if pcIce.remoteDescription.isNone then
        let queue : List Candidate := (JsMap.get e.pendingOutputIce sid).getD []
        { e with pendingOutputIce := JsMap.set e.pendingOutputIce sid (queue ++ [candidate]) }
      else
        { e with peerConnections :=
            JsMap.set e.peerConnections sid { pcIce with addedIce := pcIce.addedIce ++ [candidate] } }
    | _, _ => e

/-- Source: `case "STOP_STREAMING"` (offscreen.js 544-551). -/
def onStopStreaming (sessionId : String) (e : Engine) : Engine :=
  let e1 :=
    match JsMap.get e.peerConnections sessionId with
    | some pc => e.emit (.pcClose pc.id)
    | none => e
  { e1 with
    peerConnections := JsMap.delete e1.peerConnections sessionId
    pendingOffers := JsMap.delete e1.pendingOffers sessionId
    pendingOutputIce := JsMap.delete e1.pendingOutputIce sessionId }

/-- First block of the `stop-output-peer` listener (offscreen.js 1104-1107):
close the connection stored under the key, if any. -/
def closeOutputPc (k : String) (e : Engine) : Engine :=
  match JsMap.get e.pcByOutput k with
  | some pc => e.emit (.pcClose pc.id)
  | none => e

/-- Source: the `stop-output-peer` listener (offscreen.js 1099-1114). -/
def onStopOutputPeer (sessionId : String) (tabId : TabId) (e : Engine) : Engine :=
  let k := keyFor sessionId tabId
  let e1 := closeOutputPc k e
  let e2 : Engine :=
    { e1 with
      pcByOutput := JsMap.delete e1.pcByOutput k
      offerByOutput := JsMap.delete e1.offerByOutput k
      pendingIceByOutput := JsMap.delete e1.pendingIceByOutput k
      offerIdByOutput := JsMap.delete e1.offerIdByOutput k }
  markOutputInactive sessionId tabId (releaseOutputTrack sessionId tabId e2)

/-- JS `s.startsWith(pre)`. -/
def jsStartsWith (s pre : String) : Bool :=
  List.isPrefixOf pre.toList s.toList

/-- Second piece of `k.split(":")`, `none` when there is no such piece. -/
def splitSecond (k : String) : Option String :=
  ((k.toList.splitOn ':').get? 1).map String.mk

/-- JS `Number(s)` on the strings found after the colon of a key: a decimal
numeral gives its value, any other string is taken to `NaN` (signs,
exponents, hexadecimal and blank strings never occur in a key). -/
def jsNumber (s : String) : TabId :=
  if s.toList ≠ [] ∧ s.toList.all Char.isDigit then
    .num (s.toList.foldl (fun n c => 10 * n + (c.toNat - 48)) 0)
  else .nan

/-- Tab id that the loop of `stopCapture` recovers from a key (offscreen.js
1044-1046): `tabIdStr === "undefined" ? undefined : Number(tabIdStr)` with
`tabIdStr` the second piece of `k.split(":")`. -/
def recoverTabId (k : String) : TabId :=
  match splitSecond k with
  | none => .nan
  | some tabIdStr => if tabIdStr = "undefined" then .undefined else jsNumber tabIdStr

/-- Body of the loop over `pcByOutput.entries()` in `stopCapture`
(offscreen.js 1035-1049). -/
def stopOutputsOf (sessionId : String) : List (String × PeerConnection) → Engine → Engine
  | [], e => e
  | (k, outPc) :: rest, e =>
    if jsStartsWith k (sessionId ++ ":") then
      let e1 := e.emit (.pcClose outPc.id)
      let e2 : Engine :=
        { e1 with
          pcByOutput := JsMap.delete e1.pcByOutput k
          offerByOutput := JsMap.delete e1.offerByOutput k
          pendingIceByOutput := JsMap.delete e1.pendingIceByOutput k
          offerIdByOutput := JsMap.delete e1.offerIdByOutput k }
      let tabIdVal : TabId := recoverTabId k
      stopOutputsOf sessionId rest (releaseOutputTrack sessionId tabIdVal e2)
    else stopOutputsOf sessionId rest e

/-- First block of `stopCapture` (offscreen.js 1017-1027): detach the
session from its tab and decide whether the base capture is released. -/
def detachFromTab (sessionId : String) (e : Engine) : Bool × Engine :=
  match JsMap.get e.sessionTab sessionId with
  | none => (true, e)
  | some tid =>
    if tid.truthy && JsMap.has e.sessionsByTab tid then
      let set : List String := ((JsMap.get e.sessionsByTab tid).getD []).erase sessionId
      if set.length > 0 then (false, { e with sessionsByTab := JsMap.set e.sessionsByTab tid set })
      else (true, { e with sessionsByTab := JsMap.delete e.sessionsByTab tid })
    else (true, e)

/-- Block of `stopCapture` guarded by `shouldStopBase` (offscreen.js
1052-1067): stop every track of the base stream and forget the mirror. -/
def releaseBase (tid : Option TabId) (e : Engine) : Engine :=
  match tid with
  | none => e
  | some t =>
    if t.truthy then
      let tracks : List MediaTrack :=
        match JsMap.get e.baseVideoByTab t with
        | some baseVideo =>
          (match baseVideo.srcObject with
            | some baseStream => baseStream.videoTracks
            | none => [])
        | none => []
      let e1 := tracks.foldl (fun acc tr => acc.emit (.trackStop (.capture tr.id))) e
      { e1 with
        baseVideoByTab := JsMap.delete e1.baseVideoByTab t
        baseOwnerByTab := JsMap.delete e1.baseOwnerByTab t }
    else e

/-- Close the session-level connection, if there is one: the block of
`stopCapture` at offscreen.js 1029-1032 and the first statement of
`setupPeerConnection` (offscreen.js 750-752). -/
def closeSessionPc (sessionId : String) (e : Engine) : Engine :=
  match JsMap.get e.peerConnections sessionId with
  | some pc => e.emit (.pcClose pc.id)
  | none => e

/-- Block of `stopCapture` that deletes the session from the session-keyed
maps (offscreen.js 1071-1083). -/
def clearSessionMaps (sessionId : String) (e : Engine) : Engine :=
  { e with
    peerConnections := JsMap.delete e.peerConnections sessionId
    pendingOffers := JsMap.delete e.pendingOffers sessionId
    pendingOutputIce := JsMap.delete e.pendingOutputIce sessionId
    videoElements := JsMap.delete e.videoElements sessionId
    canvasContexts := JsMap.delete e.canvasContexts sessionId
    cropGeometries := JsMap.delete e.cropGeometries sessionId
    animationFrameIds := JsMap.delete e.animationFrameIds sessionId
    srcDims := JsMap.delete e.srcDims sessionId
    srcViewport := JsMap.delete e.srcViewport sessionId
    scaledRegions := JsMap.delete e.scaledRegions sessionId
    pendingCropPayload := JsMap.delete e.pendingCropPayload sessionId }

/-- Block of `stopCapture` that stops and forgets the canvas stream
(offscreen.js 1089-1095). -/
def releaseCanvasStream (sessionId : String) (e : Engine) : Engine :=
  match JsMap.get e.canvasStreams sessionId with
  | some canvasStream =>
    let e1 := canvasStream.videoTracks.foldl (fun acc tr => stopTrack (some (.canvas tr.id)) acc) e
    { e1 with canvasStreams := JsMap.delete e1.canvasStreams sessionId }
  | none => e

/-- Source: `stopCapture` (offscreen.js 1016-1097). -/
def stopCapture (sessionId : String) (e : Engine) : Engine :=
  let tid := JsMap.get e.sessionTab sessionId
  let d := detachFromTab sessionId e
  let shouldStopBase := d.1
  let e3 := releaseSessionTrack sessionId (closeSessionPc sessionId d.2)
  let e4 := stopOutputsOf sessionId (JsMap.entries e3.pcByOutput) e3
  let e5 := if shouldStopBase then releaseBase tid e4 else e4
  let e7 := clearSessionMaps sessionId (stopRenderLoop sessionId e5)
  let e8 : Engine :=
    if shouldStopBase then { e7 with originalStreams := JsMap.delete e7.originalStreams sessionId }
    else e7
  let e9 := releaseCanvasStream sessionId e8
  { e9 with activeOutputTabs := JsMap.delete e9.activeOutputTabs sessionId }

/-- Source: `initCanvasStream` (offscreen.js 74-81). -/
def initCanvasStream (p : Platform) (sessionId : String) (e : Engine) : Option MediaStream × Engine :=
  match JsMap.get e.canvasContexts sessionId with
  | none => (none, e)
  | some _ => (some p.canvasStream, { e with canvasStreams := JsMap.set e.canvasStreams sessionId p.canvasStream })

/-- Source: `getCanvasStream` (offscreen.js 83-90). -/
def getCanvasStream (p : Platform) (sessionId : String) (e : Engine) : Option MediaStream × Engine :=
  match JsMap.get e.canvasStreams sessionId with
  | some stream =>
    (match stream.videoTracks.head? with
      | some track => if track.ended then initCanvasStream p sessionId e else (some stream, e)
      | none => initCanvasStream p sessionId e)
  | none => initCanvasStream p sessionId e

/-- Source: `createCanvasTrackClone` (offscreen.js 92-99). -/
def createCanvasTrackClone (p : Platform) (sessionId : String) (e : Engine) : Option Nat × Engine :=
  let r := getCanvasStream p sessionId e
  match r.1 with
  | none => (none, r.2)
  | some stream =>
    (match stream.videoTracks.head? with
      | some _ => (some p.cloneId, r.2)
      | none => (none, r.2))

/-- Source: `setupPeerConnection` (offscreen.js 749-817). The flag is
`false` when the awaited offer creation rejects. -/
def setupPeerConnection (p : Platform) (sessionId : String) (e : Engine) : Engine × Bool :=
  let e1 := closeSessionPc sessionId e
  let settings : Option MediaTrack :=
    match JsMap.get e1.videoElements sessionId with
    | some video =>
      (match video.srcObject with
        | some stream => stream.videoTracks.head?
        | none => none)
    | none => none
  match settings with
  | none => (e1, true)
  | some settings =>
    let pc : PeerConnection :=
      { id := p.pcId, signalingState := .stable, remoteDescription := none, addedIce := [] }
    let e2 : Engine := { e1 with peerConnections := JsMap.set e1.peerConnections sessionId pc }
    let e3 := releaseSessionTrack sessionId e2
    let r := createCanvasTrackClone p sessionId e3
    match r.1 with
    | none =>
      (({ r.2 with peerConnections := JsMap.delete r.2.peerConnections sessionId } : Engine).emit
        (.pcClose pc.id), true)
    | some track =>
      let e4 : Engine := { r.2 with sessionSenderTracks := JsMap.set r.2.sessionSenderTracks sessionId track }
      match p.offerSdp with
      | none => (e4, false)
      | some sdp =>
        let e5 : Engine :=
          { e4 with peerConnections :=
              JsMap.set e4.peerConnections sessionId { pc with signalingState := .haveLocalOffer } }
        let reg0 := JsMap.get e5.scaledRegions sessionId
        let cw : JsNum :=
          match reg0 with
          | some r => if r.w.truthy then r.w else JsNum.ofNat settings.width
          | none => JsNum.ofNat settings.width
        let ch : JsNum :=
          match reg0 with
          | some r => if r.h.truthy then r.h else JsNum.ofNat settings.height
          | none => JsNum.ofNat settings.height
        let offerPayload : OfferPayload :=
          { sessionId := sessionId, sdp := sdp, srcW := cw, srcH := ch, offerId := p.offerId,
            tabId := .undefined }
        ({ e5 with
            currentOfferId := JsMap.set e5.currentOfferId sessionId p.offerId
            pendingOffers := JsMap.set e5.pendingOffers sessionId offerPayload
            srcDims := JsMap.set e5.srcDims sessionId (settings.width, settings.height) }, true)

/-- Add a session to the set of a tab (`sessionsByTab.get(tabId).add`). -/
def addSessionToTab (tabId : TabId) (sessionId : String) (e : Engine) : Engine :=
  let set : List String := (JsMap.get e.sessionsByTab tabId).getD []
  { e with sessionsByTab :=
      JsMap.set e.sessionsByTab tabId (if sessionId ∈ set then set else set ++ [sessionId]) }

/-- Block of `startCapture` guarded by `if (tabId)` (offscreen.js 640-647):
register the mirror as the base of the tab and attach the session. -/
def registerBase (tabId : TabId) (sessionId : String) (video : Video) (e : Engine) : Engine :=
  let a : Engine :=
    { e with
      baseVideoByTab := JsMap.set e.baseVideoByTab tabId video
      sessionTab := JsMap.set e.sessionTab sessionId tabId }
  let b := addSessionToTab tabId sessionId a
  if JsMap.has b.baseOwnerByTab tabId then b
  else { b with baseOwnerByTab := JsMap.set b.baseOwnerByTab tabId sessionId }

/-- Source: `startCapture` (offscreen.js 571-698). The `streamId` argument
only selects between `getUserMedia` and `getDisplayMedia`; the outcome of
either is `p.acquired`. A rejection or exception inside the `try` block
leads to `stopCapture`. -/
def startCapture (p : Platform) (sessionId : String) (tabId : TabId) (e : Engine) : Engine :=
  let e1 := if JsMap.has e.peerConnections sessionId then stopCapture sessionId e else e
  match p.acquired with
  | none => stopCapture sessionId e1
  | some stream =>
    let e2 : Engine := { e1 with originalStreams := JsMap.set e1.originalStreams sessionId stream }
    match stream.videoTracks.head? with
    | none => stopCapture sessionId e2
    | some _ =>
      let video : Video := { p.video with srcObject := some stream }
      let e3 : Engine := { e2 with videoElements := JsMap.set e2.videoElements sessionId video }
      let e4 : Engine := if tabId.truthy then registerBase tabId sessionId video e3 else e3
      let e5 : Engine := { e4 with canvasContexts := JsMap.set e4.canvasContexts sessionId p.canvasId }
      let e6 := (initCanvasStream p sessionId e5).2
      let r := setupPeerConnection p sessionId e6
      if r.2 then
        let e7 : Engine := { r.1 with pendingCropPayload := JsMap.delete r.1.pendingCropPayload sessionId }
        startRenderLoop p sessionId e7
      else stopCapture sessionId r.1

/-- Source: `attachSessionToBase` (offscreen.js 701-746). A rejected
`setupPeerConnection` is only logged. -/
def attachSessionToBase (p : Platform) (tabId : TabId) (sessionId : String) (e : Engine) : Engine :=
  match JsMap.get e.baseVideoByTab tabId with
  | none => e
  | some baseVideo =>
    let e1 : Engine := { e with sessionTab := JsMap.set e.sessionTab sessionId tabId }
    let e2 := addSessionToTab tabId sessionId e1
    let e3 : Engine :=
      { e2 with
        videoElements := JsMap.set e2.videoElements sessionId baseVideo
        canvasContexts := JsMap.set e2.canvasContexts sessionId p.canvasId }
    let e4 := (initCanvasStream p sessionId e3).2
    let r := setupPeerConnection p sessionId e4
    if r.2 then
      let e5 := startRenderLoop p sessionId r.1
      match JsMap.get e5.scaledRegions sessionId with
      | some reg =>
        if reg.w.truthy && reg.h.truthy then e5.emit (.sendMessage (.cropAr sessionId reg.w reg.h))
        else e5
      | none => e5
    else r.1

/-- The four edges of `SET_VIDEO_CROP` after `Math.round` and before the
clamps. -/
structure CropEdges where
  left : JsNum
  top : JsNum
  right : JsNum
  bottom : JsNum
  deriving DecidableEq

/-- Scaling block of `SET_VIDEO_CROP` (offscreen.js 491-511): every operation
is a double operation, evaluated in the order of the source. -/
def cropEdges (videoW videoH : Nat) (payload : CropPayload) : CropEdges :=
  let videoW := JsNum.ofNat videoW
  let videoH := JsNum.ofNat videoH
  let vpW := JsNum.max 1 payload.viewportWidth
  let vpH := JsNum.max 1 payload.viewportHeight
  let scaleX := JsNum.div videoW vpW
  let scaleY := JsNum.div videoH vpH
  let scale := JsNum.min scaleX scaleY
  let offsetX := JsNum.div (JsNum.sub videoW (JsNum.mul vpW scale)) 2
  let offsetY := JsNum.div (JsNum.sub videoH (JsNum.mul vpH scale)) 2
  let rx := JsNum.add (JsNum.mul payload.x scale) offsetX
  let ry := JsNum.add (JsNum.mul payload.y scale) offsetY
  let rw := JsNum.mul payload.width scale
  let rh := JsNum.mul payload.height scale
  { left := JsNum.round rx
    top := JsNum.round ry
    right := JsNum.round (JsNum.add rx rw)
    bottom := JsNum.round (JsNum.add ry rh) }

/-- Clamping block of `SET_VIDEO_CROP` (offscreen.js 513-521): from the
rounded edges to the region `{ x, y, w, h }`. -/
def clampRegion (videoW videoH : Nat) (edges : CropEdges) : Region :=
  let videoW := JsNum.ofNat videoW
  let videoH := JsNum.ofNat videoH
  let left := JsNum.max 0 (JsNum.min edges.left (JsNum.sub videoW 1))
  let top := JsNum.max 0 (JsNum.min edges.top (JsNum.sub videoH 1))
  let right := JsNum.max (JsNum.add left 1) (JsNum.min edges.right videoW)
  let bottom := JsNum.max (JsNum.add top 1) (JsNum.min edges.bottom videoH)
  { x := left, y := top, w := JsNum.sub right left, h := JsNum.sub bottom top }

/-- Crop computation of `SET_VIDEO_CROP` (offscreen.js 491-521). -/
def computeCrop (videoW videoH : Nat) (payload : CropPayload) : Region :=
  clampRegion videoW videoH (cropEdges videoW videoH payload)

/-- Source: `case "SET_VIDEO_CROP"` (offscreen.js 482-538). The payload
carries its geometry (`payload.geom` is present). -/
def onSetVideoCrop (payload : CropPayload) (e : Engine) : Engine :=
  if truthyStr payload.sessionId && payload.viewportWidth.truthy then
    let sid := payload.sessionId
    match JsMap.get e.videoElements sid with
    | none => { e with pendingCropPayload := JsMap.set e.pendingCropPayload sid payload }
    | some video =>
      if video.videoWidth = 0 ∨ video.videoHeight = 0 then
        { e with pendingCropPayload := JsMap.set e.pendingCropPayload sid payload }
      else
        let r := computeCrop video.videoWidth video.videoHeight payload
        let prev := JsMap.get e.scaledRegions sid
        let e1 : Engine := { e with scaledRegions := JsMap.set e.scaledRegions sid r }
        match prev with
        | none => e1.emit (.sendMessage (.cropAr sid r.w r.h))
        | some p =>
          if JsNum.strictNe p.w r.w || JsNum.strictNe p.h r.h then
            e1.emit (.sendMessage (.cropAr sid r.w r.h))
          else e1
  else e

/-- What a suspended call of `setupPeerConnectionForOutput` keeps in its
closure while it awaits `createOffer` and `setLocalDescription`. -/
structure OutputSetup where
  sessionId : String
  tabId : TabId
  key : String
  pc : PeerConnection
  settings : MediaTrack
  deriving DecidableEq

/-- Source: `setupPeerConnectionForOutput` (offscreen.js 820-862), up to its
first `await`. The second component is `none` when the call has returned. -/
def setupPeerConnectionForOutputBegin (p : Platform) (sessionId : String) (tabId : TabId)
    (e : Engine) : Engine × Option OutputSetup :=
  let settings : Option MediaTrack :=
    match JsMap.get e.videoElements sessionId with
    | some video =>
      (match video.srcObject with
        | some stream => stream.videoTracks.head?
        | none => none)
    | none => none
  match settings with
  | none => (e, none)
  | some settings =>
    let pc : PeerConnection :=
      { id := p.pcId, signalingState := .stable, remoteDescription := none, addedIce := [] }
    let key := keyFor sessionId tabId
    let e1 : Engine := { e with pcByOutput := JsMap.set e.pcByOutput key pc }
    let e2 := releaseOutputTrack sessionId tabId e1
    let r := createCanvasTrackClone p sessionId e2
    match r.1 with
    | none =>
      (({ r.2 with pcByOutput := JsMap.delete r.2.pcByOutput key } : Engine).emit (.pcClose pc.id),
        none)
    | some track =>
      ({ r.2 with outputSenderTracks := JsMap.set r.2.outputSenderTracks key track },
        some { sessionId := sessionId, tabId := tabId, key := key, pc := pc, settings := settings })

/-- Source: `setupPeerConnectionForOutput` (offscreen.js 863-885), from the
fulfilment of `createOffer` and `setLocalDescription` on: `p.offerSdp` is
the offer (`none` when one of the two rejects), `p.offerId` the value of
`crypto.randomUUID()`. The local description belongs to the connection of the
closure; the map shows it when it still holds that connection. The flag
tells whether the promise of the call is fulfilled. -/
def setupPeerConnectionForOutputResume (p : Platform) (s : OutputSetup) (e : Engine) :
    Engine × Bool :=
  match p.offerSdp with
  | none => (e, false)
  | some sdp =>
    let e1 : Engine :=
      match JsMap.get e.pcByOutput s.key with
      | some pc =>
        if pc.id = s.pc.id then
          { e with pcByOutput := JsMap.set e.pcByOutput s.key { pc with signalingState := .haveLocalOffer } }
        else e
      | none => e
    let reg0 := JsMap.get e1.scaledRegions s.sessionId
    let cw : JsNum :=
      match reg0 with
      | some r => if r.w.truthy then r.w else JsNum.ofNat s.settings.width
      | none => JsNum.ofNat s.settings.width
    let ch : JsNum :=
      match reg0 with
      | some r => if r.h.truthy then r.h else JsNum.ofNat s.settings.height
      | none => JsNum.ofNat s.settings.height
    let offerPayload : OfferPayload :=
      { sessionId := s.sessionId, sdp := sdp, srcW := cw, srcH := ch, offerId := p.offerId,
        tabId := s.tabId }
    ({ e1 with
        offerIdByOutput := JsMap.set e1.offerIdByOutput s.key p.offerId
        offerByOutput := JsMap.set e1.offerByOutput s.key offerPayload }, true)

/-- Source: the `.then` callback of `case "new-output-added"` (offscreen.js
177-192). -/
def onOutputSetupDone (sessionId : String) (tabId : TabId) (e : Engine) : Engine :=
  let k := keyFor sessionId tabId
  let e1 : Engine :=
    match JsMap.get e.offerByOutput k with
    | some offerPayload => e.emit (.sendMessage (.offerGenerated offerPayload))
    | none => e
  match JsMap.get e1.scaledRegions sessionId with
  | some r =>
    if r.w.truthy && r.h.truthy then e1.emit (.sendMessage (.cropAr sessionId r.w r.h)) else e1
  | none => e1

/-- Source: `case "new-output-added"` with a truthy `msg.tabId` (offscreen.js
170-200), up to the first `await` of the setup. -/
def onNewOutputAddedForTab (p : Platform) (sessionId : String) (tabId : TabId) (e : Engine) :
    Engine × Option OutputSetup :=
  setupPeerConnectionForOutputBegin p sessionId tabId (markOutputActive p sessionId tabId e)

/-- Continuation of a suspended `new-output-added`: the rest of the setup
and, when its promise is fulfilled, the `.then` callback; a rejection is
only logged. -/
def finishOutputSetup (p : Platform) (s : OutputSetup) (e : Engine) : Engine :=
  let r := setupPeerConnectionForOutputResume p s e
  if r.2 then onOutputSetupDone s.sessionId s.tabId r.1 else r.1

/-! ## Vocabulary of the statements -/

/-- Latest offer id issued for the link a signaling payload addresses: the
per-viewer link when the payload carries a tab id, else the session link. -/
def latestOfferId (e : Engine) (payload : SignalPayload) : Option String :=
  if payload.tabId.truthy then JsMap.get e.offerIdByOutput (keyFor payload.sessionId payload.tabId)
  else JsMap.get e.currentOfferId payload.sessionId

/-- Connection of the link a signaling payload addresses. -/
def linkConnection (e : Engine) (payload : SignalPayload) : Option PeerConnection :=
  if payload.tabId.truthy then JsMap.get e.pcByOutput (keyFor payload.sessionId payload.tabId)
  else JsMap.get e.peerConnections payload.sessionId

/-- Candidates queued for the link a signaling payload addresses. -/
def linkQueue (e : Engine) (payload : SignalPayload) : Option (List Candidate) :=
  if payload.tabId.truthy then JsMap.get e.pendingIceByOutput (keyFor payload.sessionId payload.tabId)
  else JsMap.get e.pendingOutputIce payload.sessionId

/-- Session ids are UUIDs: they contain no colon. -/
def colonFree (s : String) : Prop := ':' ∉ s.toList

instance (s : String) : Decidable (colonFree s) :=
  inferInstanceAs (Decidable (':' ∉ s.toList))

/-- The five per-viewer maps: connection, pending offer, queued ICE, offer
id and sender track. -/
def Engine.links (e : Engine) :
    JsMap String PeerConnection × JsMap String OfferPayload × JsMap String (List Candidate)
      × JsMap String String × JsMap String Nat :=
  (e.pcByOutput, e.offerByOutput, e.pendingIceByOutput, e.offerIdByOutput, e.outputSenderTracks)

/-- Whether a platform call stops a track of a captured tab stream. -/
def isCaptureStop : EngineEffect → Bool
  | .trackStop (.capture _) => true
  | _ => false

/-- The calls of the trace that stop a track of a captured tab stream. -/
def Engine.captureStops (e : Engine) : List EngineEffect :=
  e.trace.filter isCaptureStop

/-- Capture sharing state: the base mirror per tab, the sessions attached
per tab, the tab of each session, and the captured tracks stopped so far. -/
def Engine.base (e : Engine) :
    JsMap TabId Video × JsMap TabId (List String) × JsMap String TabId × List EngineEffect :=
  (e.baseVideoByTab, e.sessionsByTab, e.sessionTab, e.captureStops)

/-- Tracks of the captured stream mirrored for tab `t`. -/
def baseTracks (m : JsMap TabId Video) (t : TabId) : List MediaTrack :=
  match JsMap.get m t with
  | some baseVideo =>
    (match baseVideo.srcObject with
      | some baseStream => baseStream.videoTracks
      | none => [])
  | none => []

/-- Sessions still attached to the tab of `sessionId` once it is detached. -/
def remainingSessions (sessionId : String) (tid : TabId) (e : Engine) : List String :=
  ((JsMap.get e.sessionsByTab tid).getD []).erase sessionId

/-- Keys of `pcByOutput` that the loop of `stopCapture(sessionId)` visits
and tears down. -/
def stoppedKeys (sessionId : String) (entries : List (String × PeerConnection)) : List String :=
  (entries.map Prod.fst).filter (fun k => jsStartsWith k (sessionId ++ ":"))

/-- Record of session `sid` in the persisted registry. -/
def Coordinator.session (c : Coordinator) (sid : String) : Option Session :=
  JsMap.get (c.store.sessions.getD JsMap.empty) sid

/-- Entry of output tab `tab` in the outputs map of session `sid`. -/
def Coordinator.outputsAt (c : Coordinator) (sid : String) (tab : Nat) : Option OutputEntry :=
  match c.session sid with
  | some s => JsMap.get (s.outputs.getD JsMap.empty) tab
  | none => none

/-- Overlay ids of a session's outputs, tab by tab in key order. -/
def outputOverlayIds (session : Session) : List String :=
  let outputs : JsMap Nat OutputEntry := session.outputs.getD JsMap.empty
  ((JsMap.keys outputs).map (fun tid => entryList (JsMap.get outputs tid))).flatten

/-- Overlay ids a session owns: its source overlay id and every id of its
outputs, the falsy (empty) ones left out. -/
def ownedOverlayIds (session : Session) : List String :=
  (session.sourceOverlayId.toList ++ outputOverlayIds session).filter truthyStr

/-- Sessions that `for (const sid in sessions)` visits, in enumeration
order, whose source is tab `tabId`. -/
def sessionsOfTab (sessions : JsMap String Session) (tabId : Nat) : List Session :=
  ((JsMap.keys sessions).filterMap (fun sid => JsMap.get sessions sid)).filter
    (fun s => decide (s.sourceTabId = some tabId))

/-- Ordinal of a session as `handleStartCapture` reads it: a missing
(non-numeric) `sourceOrdinal` counts as 0. -/
def ordinalOf (s : Session) : Nat := s.sourceOrdinal.getD 0

/-- Registry of the coordinator, `{}` when the store holds none. -/
def Coordinator.registry (c : Coordinator) : JsMap String Session :=
  c.store.sessions.getD JsMap.empty

/-- One operation on the registry: a `StartCapture` with the values the
platform produces for it, or a `StopSession`. -/
inductive RegistryOp
  | start (offscreen : OffscreenSetup) (sessionId : String) (grant : StreamGrant) (tab : SourceTab)
  | stop (sessionId : String)
  deriving DecidableEq

/-- Coordinator after one operation. -/
def runOp (env : Env) (op : RegistryOp) (c : Coordinator) : Coordinator :=
  match op with
  | .start offscreen sessionId grant tab => (handleStartCapture env offscreen sessionId grant tab c).1
  | .stop sessionId => (handleStopSession env sessionId c).1

/-- Coordinator after a sequence of operations. -/
def runOps (env : Env) (ops : List RegistryOp) (c : Coordinator) : Coordinator :=
  ops.foldl (fun c op => runOp env op c) c

/-- Every `StartCapture` of the sequence draws a session id that the
registry does not hold at that moment (ids are fresh UUIDs). -/
def freshIds (env : Env) : List RegistryOp → Coordinator → Bool
  | [], _ => true
  | .start offscreen sessionId grant tab :: rest, c =>
    (c.session sessionId).isNone
      && freshIds env rest (runOp env (.start offscreen sessionId grant tab) c)
  | .stop sessionId :: rest, c => freshIds env rest (runOp env (.stop sessionId) c)

/-- Ordinals given, in creation order, to the sessions that the sequence
starts on source tab `tabId`. -/
def assignedOrdinals (env : Env) (tabId : Nat) : List RegistryOp → Coordinator → List Nat
  | [], _ => []
  | .start offscreen sessionId grant tab :: rest, c =>
    let c' := runOp env (.start offscreen sessionId grant tab) c
    (if tab.id = tabId then
      (match c'.session sessionId with
        | some s => [ordinalOf s]
        | none => [])
    else [])
      ++ assignedOrdinals env tabId rest c'
  | .stop sessionId :: rest, c => assignedOrdinals env tabId rest (runOp env (.stop sessionId) c)

/-- Ordinals of the registered sessions of source tab `tabId`, in registry
order. -/
def liveOrdinals (sessions : JsMap String Session) (tabId : Nat) : List Nat :=
  ((JsMap.entries sessions).filter (fun e => decide (e.2.sourceTabId = some tabId))).map
    (fun e => ordinalOf e.2)

/-- No session id is registered twice, and for every source tab the
ordinals of its registered sessions increase strictly along the registry. -/
def registryOrdered (sessions : JsMap String Session) : Prop :=
  (JsMap.keys sessions).Nodup ∧ ∀ tabId, (liveOrdinals sessions tabId).Pairwise (fun a b => a < b)

/-- Coordinator with an empty store. -/
def coordinatorEmpty : Coordinator :=
  { store := { sessions := none, options := none, geom := none, kv := [] }
    sessionRuntimeState := []
    recentSessionOrder := [] }

/-- Source tab 1, titled `a`. -/
def tabA : SourceTab := { id := 1, title := "a" }

/-- Registry holding session `S1` whose outputs list the overlays `O1`, `O2`
of tab 2 and the legacy single overlay `O3` of tab 3. -/
def coordinatorWithOutputs : Coordinator :=
  { store :=
      { sessions := some
          [("S1", { sessionId := "S1", sourceTabId := some 1, sourceTabTitle := "a",
                    sourceOrdinal := some 1, sourceOverlayId := some "ov-src", theme := none,
                    outputs := some [(2, .list ["O1", "O2"]), (3, .legacy (some "O3"))] })]
        options := none
        geom := none
        kv := [] }
    sessionRuntimeState := []
    recentSessionOrder := ["S1"] }

/-- The stream request failed: the platform reported an error, or the
stream id handed to the callback is missing or empty. -/
def StreamGrant.refused : StreamGrant → Bool
  | .lastError _ => true
  | .streamId none => true
  | .streamId (some id) => !truthyStr id

/-- Platform on which the first delivery to a tab finds no listener and
the content script can be injected. -/
def envNoListener : Env :=
  { send := fun retry _ _ =>
      if retry then .ok
      else .rejected (some "Could not establish connection. Receiving end does not exist.")
    inject := fun _ => .ok }

/-- Platform on which the first delivery to a tab finds no listener and the
injection of the content script is refused. -/
def envNoInjection : Env :=
  { send := fun _ _ _ =>
      .rejected (some "Could not establish connection. Receiving end does not exist.")
    inject := fun _ => .rejected (some "Cannot access contents of the page.") }

/-- Platform on which the delivery to a tab fails because the tab is gone. -/
def envNoTab : Env :=
  { send := fun _ _ _ => .rejected (some "No tab with id."), inject := fun _ => .ok }

/-- A `new-output-added` for link (`sessionId`, `tabId`) whose setup is
suspended, then `between` runs (other handlers), then the continuation of
the setup. -/
def setupInterleaved (p : Platform) (sessionId : String) (tabId : TabId)
    (between : Engine → Engine) (e : Engine) : Engine :=
  let r := onNewOutputAddedForTab p sessionId tabId e
  match r.2 with
  | none => between r.1
  | some s => finishOutputSetup p s (between r.1)

/-- Engine in which session `s1` mirrors a captured stream with one video
track and has its canvas. -/
def engineCapturing : Engine :=
  { Engine.init with
    videoElements :=
      [("s1", { id := 1,
                srcObject := some { id := 1, videoTracks := [{ id := 100, ended := false, width := 1280, height := 720 }] },
                videoWidth := 1280, videoHeight := 720, hasFrameCallback := true })]
    canvasContexts := [("s1", 1)] }

/-- One of the operations that act on render loops and active viewers. -/
inductive ViewerOp
  | markActive (p : Platform) (sessionId : String) (tabId : TabId)
  | markInactive (sessionId : String) (tabId : TabId)
  | startLoop (p : Platform) (sessionId : String)
  | stopOutputPeer (sessionId : String) (tabId : TabId)
  | stopCapture (sessionId : String)

/-- Engine after one operation. -/
def runViewerOp (op : ViewerOp) (e : Engine) : Engine :=
  match op with
  | .markActive p sessionId tabId => markOutputActive p sessionId tabId e
  | .markInactive sessionId tabId => markOutputInactive sessionId tabId e
  | .startLoop p sessionId => startRenderLoop p sessionId e
  | .stopOutputPeer sessionId tabId => onStopOutputPeer sessionId tabId e
  | .stopCapture sessionId => stopCapture sessionId e

/-- Engine after a sequence of operations. -/
def runViewerOps (ops : List ViewerOp) (e : Engine) : Engine :=
  ops.foldl (fun e op => runViewerOp op e) e

/-- A render loop is registered for a session only if the session has a
non-empty set of active viewers. -/
def loopsOnlyWhileViewed (e : Engine) : Prop :=
  ∀ sessionId, (JsMap.get e.animationFrameIds sessionId).isSome = true →
    ∃ tabs, JsMap.get e.activeOutputTabs sessionId = some tabs ∧ tabs ≠ []

/-- The two maps behind render loops: loop handles and active viewers. -/
def Engine.loops (e : Engine) : JsMap String RenderHandle × JsMap String (List String) :=
  (e.animationFrameIds, e.activeOutputTabs)

/-- Platform on which every delivery to a tab succeeds. -/
def envAllOk : Env :=
  { send := fun _ _ _ => .ok, inject := fun _ => .ok }

/-- Registry holding session `S1` of source tab 1, without outputs. -/
def coordinatorOneSession : Coordinator :=
  { store :=
      { sessions := some [("S1", { sessionId := "S1", sourceTabId := some 1, sourceTabTitle := "a",
                                   sourceOrdinal := some 1, sourceOverlayId := some "ov-src",
                                   theme := none, outputs := some [] })]
        options := none
        geom := some [("ov-src", ⟨0, 0, 10, 10⟩), ("O1", ⟨1, 1, 5, 5⟩), ("zz", ⟨2, 2, 5, 5⟩)]
        kv := [("__peek_overlay_state__::O1", "paused"), ("__peek_overlay_state__::zz", "x")] }
    sessionRuntimeState := []
    recentSessionOrder := ["S1"] }

/-- Registry of `coordinatorOneSession`, with session `S1` marked as
reloading. -/
def coordinatorReloading : Coordinator :=
  { coordinatorOneSession with
    sessionRuntimeState :=
      [("S1", { reloading := true, restoring := false, restoringPromise := false })] }

/-- Registry holding session `S1` with overlays `O1`, `O2` on tab 2 and a
second session `S2`; the store also holds geometry and state of an overlay
`zz` that belongs to neither. -/
def coordinatorTwoSessions : Coordinator :=
  { store :=
      { sessions := some
          [("S1", { sessionId := "S1", sourceTabId := some 1, sourceTabTitle := "a",
                    sourceOrdinal := some 1, sourceOverlayId := some "ov-src", theme := none,
                    outputs := some [(2, .list ["O1", "O2"])] }),
           ("S2", { sessionId := "S2", sourceTabId := some 1, sourceTabTitle := "a",
                    sourceOrdinal := some 2, sourceOverlayId := none, theme := none,
                    outputs := some [] })]
        options := none
        geom := some [("ov-src", ⟨0, 0, 10, 10⟩), ("O1", ⟨1, 1, 5, 5⟩), ("zz", ⟨2, 2, 5, 5⟩)]
        kv := [("__peek_overlay_state__::O1", "paused"), ("__peek_overlay_state__::zz", "x")] }
    sessionRuntimeState := []
    recentSessionOrder := ["S1", "S2"] }

/-- Registry in which tab 1 is an output tab of session `S0` (source tab 9,
overlay `P1` on tab 1) and the source tab of session `S1`. -/
def coordinatorSharedTab : Coordinator :=
  { store :=
      { sessions := some
          [("S0", { sessionId := "S0", sourceTabId := some 9, sourceTabTitle := "z",
                    sourceOrdinal := some 1, sourceOverlayId := none, theme := none,
                    outputs := some [(1, .list ["P1"])] }),
           ("S1", { sessionId := "S1", sourceTabId := some 1, sourceTabTitle := "a",
                    sourceOrdinal := some 1, sourceOverlayId := none, theme := none,
                    outputs := some [] })]
        options := none
        geom := none
        kv := [] }
    sessionRuntimeState := []
    recentSessionOrder := ["S0", "S1"] }

/-- Engine after `startCapture(S1, streamId, T)` succeeded and session `S2`
was attached to the capture of the same tab by `attachSessionToBase(T, S2)`. -/
def twoSessionsOnTab (p1 p2 : Platform) (S1 S2 : String) (T : TabId) (e0 : Engine) : Engine :=
  attachSessionToBase p2 T S2 (startCapture p1 S1 T e0)

/-- The calls that stop every track of a captured stream. -/
def stopsOfStream (stream : MediaStream) : List EngineEffect :=
  stream.videoTracks.map (fun tr => .trackStop (.capture tr.id))

/-- Platform values of a successful capture: a stream with one video track,
its mirror, a canvas stream with one track, and a created offer. -/
def platformA : Platform :=
  { acquired := some { id := 1, videoTracks := [{ id := 100, ended := false, width := 1280, height := 720 }] }
    video := { id := 1, srcObject := none, videoWidth := 1280, videoHeight := 720, hasFrameCallback := true }
    canvasId := 1
    canvasStream := { id := 2, videoTracks := [{ id := 200, ended := false, width := 1, height := 1 }] }
    pcId := 1
    cloneId := 300
    offerSdp := some "v=0"
    offerId := "o1"
    loopHandle := 7 }

/-- Platform values handed out while the second session is attached. -/
def platformB : Platform :=
  { platformA with canvasId := 2, pcId := 2, cloneId := 301, offerId := "o2", loopHandle := 8,
                   canvasStream := { id := 3, videoTracks := [{ id := 201, ended := false, width := 1, height := 1 }] } }

/-- Engine with per-viewer links of two sessions: (`s1`, tab 5), (`s1`,
tab 6) and (`s2`, tab 5), each with connection, offer id and sender track. -/
def engineTwoSessions : Engine :=
  { Engine.init with
    pcByOutput :=
      [("s1:5", { id := 1, signalingState := .haveLocalOffer, remoteDescription := none, addedIce := [] }),
       ("s2:5", { id := 2, signalingState := .stable, remoteDescription := some "a", addedIce := [] }),
       ("s1:6", { id := 3, signalingState := .stable, remoteDescription := some "b", addedIce := [] })]
    offerIdByOutput := [("s1:5", "o1"), ("s2:5", "o2"), ("s1:6", "o3")]
    pendingIceByOutput := [("s1:5", ["c1"])]
    outputSenderTracks := [("s1:5", 11), ("s2:5", 12), ("s1:6", 13)] }

/-- Engine in which the key (`s1`, tab 5) has an offer id and a pending
offer but no connection in `pcByOutput`: what `setupPeerConnectionForOutput`
leaves when its continuation stores the offer after the link was torn down. -/
def engineOrphanOffer : Engine :=
  { Engine.init with
    offerByOutput :=
      [("s1:5", { sessionId := "s1", sdp := "v=0", srcW := 640, srcH := 480, offerId := "o1",
                  tabId := .num 5 })]
    offerIdByOutput := [("s1:5", "o1")] }

/-- Engine in which session `s1` mirrors a 1280 x 720 capture. -/
def engineWithMirror : Engine :=
  { Engine.init with
    videoElements :=
      [("s1", { id := 1, srcObject := none, videoWidth := 1280, videoHeight := 720,
                hasFrameCallback := true })] }

/-- Crop update of session `s1`: a 320 x 180 box at (100, 50) in a
1280 x 720 viewport. -/
def cropUpdate : CropPayload :=
  { sessionId := "s1", x := 100, y := 50, width := 320, height := 180,
    viewportWidth := 1280, viewportHeight := 720 }

/-- Crop update of session `s1` with finite geometry of huge magnitude: a
box of width `2 ^ 1023` whose left edge is at `-(2 ^ 1023)`, in a 1 x 1
viewport. -/
def cropOverflow : CropPayload :=
  { sessionId := "s1", x := .num (-(2 ^ 1023)), y := 0, width := .num (2 ^ 1023), height := 1,
    viewportWidth := 1, viewportHeight := 1 }

/-- Engine in which link (`s1`, tab 7) awaits the answer to offer `o1` while
the candidates `c1`, `c2` are queued for it. -/
def engineWithQueuedIce : Engine :=
  { Engine.init with
    pcByOutput := [("s1:7", { id := 1, signalingState := .haveLocalOffer,
                              remoteDescription := none, addedIce := [] })]
    offerIdByOutput := [("s1:7", "o1")]
    pendingIceByOutput := [("s1:7", ["c1", "c2"])] }

/-- Engine holding one per-viewer link of session `s1` to tab 7, awaiting
the answer to the offer with id `o1`. -/
def engineAwaitingAnswer : Engine :=
  { Engine.init with
    pcByOutput := [("s1:7", { id := 1, signalingState := .haveLocalOffer,
                              remoteDescription := none, addedIce := [] })]
    offerIdByOutput := [("s1:7", "o1")] }

/-! ## Lemmas on keyed collections -/

namespace JsMap

variable {κ α : Type} [DecidableEq κ]

theorem get_set_self (m : JsMap κ α) (k : κ) (v : α) : get (set m k v) k = some v := by
  induction m with
  | nil => simp [set, get]
  | cons e m ih =>
    obtain ⟨k', v'⟩ := e
    by_cases h : k' = k
    · simp [set, get, h]
    · simp [set, get, h, ih]

theorem get_set_other (m : JsMap κ α) {k k' : κ} (v : α) (h : k' ≠ k) :
    get (set m k v) k' = get m k' := by
  induction m with
  | nil => simp [set, get, Ne.symm h]
  | cons e m ih =>
    obtain ⟨k₀, v₀⟩ := e
    by_cases h₀ : k₀ = k
    · subst h₀
      simp [set, get, Ne.symm h]
    · by_cases h₁ : k₀ = k'
      · subst h₁
        simp [set, get, h₀]
      · simp [set, get, h₀, h₁, ih]

theorem get_delete_self (m : JsMap κ α) (k : κ) : get (delete m k) k = none := by
  induction m with
  | nil => simp [delete, get]
  | cons e m ih =>
    obtain ⟨k', v'⟩ := e
    by_cases h : k' = k
    · simp [delete, h, ih]
    · simp [delete, get, h, ih]

theorem get_delete_other (m : JsMap κ α) {k k' : κ} (h : k' ≠ k) :
    get (delete m k) k' = get m k' := by
  induction m with
  | nil => simp [delete, get]
  | cons e m ih =>
    obtain ⟨k₀, v₀⟩ := e
    by_cases h₀ : k₀ = k
    · subst h₀
      simp [delete, get, Ne.symm h, ih]
    · by_cases h₁ : k₀ = k'
      · subst h₁
        simp [delete, get, h₀]
      · simp [delete, get, h₀, h₁, ih]

theorem get_delete (m : JsMap κ α) (k k' : κ) :
    get (delete m k) k' = if k' = k then none else get m k' := by
  by_cases h : k' = k
  · subst h
    simp [get_delete_self]
  · simp [h, get_delete_other m h]

theorem get_set (m : JsMap κ α) (k k' : κ) (v : α) :
    get (set m k v) k' = if k' = k then some v else get m k' := by
  by_cases h : k' = k
  · subst h
    simp [get_set_self]
  · simp [h, get_set_other m v h]

theorem delete_of_get_none (m : JsMap κ α) (k : κ) (h : get m k = none) : delete m k = m := by
  induction m with
  | nil => rfl
  | cons e m ih =>
    obtain ⟨k', v'⟩ := e
    by_cases h' : k' = k
    · simp [get, h'] at h
    · simp only [get, h', if_false] at h
      simp [delete, h', ih h]

end JsMap

/-! ## Registry theorems -/

theorem foldl_add_eq_sum (f : Nat → Nat) (l : List Nat) (a : Nat) :
    l.foldl (fun cnt t => cnt + f t) a = a + (l.map f).sum := by
  induction l generalizing a with
  | nil => simp
  | cons x l ih => simp [ih, Nat.add_assoc]

/-- C3: for every session record `computeSessionOutputCount` returns the sum,
over the tab keys of the outputs map, of the length of that tab's overlay-id
list (a legacy object with an overlay id counts 1, any other non-list entry
0), and 0 for a session without an outputs map. -/
theorem C3_computeSessionOutputCount_eq_sum (session : Session) :
    computeSessionOutputCount session = specOutputCount session := by
  unfold computeSessionOutputCount specOutputCount
  cases hout : session.outputs with
  | none => simp [JsMap.empty, JsMap.keys]
  | some outputs =>
    simp only [Option.getD_some]
    rw [foldl_add_eq_sum (fun tid => match JsMap.get outputs tid with
        | some (.list v) => v.length
        | some (.legacy (some o)) => if truthyStr o then 1 else 0
        | _ => 0)]
    simp only [Nat.zero_add]
    congr 1
    apply List.map_congr_left
    intro tid _
    cases hget : JsMap.get outputs tid with
    | none => simp [specEntryCount]
    | some e =>
      cases e with
      | list ids => simp [specEntryCount]
      | legacy o =>
        cases o with
        | none => simp [specEntryCount]
        | some o =>
          by_cases ho : o = "" <;> simp [specEntryCount, truthyStr, ho]

theorem entryList_eq (prev : Option OutputEntry) :
    (match prev with
      | some (.list l) => l
      | some (.legacy (some o)) => if truthyStr o = true then [o] else []
      | _ => []) = entryList prev := by
  cases prev with
  | none => rfl
  | some v =>
    cases v with
    | list l => rfl
    | legacy o => cases o <;> rfl

theorem handleCreateOutput_fst (env : Env) (newOverlayId sessionId : String) (outputTab : Nat)
    (c : Coordinator) (session : Session) (h : c.session sessionId = some session) :
    (handleCreateOutput env newOverlayId sessionId outputTab c).1 =
      { c with
        store :=
          { c.store with
            sessions :=
              some (JsMap.set (c.store.sessions.getD JsMap.empty) sessionId
                { session with
                  outputs :=
                    some (JsMap.set (session.outputs.getD JsMap.empty) outputTab
                      (.list (entryList (JsMap.get (session.outputs.getD JsMap.empty) outputTab)
                        ++ [newOverlayId]))) }) } } := by
  unfold Coordinator.session at h
  unfold handleCreateOutput
  simp only [h, entryList_eq]
  split
  · rfl
  · rfl
  · split
    · split
      · rfl
      · split <;> rfl
    · rfl

/-- C4: `handleCreateOutput(S, T)` on a registry that contains `S` sets
`S.outputs[T]` to the previous list of `T` (empty without an entry) followed
by exactly the new overlay id, keeps the entries of every other tab and the
records of every other session, and two successive calls on a session
without outputs give `outputs[T] = [O1, O2]` with output count 2. -/
theorem C4_handleCreateOutput_appends (env : Env) (O1 O2 S : String) (T : Nat) (c : Coordinator)
    (session : Session) (h : c.session S = some session) :
    (handleCreateOutput env O1 S T c).1.outputsAt S T
        = some (.list (entryList (c.outputsAt S T) ++ [O1]))
    ∧ (∀ T', T' ≠ T → (handleCreateOutput env O1 S T c).1.outputsAt S T' = c.outputsAt S T')
    ∧ (∀ S', S' ≠ S → (handleCreateOutput env O1 S T c).1.session S' = c.session S')
    ∧ (session.outputs.getD JsMap.empty = JsMap.empty →
        (handleCreateOutput env O2 S T (handleCreateOutput env O1 S T c).1).1.outputsAt S T
            = some (.list [O1, O2])
        ∧ ((handleCreateOutput env O2 S T (handleCreateOutput env O1 S T c).1).1.session S).map
            computeSessionOutputCount = some 2) := by
  have e1 := handleCreateOutput_fst env O1 S T c session h
  have hs1 : (handleCreateOutput env O1 S T c).1.session S = some
      { session with
        outputs :=
          some (JsMap.set (session.outputs.getD JsMap.empty) T
            (.list (entryList (JsMap.get (session.outputs.getD JsMap.empty) T) ++ [O1]))) } := by
    rw [e1]
    simp [Coordinator.session, JsMap.get_set_self]
  refine ⟨?_, ?_, ?_, ?_⟩
  · simp [Coordinator.outputsAt, hs1, h, JsMap.get_set_self]
  · intro T' hT
    simp [Coordinator.outputsAt, hs1, h, JsMap.get_set_other _ _ hT]
  · intro S' hS
    rw [e1]
    simp [Coordinator.session, JsMap.get_set_other _ _ hS]
  · intro hempty
    have e2 := handleCreateOutput_fst env O2 S T _ _ hs1
    have hs2 : (handleCreateOutput env O2 S T (handleCreateOutput env O1 S T c).1).1.session S
        = some { session with outputs := some [(T, .list [O1, O2])] } := by
      have hempty' : session.outputs.getD ([] : List (Nat × OutputEntry)) = [] := hempty
      rw [e2]
      simp [Coordinator.session, JsMap.get_set_self, JsMap.empty, hempty', JsMap.set, JsMap.get,
        entryList]
    constructor
    · simp [Coordinator.outputsAt, hs2, JsMap.get]
    · simp [hs2, computeSessionOutputCount, JsMap.keys, JsMap.get]

/-- Witness of C4 on the registry with the single session `S1`. -/
theorem C4_handleCreateOutput_witness :
    (handleCreateOutput envAllOk "O1" "S1" 2 coordinatorOneSession).1.outputsAt "S1" 2
        = some (.list (entryList (coordinatorOneSession.outputsAt "S1" 2) ++ ["O1"]))
    ∧ (handleCreateOutput envAllOk "O2" "S1" 2
        (handleCreateOutput envAllOk "O1" "S1" 2 coordinatorOneSession).1).1.outputsAt "S1" 2
        = some (.list ["O1", "O2"]) :=
  have w := C4_handleCreateOutput_appends envAllOk "O1" "O2" "S1" 2 coordinatorOneSession
    { sessionId := "S1", sourceTabId := some 1, sourceTabTitle := "a", sourceOrdinal := some 1,
      sourceOverlayId := some "ov-src", theme := none, outputs := some [] } (by decide)
  ⟨w.1, (w.2.2.2 (by decide)).1⟩

theorem safeSendToTab_no_runtime (env : Env) (tabId : Nat) (message : TabMsg) (m : EngineMsg) :
    Effect.runtimeSendMessage m ∉ safeSendToTab env tabId message := by
  unfold safeSendToTab
  cases env.send false tabId message with
  | ok => simp
  | rejected e =>
    cases env.inject tabId with
    | ok => by_cases hi : jsIncludes (e.getD "").toLower "receiving end" = true <;> simp [hi]
    | rejected e' => by_cases hi : jsIncludes (e.getD "").toLower "receiving end" = true <;> simp [hi]

theorem pushAll_foldl_no_runtime (env : Env) (sessions : JsMap String Session) (m : EngineMsg)
    (ks : List String) (acc : List Effect) (hacc : Effect.runtimeSendMessage m ∉ acc) :
    Effect.runtimeSendMessage m ∉ ks.foldl
      (fun acc sid =>
        match JsMap.get sessions sid with
        | none => acc
        | some s =>
          match s.sourceTabId with
          | none => acc
          | some tab =>
            if tab = 0 then acc
            else acc ++ safeSendToTab env tab (.outputsUpdated sid (computeSessionOutputCount s)))
      acc := by
  induction ks generalizing acc with
  | nil => simpa using hacc
  | cons k ks ih =>
    simp only [List.foldl_cons]
    apply ih
    cases JsMap.get sessions k with
    | none => exact hacc
    | some s =>
      cases hs : s.sourceTabId with
      | none => simpa [hs] using hacc
      | some tab =>
        by_cases h0 : tab = 0
        · simpa [hs, h0] using hacc
        · simp [hs, h0, hacc, safeSendToTab_no_runtime]

theorem pushAllCountsToSources_no_runtime (env : Env) (store : Store) (m : EngineMsg) :
    Effect.runtimeSendMessage m ∉ pushAllCountsToSources env store := by
  unfold pushAllCountsToSources
  exact pushAll_foldl_no_runtime env _ m _ [] (by simp)

theorem handleCloseOutput_session (env : Env) (S : String) (T : Nat) (o : String)
    (c : Coordinator) (session : Session) (outs : JsMap Nat OutputEntry) (val : OutputEntry)
    (h : c.session S = some session) (ho : session.outputs = some outs)
    (hv : JsMap.get outs T = some val) :
    (handleCloseOutput env S T o c).1.session S = some
      { session with
        outputs :=
          some (if ((entryList (some val)).filter (fun id => decide (id ≠ o))).length > 0
            then JsMap.set outs T (.list ((entryList (some val)).filter (fun id => decide (id ≠ o))))
            else JsMap.delete outs T) } := by
  unfold Coordinator.session at h ⊢
  unfold handleCloseOutput
  simp only [h, ho, hv]
  by_cases h1 : JsMap.has (c.store.geom.getD JsMap.empty) o = true
  · by_cases h2 : truthyStr o = true
    · simp [h1, h2, JsMap.get_set_self]
    · simp [h1, h2, JsMap.get_set_self]
  · by_cases h2 : truthyStr o = true
    · simp [h1, h2, JsMap.get_set_self]
    · simp [h1, h2, JsMap.get_set_self]

theorem handleCloseOutput_effects (env : Env) (S : String) (T : Nat) (o : String)
    (c : Coordinator) (session : Session) (outs : JsMap Nat OutputEntry) (val : OutputEntry)
    (h : c.session S = some session) (ho : session.outputs = some outs)
    (hv : JsMap.get outs T = some val) :
    ∃ store1 : Store, (handleCloseOutput env S T o c).2 =
      [.tabsSendMessage T (.peekHide o)]
        ++ (if ((entryList (some val)).filter (fun id => decide (id ≠ o))).length > 0 then []
            else [.runtimeSendMessage (.stopOutputPeer S (.num T))])
        ++ (if (JsMap.keys
              (if ((entryList (some val)).filter (fun id => decide (id ≠ o))).length > 0
                then JsMap.set outs T (.list ((entryList (some val)).filter (fun id => decide (id ≠ o))))
                else JsMap.delete outs T)).length = 0
            then [.runtimeSendMessage (.stopStreaming S)] else [])
        ++ pushAllCountsToSources env store1 := by
  unfold Coordinator.session at h
  unfold handleCloseOutput
  simp only [h, ho, hv]
  exact ⟨_, rfl⟩

/-- C5: for a session `S` with a list `L` registered for tab `T`,
`handleCloseOutput(S, T, o)` stores `L` without `o` when that list is not
empty and then sends no stop-output-peer message; when the list becomes
empty it deletes the key `T` from `S.outputs` and sends stop-output-peer for
(`S`, `T`) to the engine. -/
theorem C5_handleCloseOutput_list (env : Env) (S : String) (T : Nat) (o : String)
    (c : Coordinator) (session : Session) (outs : JsMap Nat OutputEntry) (L : List String)
    (h : c.session S = some session) (ho : session.outputs = some outs)
    (hL : JsMap.get outs T = some (.list L)) :
    (L.filter (fun id => decide (id ≠ o)) ≠ [] →
        (handleCloseOutput env S T o c).1.outputsAt S T
            = some (.list (L.filter (fun id => decide (id ≠ o))))
        ∧ ∀ s t, Effect.runtimeSendMessage (.stopOutputPeer s t)
            ∉ (handleCloseOutput env S T o c).2)
    ∧ (L.filter (fun id => decide (id ≠ o)) = [] →
        (handleCloseOutput env S T o c).1.outputsAt S T = none
        ∧ (∃ s', (handleCloseOutput env S T o c).1.session S = some s'
            ∧ s'.outputs = some (JsMap.delete outs T))
        ∧ Effect.runtimeSendMessage (.stopOutputPeer S (.num T))
            ∈ (handleCloseOutput env S T o c).2) := by
  have hs := handleCloseOutput_session env S T o c session outs (.list L) h ho hL
  obtain ⟨store1, he⟩ := handleCloseOutput_effects env S T o c session outs (.list L) h ho hL
  simp only [entryList] at hs he
  constructor
  · intro hne
    have hlen : (L.filter (fun id => decide (id ≠ o))).length > 0 := List.length_pos.mpr hne
    simp only [hlen, if_true] at hs he
    constructor
    · simp [Coordinator.outputsAt, hs, JsMap.get_set_self]
    · intro s t
      rw [he]
      have hp := pushAllCountsToSources_no_runtime env store1 (.stopOutputPeer s t)
      split <;> simp [hp]
  · intro hnil
    simp only [hnil, List.length_nil, gt_iff_lt, Nat.lt_irrefl, if_false] at hs he
    refine ⟨?_, ⟨_, hs, rfl⟩, ?_⟩
    · simp [Coordinator.outputsAt, hs, JsMap.get_delete_self]
    · rw [he]
      simp

/-- Witness of C5: closing `O1` on tab 2 keeps `[O2]`; closing `O2` next
removes the tab entry. -/
theorem C5_handleCloseOutput_witness :
    (handleCloseOutput envAllOk "S1" 2 "O1"
        (handleCreateOutput envAllOk "O2" "S1" 2
          (handleCreateOutput envAllOk "O1" "S1" 2 coordinatorOneSession).1).1).1.outputsAt "S1" 2
      = some (.list ["O2"]) :=
  ((C5_handleCloseOutput_list envAllOk "S1" 2 "O1"
      (handleCreateOutput envAllOk "O2" "S1" 2
        (handleCreateOutput envAllOk "O1" "S1" 2 coordinatorOneSession).1).1
      { sessionId := "S1", sourceTabId := some 1, sourceTabTitle := "a", sourceOrdinal := some 1,
        sourceOverlayId := some "ov-src", theme := none,
        outputs := some [(2, .list ["O1", "O2"])] }
      [(2, .list ["O1", "O2"])] ["O1", "O2"] (by decide) rfl (by decide)).1 (by decide)).1

/-- C6: when `handleCloseOutput` runs on a registered tab of session `S`, the
session record stays in the registry with `sessionId`, `sourceTabId`,
`sourceOrdinal` and `sourceOverlayId` unchanged, and `STOP_STREAMING` for `S`
is sent exactly when the outputs map of `S` is empty after the removal. -/
theorem C6_handleCloseOutput_last_overlay (env : Env) (S : String) (T : Nat) (o : String)
    (c : Coordinator) (session : Session) (outs : JsMap Nat OutputEntry) (val : OutputEntry)
    (h : c.session S = some session) (ho : session.outputs = some outs)
    (hv : JsMap.get outs T = some val) :
    ∃ s', (handleCloseOutput env S T o c).1.session S = some s'
      ∧ s'.sessionId = session.sessionId ∧ s'.sourceTabId = session.sourceTabId
      ∧ s'.sourceOrdinal = session.sourceOrdinal ∧ s'.sourceOverlayId = session.sourceOverlayId
      ∧ (Effect.runtimeSendMessage (.stopStreaming S) ∈ (handleCloseOutput env S T o c).2
          ↔ s'.outputs = some JsMap.empty) := by
  have hs := handleCloseOutput_session env S T o c session outs val h ho hv
  obtain ⟨store1, he⟩ := handleCloseOutput_effects env S T o c session outs val h ho hv
  refine ⟨_, hs, rfl, rfl, rfl, rfl, ?_⟩
  rw [he]
  have hp := pushAllCountsToSources_no_runtime env store1 (.stopStreaming S)
  generalize (if ((entryList (some val)).filter (fun id => decide (id ≠ o))).length > 0
      then JsMap.set outs T (.list ((entryList (some val)).filter (fun id => decide (id ≠ o))))
      else JsMap.delete outs T) = outs'
  have hk : (JsMap.keys outs').length = 0 ↔ outs' = JsMap.empty := by
    cases outs' with
    | nil => simp [JsMap.keys, JsMap.empty]
    | cons a l => simp [JsMap.keys, JsMap.empty]
  by_cases hz : (JsMap.keys outs').length = 0
  · have := hk.mp hz
    subst this
    simp [JsMap.keys, JsMap.empty]
  · have hne : outs' ≠ JsMap.empty := fun hh => hz (hk.mpr hh)
    simp only [hz, if_false, List.append_nil]
    constructor
    · intro hmem
      exfalso
      simp only [List.mem_append, List.mem_singleton] at hmem
      rcases hmem with (hmem | hmem) | hmem
      · cases hmem
      · split at hmem
        · cases hmem
        · simp at hmem
      · exact hp hmem
    · intro heq
      exact absurd (Option.some.inj heq) hne

/-- Witness of C6: closing the only overlay of `S1` empties its outputs map,
keeps the record and sends `STOP_STREAMING`. -/
theorem C6_handleCloseOutput_witness :
    ∃ s', (handleCloseOutput envAllOk "S1" 2 "O1"
          (handleCreateOutput envAllOk "O1" "S1" 2 coordinatorOneSession).1).1.session "S1" = some s'
      ∧ s'.sessionId = "S1" ∧ s'.sourceTabId = some 1
      ∧ s'.sourceOrdinal = some 1 ∧ s'.sourceOverlayId = some "ov-src"
      ∧ (Effect.runtimeSendMessage (.stopStreaming "S1")
            ∈ (handleCloseOutput envAllOk "S1" 2 "O1"
                (handleCreateOutput envAllOk "O1" "S1" 2 coordinatorOneSession).1).2
          ↔ s'.outputs = some JsMap.empty) :=
  C6_handleCloseOutput_last_overlay envAllOk "S1" 2 "O1"
    (handleCreateOutput envAllOk "O1" "S1" 2 coordinatorOneSession).1
    { sessionId := "S1", sourceTabId := some 1, sourceTabTitle := "a", sourceOrdinal := some 1,
      sourceOverlayId := some "ov-src", theme := none, outputs := some [(2, .list ["O1"])] }
    [(2, .list ["O1"])] (.list ["O1"]) (by decide) rfl (by decide)

theorem foldl_nested_eq_flatten {α β γ : Type} (g : β → γ → β) (F : α → List γ) (ks : List α)
    (init : β) :
    ks.foldl (fun acc k => (F k).foldl g acc) init = ((ks.map F).flatten).foldl g init := by
  rw [List.foldl_flatten, List.foldl_map]

theorem get_purge_foldl (ids : List String) (all : JsMap String Geom) (k : String) :
    JsMap.get (ids.foldl
        (fun all ovId => if (truthyStr ovId && JsMap.has all ovId) = true then JsMap.delete all ovId
          else all) all) k
      = if k ∈ ids.filter truthyStr then none else JsMap.get all k := by
  induction ids generalizing all with
  | nil => simp
  | cons id ids ih =>
    simp only [List.foldl_cons]
    rw [ih]
    have hstep : JsMap.get (if (truthyStr id && JsMap.has all id) = true then JsMap.delete all id
        else all) k = if truthyStr id = true ∧ k = id then none else JsMap.get all k := by
      by_cases ht : truthyStr id = true
      · by_cases hh : JsMap.has all id = true
        · simp [ht, hh, JsMap.get_delete]
        · have hnone : JsMap.get all id = none := by
            simpa [JsMap.has] using hh
          by_cases hk : k = id
          · subst hk
            simp [ht, hh, hnone]
          · simp [ht, hh, hk]
      · simp [ht]
    rw [hstep]
    by_cases ht : truthyStr id = true
    · by_cases hk : k = id
      · subst hk
        simp [ht, List.filter_cons]
      · by_cases hm : k ∈ ids.filter truthyStr
        · simp [ht, hk, hm, List.filter_cons]
        · simp [ht, hk, hm, List.filter_cons]
    · by_cases hm : k ∈ ids.filter truthyStr
      · simp [ht, hm, List.filter_cons]
      · simp [ht, hm, List.filter_cons]

theorem stateKeys_foldl (ids : List String) (keys : List String) :
    ids.foldl (fun keys ovId => if truthyStr ovId = true then keys ++ [STATE_KEY_PREFIX ++ ovId]
        else keys) keys
      = keys ++ (ids.filter truthyStr).map (fun ov => STATE_KEY_PREFIX ++ ov) := by
  induction ids generalizing keys with
  | nil => simp
  | cons id ids ih =>
    simp only [List.foldl_cons]
    rw [ih]
    by_cases ht : truthyStr id = true
    · simp [ht, List.filter_cons]
    · simp [ht, List.filter_cons]

theorem get_delete_foldl {α : Type} (ks : List String) (kv : JsMap String α) (k : String) :
    JsMap.get (ks.foldl (fun kv k => JsMap.delete kv k) kv) k
      = if k ∈ ks then none else JsMap.get kv k := by
  induction ks generalizing kv with
  | nil => simp
  | cons a ks ih =>
    simp only [List.foldl_cons]
    rw [ih]
    by_cases hm : k ∈ ks
    · simp [hm]
    · by_cases ha : k = a
      · subst ha
        simp [hm, JsMap.get_delete_self]
      · simp [hm, ha, JsMap.get_delete_other _ ha]

theorem handleStopSession_store (env : Env) (S : String) (c : Coordinator) (session : Session)
    (h : c.session S = some session) :
    (handleStopSession env S c).1.store.sessions
        = some (JsMap.delete (c.store.sessions.getD JsMap.empty) S)
    ∧ (∀ k, JsMap.get ((handleStopSession env S c).1.store.geom.getD JsMap.empty) k
        = if k ∈ ownedOverlayIds session then none
          else JsMap.get (c.store.geom.getD JsMap.empty) k)
    ∧ (∀ k, JsMap.get (handleStopSession env S c).1.store.kv k
        = if k ∈ (ownedOverlayIds session).map (fun ov => STATE_KEY_PREFIX ++ ov) then none
          else JsMap.get c.store.kv k) := by
  unfold Coordinator.session at h
  unfold handleStopSession
  simp only [h]
  rw [foldl_nested_eq_flatten
      (fun all ovId => if (truthyStr ovId && JsMap.has all ovId) = true then JsMap.delete all ovId
        else all)
      (fun tid => entryList (JsMap.get (session.outputs.getD JsMap.empty) tid)),
    foldl_nested_eq_flatten
      (fun keys ovId => if truthyStr ovId = true then keys ++ [STATE_KEY_PREFIX ++ ovId] else keys)
      (fun tid => entryList (JsMap.get (session.outputs.getD JsMap.empty) tid)),
    stateKeys_foldl]
  have hkeys : (match session.sourceOverlayId with
        | some ov => if truthyStr ov = true then [STATE_KEY_PREFIX ++ ov] else []
        | none => ([] : List String))
        ++ (((JsMap.keys (session.outputs.getD JsMap.empty)).map
              (fun tid => entryList (JsMap.get (session.outputs.getD JsMap.empty) tid))).flatten.filter
              truthyStr).map (fun ov => STATE_KEY_PREFIX ++ ov)
      = (ownedOverlayIds session).map (fun ov => STATE_KEY_PREFIX ++ ov) := by
    unfold ownedOverlayIds outputOverlayIds
    cases session.sourceOverlayId with
    | none => simp
    | some ov => by_cases ht : truthyStr ov = true <;> simp [ht, List.filter_cons]
  rw [hkeys]
  refine ⟨?_, ?_, ?_⟩
  · split <;> rfl
  · intro k
    have hgeom : ∀ st : Store, st.geom = some ((((JsMap.keys (session.outputs.getD JsMap.empty)).map
              (fun tid => entryList (JsMap.get (session.outputs.getD JsMap.empty) tid))).flatten).foldl
            (fun all ovId => if (truthyStr ovId && JsMap.has all ovId) = true then JsMap.delete all ovId
              else all)
            (match session.sourceOverlayId with
              | some ov =>
                if (truthyStr ov && JsMap.has (c.store.geom.getD JsMap.empty) ov) = true then
                  JsMap.delete (c.store.geom.getD JsMap.empty) ov
                else c.store.geom.getD JsMap.empty
              | none => c.store.geom.getD JsMap.empty)) →
        JsMap.get (st.geom.getD JsMap.empty) k = if k ∈ ownedOverlayIds session then none
          else JsMap.get (c.store.geom.getD JsMap.empty) k := by
      intro st hst
      rw [hst, Option.getD_some, get_purge_foldl]
      unfold ownedOverlayIds outputOverlayIds
      cases session.sourceOverlayId with
      | none => simp
      | some ov =>
        have h1 := get_purge_foldl [ov] (c.store.geom.getD JsMap.empty) k
        simp only [List.foldl_cons, List.foldl_nil] at h1
        simp only [h1, Option.toList_some, List.singleton_append, List.filter_cons, List.filter_nil]
        by_cases ht : truthyStr ov = true
        · by_cases hk : k = ov
          · simp [ht, hk]
          · simp [ht, hk]
        · simp [ht]
    split
    · exact hgeom _ rfl
    · exact hgeom _ rfl
  · intro k
    split
    · simp only []
      rw [get_delete_foldl]
    · rename_i hlen
      have hnil : (ownedOverlayIds session).map (fun ov => STATE_KEY_PREFIX ++ ov) = [] := by
        cases hl : (ownedOverlayIds session).map (fun ov => STATE_KEY_PREFIX ++ ov) with
        | nil => rfl
        | cons a l => simp [hl] at hlen
      simp [hnil]

theorem JsMap.mem_keys_of_get {κ α : Type} [DecidableEq κ] (m : JsMap κ α) (k : κ) (v : α)
    (h : JsMap.get m k = some v) : k ∈ JsMap.keys m := by
  induction m with
  | nil => simp [JsMap.get] at h
  | cons e m ih =>
    obtain ⟨k', v'⟩ := e
    by_cases hk : k' = k
    · simp [JsMap.keys, hk]
    · simp only [JsMap.get, hk, if_false] at h
      have := ih h
      simp only [JsMap.keys] at this ⊢
      simp [this]

theorem mem_outputOverlayIds (session : Session) (outs : JsMap Nat OutputEntry) (T : Nat)
    (L : List String) (ov : String) (ho : session.outputs = some outs)
    (hL : JsMap.get outs T = some (.list L)) (hov : ov ∈ L) : ov ∈ outputOverlayIds session := by
  unfold outputOverlayIds
  simp only [ho, Option.getD_some, List.mem_flatten, List.mem_map]
  exact ⟨L, ⟨T, JsMap.mem_keys_of_get outs T _ hL, by simp [hL, entryList]⟩, hov⟩

/-- C8: after `handleStopSession(S)` on a registry that contains `S`, the
registry has no record for `S`, the geometry store has no entry for the
source overlay id of `S` nor for any overlay id in any list of `S.outputs`,
and the per-overlay state keys of exactly the overlay ids owned by `S` are
removed from the store (every other key keeps its value). -/
theorem C8_handleStopSession_purges (env : Env) (S : String) (c : Coordinator) (session : Session)
    (h : c.session S = some session) :
    (handleStopSession env S c).1.session S = none
    ∧ (∀ ov, session.sourceOverlayId = some ov → ov ≠ "" →
        JsMap.get ((handleStopSession env S c).1.store.geom.getD JsMap.empty) ov = none)
    ∧ (∀ outs T L ov, session.outputs = some outs → JsMap.get outs T = some (.list L) →
        ov ∈ L → ov ≠ "" →
        JsMap.get ((handleStopSession env S c).1.store.geom.getD JsMap.empty) ov = none)
    ∧ (∀ k, JsMap.get (handleStopSession env S c).1.store.kv k
        = if k ∈ (ownedOverlayIds session).map (fun ov => STATE_KEY_PREFIX ++ ov) then none
          else JsMap.get c.store.kv k) := by
  obtain ⟨h1, h2, h3⟩ := handleStopSession_store env S c session h
  refine ⟨?_, ?_, ?_, h3⟩
  · simp [Coordinator.session, h1, JsMap.get_delete_self]
  · intro ov hsrc hne
    rw [h2]
    have : ov ∈ ownedOverlayIds session := by
      simp [ownedOverlayIds, hsrc, truthyStr, hne]
    simp [this]
  · intro outs T L ov ho hL hov hne
    rw [h2]
    have : ov ∈ ownedOverlayIds session := by
      have := mem_outputOverlayIds session outs T L ov ho hL hov
      simp [ownedOverlayIds, this, truthyStr, hne]
    simp [this]

/-- Witness of C8: stopping `S1` removes its record, the geometry of its
overlays and the state key of `O1`, and keeps what belongs to overlay `zz`. -/
theorem C8_handleStopSession_witness :
    (handleStopSession envAllOk "S1" coordinatorTwoSessions).1.session "S1" = none
    ∧ JsMap.get ((handleStopSession envAllOk "S1" coordinatorTwoSessions).1.store.geom.getD
        JsMap.empty) "O1" = none
    ∧ JsMap.get (handleStopSession envAllOk "S1" coordinatorTwoSessions).1.store.kv
        "__peek_overlay_state__::zz" = some "x" :=
  have w := C8_handleStopSession_purges envAllOk "S1" coordinatorTwoSessions
    { sessionId := "S1", sourceTabId := some 1, sourceTabTitle := "a", sourceOrdinal := some 1,
      sourceOverlayId := some "ov-src", theme := none, outputs := some [(2, .list ["O1", "O2"])] }
    (by decide)
  ⟨w.1, w.2.2.1 [(2, .list ["O1", "O2"])] 2 ["O1", "O2"] "O1" rfl (by decide) (by decide) (by decide),
   (w.2.2.2 "__peek_overlay_state__::zz").trans (by decide)⟩

/-! ## Signaling theorems -/

theorem staleOffer_of_differs {got expected : Option String} (hg : truthyOpt got = true)
    (he : truthyOpt expected = true) (hne : got ≠ expected) : staleOffer got expected = true := by
  simp [staleOffer, hg, he, hne]

theorem onAnswer_of_stale (accept : Bool) (payload : SignalPayload) (e : Engine)
    (h : staleOffer payload.offerId (latestOfferId e payload) = true) :
    onAnswer accept payload e = e := by
  have hg : truthyOpt payload.offerId = true := by
    simp only [staleOffer, Bool.and_eq_true] at h
    exact h.1.1
  unfold latestOfferId at h
  unfold onAnswer
  cases ht : payload.tabId.truthy with
  | true =>
    simp only [ht, if_true] at h ⊢
    cases JsMap.get e.pcByOutput (keyFor payload.sessionId payload.tabId) with
    | none => rfl
    | some pc => simp [hg, h]
  | false =>
    simp only [ht, Bool.false_eq_true, if_false] at h ⊢
    cases JsMap.get e.peerConnections payload.sessionId with
    | none => rfl
    | some pc => simp [hg, h]

theorem onIceFromOutput_of_stale (payload : SignalPayload) (e : Engine)
    (h : staleOffer payload.offerId (latestOfferId e payload) = true) :
    onIceFromOutput payload e = e := by
  unfold latestOfferId at h
  unfold onIceFromOutput
  cases ht : payload.tabId.truthy with
  | true =>
    simp only [ht, if_true] at h ⊢
    cases JsMap.get e.pcByOutput (keyFor payload.sessionId payload.tabId) with
    | none => rfl
    | some pc =>
      cases payload.candidate with
      | none => rfl
      | some c => simp [h]
  | false =>
    simp only [ht, Bool.false_eq_true, if_false] at h ⊢
    cases JsMap.get e.peerConnections payload.sessionId with
    | none => rfl
    | some pc =>
      cases payload.candidate with
      | none => rfl
      | some c => simp [h]

/-- C1: an `ANSWER` or `ICE_FROM_OUTPUT` message that carries an offer id
different from the latest offer id issued for the link it addresses (session
link or per-viewer link) leaves the whole engine state unchanged: no remote
description is set, no candidate is queued or applied, and the connection
keeps its signaling state. -/
theorem C1_stale_message_leaves_engine_unchanged (accept : Bool) (payload : SignalPayload)
    (e : Engine)
    (hgot : truthyOpt payload.offerId = true)
    (hissued : truthyOpt (latestOfferId e payload) = true)
    (hdiff : payload.offerId ≠ latestOfferId e payload) :
    onAnswer accept payload e = e ∧ onIceFromOutput payload e = e :=
  ⟨onAnswer_of_stale accept payload e (staleOffer_of_differs hgot hissued hdiff),
   onIceFromOutput_of_stale payload e (staleOffer_of_differs hgot hissued hdiff)⟩

/-- Witness of C1: offer `o1` issued for link (`s1`, tab 7), answer and
candidate arrive with offer id `o0`; the link stays in have-local-offer. -/
theorem C1_stale_message_witness :
    (onAnswer true ⟨"s1", .num 7, some "v=0", some "o0", some "cand"⟩ engineAwaitingAnswer
        = engineAwaitingAnswer
      ∧ onIceFromOutput ⟨"s1", .num 7, some "v=0", some "o0", some "cand"⟩ engineAwaitingAnswer
        = engineAwaitingAnswer)
    ∧ (JsMap.get engineAwaitingAnswer.pcByOutput "s1:7").map (fun pc => pc.signalingState)
        = some SignalingState.haveLocalOffer :=
  ⟨C1_stale_message_leaves_engine_unchanged true
      ⟨"s1", .num 7, some "v=0", some "o0", some "cand"⟩ engineAwaitingAnswer
      (by decide) (by decide) (by decide),
   by decide⟩

theorem staleOffer_normalised (o x : Option String) :
    staleOffer (if truthyOpt o = true then o else none) x = staleOffer o x := by
  cases h : truthyOpt o with
  | true => simp
  | false =>
    have h0 : truthyOpt (none : Option String) = false := rfl
    simp [staleOffer, h, h0]

theorem applyAnswer_fst (pc : PeerConnection) (sdp : Option String) (q : Option (List Candidate)) :
    (applyAnswer pc sdp q).1 =
      { pc with signalingState := .stable, remoteDescription := sdp,
                addedIce := pc.addedIce ++ q.getD [] } := by
  cases q with
  | none => simp [applyAnswer]
  | some l =>
    cases l with
    | nil => simp [applyAnswer]
    | cons c cs => simp [applyAnswer]

theorem onAnswer_applied (payload : SignalPayload) (e : Engine) (pc : PeerConnection)
    (hpc : linkConnection e payload = some pc) (hsdp : truthyOpt payload.sdp = true)
    (hst : pc.signalingState = .haveLocalOffer)
    (hfresh : staleOffer payload.offerId (latestOfferId e payload) = false) :
    linkConnection (onAnswer true payload e) payload =
      some { pc with signalingState := .stable, remoteDescription := payload.sdp,
                     addedIce := pc.addedIce ++ (linkQueue e payload).getD [] } := by
  unfold linkConnection latestOfferId linkQueue at *
  unfold onAnswer
  cases ht : payload.tabId.truthy with
  | true =>
    simp only [ht, if_true] at hpc hfresh ⊢
    simp [hpc, hsdp, hst, hfresh, staleOffer_normalised, JsMap.get_set_self, applyAnswer_fst]
  | false =>
    simp only [ht, Bool.false_eq_true, if_false] at hpc hfresh ⊢
    simp [hpc, hsdp, hst, hfresh, staleOffer_normalised, JsMap.get_set_self, applyAnswer_fst]

theorem onAnswer_rejected (accept : Bool) (payload : SignalPayload) (e : Engine)
    (h : ¬ ∃ pc, linkConnection e payload = some pc ∧ truthyOpt payload.sdp = true
          ∧ pc.signalingState = .haveLocalOffer
          ∧ staleOffer payload.offerId (latestOfferId e payload) = false ∧ accept = true) :
    onAnswer accept payload e = e := by
  unfold linkConnection latestOfferId at h
  unfold onAnswer
  cases ht : payload.tabId.truthy with
  | true =>
    simp only [ht, if_true] at h ⊢
    cases hpc : JsMap.get e.pcByOutput (keyFor payload.sessionId payload.tabId) with
    | none => rfl
    | some pc =>
      simp only [hpc, staleOffer_normalised]
      by_cases h1 : truthyOpt payload.sdp = true
      · by_cases h2 : staleOffer payload.offerId
            (JsMap.get e.offerIdByOutput (keyFor payload.sessionId payload.tabId)) = true
        · simp [h1, h2]
        · by_cases h3 : pc.signalingState = .haveLocalOffer
          · cases accept with
            | false => simp
            | true =>
              exact absurd ⟨pc, hpc, h1, h3, by simpa using h2, rfl⟩ h
          · simp [h1, h2, h3]
      · simp [h1]
  | false =>
    simp only [ht, Bool.false_eq_true, if_false] at h ⊢
    cases hpc : JsMap.get e.peerConnections payload.sessionId with
    | none => rfl
    | some pc =>
      simp only [hpc, staleOffer_normalised]
      by_cases h1 : truthyOpt payload.sdp = true
      · by_cases h2 : staleOffer payload.offerId
            (JsMap.get e.currentOfferId payload.sessionId) = true
        · simp [h1, h2]
        · by_cases h3 : pc.signalingState = .haveLocalOffer
          · cases accept with
            | false => simp
            | true =>
              exact absurd ⟨pc, hpc, h1, h3, by simpa using h2, rfl⟩ h
          · simp [h1, h2, h3]
      · simp [h1]

/-- C2 as stated fails: with offer `o1` issued for link (`s1`, tab 7) and the
connection in have-local-offer, an answer that carries no offer id is applied
(the remote description is set and the connection becomes stable). -/
theorem C2_answer_without_offer_id_is_applied :
    latestOfferId engineAwaitingAnswer ⟨"s1", .num 7, some "v=0", none, none⟩ = some "o1"
    ∧ linkConnection (onAnswer true ⟨"s1", .num 7, some "v=0", none, none⟩ engineAwaitingAnswer)
          ⟨"s1", .num 7, some "v=0", none, none⟩
        = some { id := 1, signalingState := .stable, remoteDescription := some "v=0",
                 addedIce := [] } := by
  decide

/-- C2 amended: an `ANSWER` is applied (remote description set, queued
candidates drained) exactly when a connection exists for the addressed key,
the answer carries an SDP, the connection is in have-local-offer, the
stale-offer guard does not fire (the guard fires only when the answer carries
an offer id, one was issued for the key, and the two differ) and the platform
accepts the description; in every other case the engine state is unchanged. -/
theorem C2_answer_applied_iff_admissible (accept : Bool) (payload : SignalPayload) (e : Engine) :
    (∀ pc, linkConnection e payload = some pc → truthyOpt payload.sdp = true →
        pc.signalingState = .haveLocalOffer →
        staleOffer payload.offerId (latestOfferId e payload) = false → accept = true →
        linkConnection (onAnswer accept payload e) payload =
          some { pc with signalingState := .stable, remoteDescription := payload.sdp,
                         addedIce := pc.addedIce ++ (linkQueue e payload).getD [] })
    ∧ ((¬ ∃ pc, linkConnection e payload = some pc ∧ truthyOpt payload.sdp = true
          ∧ pc.signalingState = .haveLocalOffer
          ∧ staleOffer payload.offerId (latestOfferId e payload) = false ∧ accept = true) →
        onAnswer accept payload e = e) := by
  refine ⟨?_, onAnswer_rejected accept payload e⟩
  intro pc hpc hsdp hst hfresh hacc
  subst hacc
  exact onAnswer_applied payload e pc hpc hsdp hst hfresh

/-- Witness of C2 amended: the fresh answer `o1` is applied on the link of
(`s1`, tab 7); the stale answer `o0` is rejected and changes nothing. -/
theorem C2_answer_applied_witness :
    linkConnection (onAnswer true ⟨"s1", .num 7, some "v=0", some "o1", none⟩ engineAwaitingAnswer)
          ⟨"s1", .num 7, some "v=0", some "o1", none⟩
        = some { id := 1, signalingState := .stable, remoteDescription := some "v=0",
                 addedIce := [] }
    ∧ onAnswer true ⟨"s1", .num 7, some "v=0", some "o0", none⟩ engineAwaitingAnswer
        = engineAwaitingAnswer :=
  ⟨(C2_answer_applied_iff_admissible true ⟨"s1", .num 7, some "v=0", some "o1", none⟩
      engineAwaitingAnswer).1
      { id := 1, signalingState := .haveLocalOffer, remoteDescription := none, addedIce := [] }
      (by decide) (by decide) (by decide) (by decide) rfl,
   (C2_answer_applied_iff_admissible true ⟨"s1", .num 7, some "v=0", some "o0", none⟩
      engineAwaitingAnswer).2 (by decide)⟩

/-! ## Lemmas on keys -/

theorem digitChar_val (d : Nat) (h : d < 10) : (Nat.digitChar d).toNat - 48 = d := by
  interval_cases d <;> rfl

theorem digitChar_isDigit (d : Nat) (h : d < 10) : (Nat.digitChar d).isDigit = true := by
  interval_cases d <;> rfl

theorem toDigitsCore_parse (fuel n : Nat) (ds : List Char) (h : n < fuel) :
    (Nat.toDigitsCore 10 fuel n ds).foldl (fun n c => 10 * n + (c.toNat - 48)) 0
      = ds.foldl (fun n c => 10 * n + (c.toNat - 48)) n := by
  induction fuel generalizing n ds with
  | zero => omega
  | succ fuel ih =>
    unfold Nat.toDigitsCore
    simp only []
    by_cases h0 : n / 10 = 0
    · simp only [h0, if_true, List.foldl_cons]
      have hn : n < 10 := by omega
      rw [Nat.mod_eq_of_lt hn, digitChar_val n hn]
      simp
    · simp only [h0, if_false]
      rw [ih (n / 10) _ (by omega)]
      simp only [List.foldl_cons]
      rw [digitChar_val (n % 10) (Nat.mod_lt _ (by decide))]
      congr 1
      omega

theorem toDigitsCore_all (fuel n : Nat) (ds : List Char) (hds : ds.all Char.isDigit = true) :
    (Nat.toDigitsCore 10 fuel n ds).all Char.isDigit = true := by
  induction fuel generalizing n ds with
  | zero => simpa [Nat.toDigitsCore] using hds
  | succ fuel ih =>
    unfold Nat.toDigitsCore
    simp only []
    have hd : (Nat.digitChar (n % 10)).isDigit = true :=
      digitChar_isDigit _ (Nat.mod_lt _ (by decide))
    by_cases h0 : n / 10 = 0
    · simp only [h0, if_true]
      simp [hd]
      simpa using hds
    · simp only [h0, if_false]
      apply ih
      simp [hd]
      simpa using hds

theorem toDigitsCore_ne_nil (fuel n : Nat) (ds : List Char) :
    Nat.toDigitsCore 10 (fuel + 1) n ds ≠ [] := by
  induction fuel generalizing n ds with
  | zero =>
    unfold Nat.toDigitsCore
    simp only []
    by_cases h0 : n / 10 = 0
    · simp [h0]
    · simp [h0, Nat.toDigitsCore]
  | succ fuel ih =>
    unfold Nat.toDigitsCore
    simp only []
    by_cases h0 : n / 10 = 0
    · simp [h0]
    · simp only [h0, if_false]
      exact ih _ _

theorem toString_nat_toList (n : Nat) : (toString n).toList = Nat.toDigits 10 n := rfl

theorem toString_nat_all_digits (n : Nat) : (toString n).toList.all Char.isDigit = true := by
  rw [toString_nat_toList]
  exact toDigitsCore_all _ _ _ rfl

theorem jsNumber_toString (n : Nat) : jsNumber (toString n) = .num n := by
  unfold jsNumber
  have h1 : (toString n).toList ≠ [] := by
    rw [toString_nat_toList]
    exact toDigitsCore_ne_nil _ _ _
  have h2 := toString_nat_all_digits n
  have h3 : (toString n).toList.foldl (fun n c => 10 * n + (c.toNat - 48)) 0 = n := by
    rw [toString_nat_toList]
    exact toDigitsCore_parse (n + 1) n [] (by omega)
  rw [if_pos ⟨h1, h2⟩, h3]

theorem render_colonFree (T : TabId) : ':' ∉ T.render.toList := by
  cases T with
  | undefined => decide
  | nan => decide
  | num n =>
    intro hmem
    have h := toString_nat_all_digits n
    rw [List.all_eq_true] at h
    have := h ':' hmem
    exact absurd this (by decide)

theorem keyFor_toList (S : String) (T : TabId) :
    (keyFor S T).toList = S.toList ++ ':' :: T.render.toList := by
  simp [keyFor, String.toList, String.data_append]

theorem splitSecond_keyFor (S : String) (T : TabId) (hS : colonFree S) :
    splitSecond (keyFor S T) = some T.render := by
  unfold splitSecond
  rw [keyFor_toList]
  have h := List.splitOn_intercalate [S.toList, T.render.toList] ':'
    (by
      intro l hl
      simp only [List.mem_cons, List.mem_singleton, List.not_mem_nil, or_false] at hl
      rcases hl with rfl | rfl
      · exact hS
      · exact render_colonFree T)
    (by simp)
  have hi : [':'].intercalate [S.toList, T.render.toList] = S.toList ++ ':' :: T.render.toList := by
    simp [List.intercalate, List.intersperse]
  rw [hi] at h
  rw [h]
  rfl

theorem recoverTabId_keyFor (S : String) (T : TabId) (hS : colonFree S) :
    recoverTabId (keyFor S T) = T := by
  unfold recoverTabId
  rw [splitSecond_keyFor S T hS]
  cases T with
  | undefined => rfl
  | nan => decide
  | num n =>
    have hne : (TabId.num n).render ≠ "undefined" := by
      intro heq
      have h := toString_nat_all_digits n
      have h' : (TabId.num n).render.toList.all Char.isDigit = true := h
      rw [heq] at h'
      exact absurd h' (by decide)
    simp only [hne, if_false]
    exact jsNumber_toString n

theorem prefix_colon_eq {a b r t : List Char} (ha : ':' ∉ a) (hb : ':' ∉ b)
    (h : b ++ ':' :: r = a ++ ':' :: t) : a = b := by
  rw [List.append_eq_append_iff] at h
  rcases h with ⟨a', h1, h2⟩ | ⟨c', h1, h2⟩
  · cases a' with
    | nil => simpa using h1
    | cons x a' =>
      simp only [List.cons_append, List.cons.injEq] at h2
      exact absurd (by rw [h1, ← h2.1]; simp) ha
  · cases c' with
    | nil => simpa using h1.symm
    | cons x c' =>
      simp only [List.cons_append, List.cons.injEq] at h2
      exact absurd (by rw [h1, ← h2.1]; simp) hb

theorem jsStartsWith_keyFor (S S' : String) (T : TabId) (hS : colonFree S) (hS' : colonFree S') :
    jsStartsWith (keyFor S' T) (S ++ ":") = true ↔ S' = S := by
  unfold jsStartsWith
  rw [List.isPrefixOf_iff_prefix, keyFor_toList]
  have hp : (S ++ ":").toList = S.toList ++ [':'] := by
    simp [String.toList, String.data_append]
  rw [hp]
  constructor
  · rintro ⟨t, ht⟩
    have h : S'.toList ++ ':' :: T.render.toList = S.toList ++ ':' :: t := by
      rw [← ht]
      simp
    have := prefix_colon_eq hS hS' h
    exact (String.ext this).symm
  · rintro rfl
    exact ⟨T.render.toList, by simp⟩

/-! ## Teardown of per-viewer links -/

theorem JsMap.get_eq_none_of_not_mem_keys {κ α : Type} [DecidableEq κ] (m : JsMap κ α) (k : κ)
    (h : k ∉ JsMap.keys m) : JsMap.get m k = none := by
  induction m with
  | nil => rfl
  | cons e m ih =>
    obtain ⟨k', v'⟩ := e
    simp only [JsMap.keys, List.map_cons, List.mem_cons, not_or] at h
    have hk : ¬ k' = k := fun hh => h.1 hh.symm
    simp only [JsMap.get, hk, if_false]
    exact ih h.2

theorem releaseOutputTrack_maps (S : String) (T : TabId) (e : Engine) :
    (releaseOutputTrack S T e).pcByOutput = e.pcByOutput
    ∧ (releaseOutputTrack S T e).offerByOutput = e.offerByOutput
    ∧ (releaseOutputTrack S T e).pendingIceByOutput = e.pendingIceByOutput
    ∧ (releaseOutputTrack S T e).offerIdByOutput = e.offerIdByOutput
    ∧ ∀ k, JsMap.get (releaseOutputTrack S T e).outputSenderTracks k
        = if k = keyFor S T then none else JsMap.get e.outputSenderTracks k := by
  unfold releaseOutputTrack
  simp only []
  split
  · refine ⟨rfl, rfl, rfl, rfl, ?_⟩
    intro k
    simp [stopTrack, Engine.emit, JsMap.get_delete]
  · rename_i hg
    refine ⟨rfl, rfl, rfl, rfl, ?_⟩
    intro k
    by_cases hk : k = keyFor S T
    · simp [hk, hg]
    · simp [hk]

theorem stopOutputsOf_maps (S : String) (l : List (String × PeerConnection)) (e : Engine) :
    (∀ k, JsMap.get (stopOutputsOf S l e).pcByOutput k
        = if k ∈ stoppedKeys S l then none else JsMap.get e.pcByOutput k)
    ∧ (∀ k, JsMap.get (stopOutputsOf S l e).offerByOutput k
        = if k ∈ stoppedKeys S l then none else JsMap.get e.offerByOutput k)
    ∧ (∀ k, JsMap.get (stopOutputsOf S l e).pendingIceByOutput k
        = if k ∈ stoppedKeys S l then none else JsMap.get e.pendingIceByOutput k)
    ∧ (∀ k, JsMap.get (stopOutputsOf S l e).offerIdByOutput k
        = if k ∈ stoppedKeys S l then none else JsMap.get e.offerIdByOutput k)
    ∧ (∀ k, JsMap.get (stopOutputsOf S l e).outputSenderTracks k
        = if k ∈ (stoppedKeys S l).map (fun k0 => keyFor S (recoverTabId k0)) then none
          else JsMap.get e.outputSenderTracks k) := by
  induction l generalizing e with
  | nil => simp [stopOutputsOf, stoppedKeys]
  | cons a l ih =>
    obtain ⟨k0, pc0⟩ := a
    by_cases hp : jsStartsWith k0 (S ++ ":") = true
    · have hsk : stoppedKeys S ((k0, pc0) :: l) = k0 :: stoppedKeys S l := by
        simp [stoppedKeys, List.filter_cons, hp]
      simp only [stopOutputsOf, hp, if_true, hsk]
      obtain ⟨i1, i2, i3, i4, i5⟩ := ih (releaseOutputTrack S (recoverTabId k0)
        { e.emit (.pcClose pc0.id) with
          pcByOutput := JsMap.delete (e.emit (.pcClose pc0.id)).pcByOutput k0
          offerByOutput := JsMap.delete (e.emit (.pcClose pc0.id)).offerByOutput k0
          pendingIceByOutput := JsMap.delete (e.emit (.pcClose pc0.id)).pendingIceByOutput k0
          offerIdByOutput := JsMap.delete (e.emit (.pcClose pc0.id)).offerIdByOutput k0 })
      obtain ⟨r1, r2, r3, r4, r5⟩ := releaseOutputTrack_maps S (recoverTabId k0)
        { e.emit (.pcClose pc0.id) with
          pcByOutput := JsMap.delete (e.emit (.pcClose pc0.id)).pcByOutput k0
          offerByOutput := JsMap.delete (e.emit (.pcClose pc0.id)).offerByOutput k0
          pendingIceByOutput := JsMap.delete (e.emit (.pcClose pc0.id)).pendingIceByOutput k0
          offerIdByOutput := JsMap.delete (e.emit (.pcClose pc0.id)).offerIdByOutput k0 }
      refine ⟨?_, ?_, ?_, ?_, ?_⟩
      · intro k
        rw [i1, r1]
        by_cases hk : k = k0
        · simp [hk, Engine.emit, JsMap.get_delete]
        · by_cases hm : k ∈ stoppedKeys S l <;> simp [hk, hm, Engine.emit, JsMap.get_delete]
      · intro k
        rw [i2, r2]
        by_cases hk : k = k0
        · simp [hk, Engine.emit, JsMap.get_delete]
        · by_cases hm : k ∈ stoppedKeys S l <;> simp [hk, hm, Engine.emit, JsMap.get_delete]
      · intro k
        rw [i3, r3]
        by_cases hk : k = k0
        · simp [hk, Engine.emit, JsMap.get_delete]
        · by_cases hm : k ∈ stoppedKeys S l <;> simp [hk, hm, Engine.emit, JsMap.get_delete]
      · intro k
        rw [i4, r4]
        by_cases hk : k = k0
        · simp [hk, Engine.emit, JsMap.get_delete]
        · by_cases hm : k ∈ stoppedKeys S l <;> simp [hk, hm, Engine.emit, JsMap.get_delete]
      · intro k
        rw [i5, r5]
        simp only [List.map_cons, List.mem_cons]
        by_cases hk : k = keyFor S (recoverTabId k0)
        · simp [hk]
        · by_cases hm : k ∈ (stoppedKeys S l).map (fun k0 => keyFor S (recoverTabId k0))
          · simp [hm]
          · simp [hk, hm, Engine.emit]
    · have hsk : stoppedKeys S ((k0, pc0) :: l) = stoppedKeys S l := by
        simp [stoppedKeys, List.filter_cons, hp]
      simp only [stopOutputsOf, hp, hsk]
      exact ih e

theorem links_emit (e : Engine) (x : EngineEffect) : (e.emit x).links = e.links := rfl

theorem links_stopTrack (t : Option Track) (e : Engine) : (stopTrack t e).links = e.links := by
  cases t <;> rfl

theorem links_foldl_trackStop (tracks : List MediaTrack) (e : Engine) :
    (tracks.foldl (fun acc tr => acc.emit (.trackStop (.capture tr.id))) e).links = e.links := by
  induction tracks generalizing e with
  | nil => rfl
  | cons t ts ih => simp only [List.foldl_cons]; rw [ih]; rfl

theorem links_foldl_stopTrack (tracks : List MediaTrack) (e : Engine) :
    (tracks.foldl (fun acc tr => stopTrack (some (.canvas tr.id)) acc) e).links = e.links := by
  induction tracks generalizing e with
  | nil => rfl
  | cons t ts ih => simp only [List.foldl_cons]; rw [ih]; rfl

theorem links_releaseSessionTrack (S : String) (e : Engine) :
    (releaseSessionTrack S e).links = e.links := by
  unfold releaseSessionTrack
  split <;> rfl

theorem links_detachFromTab (S : String) (e : Engine) : (detachFromTab S e).2.links = e.links := by
  unfold detachFromTab
  split
  · rfl
  · split
    · simp only []
      split <;> rfl
    · rfl

theorem links_closeOutputPc (k : String) (e : Engine) : (closeOutputPc k e).links = e.links := by
  unfold closeOutputPc
  split <;> rfl

theorem links_closeSessionPc (S : String) (e : Engine) : (closeSessionPc S e).links = e.links := by
  unfold closeSessionPc
  split <;> rfl

theorem links_clearSessionMaps (S : String) (e : Engine) :
    (clearSessionMaps S e).links = e.links := rfl

theorem links_releaseCanvasStream (S : String) (e : Engine) :
    (releaseCanvasStream S e).links = e.links := by
  unfold releaseCanvasStream
  split
  · have h := links_foldl_stopTrack
    simp only [Engine.links] at h ⊢
    rw [h]
  · rfl

theorem links_releaseBase (tid : Option TabId) (e : Engine) : (releaseBase tid e).links = e.links := by
  unfold releaseBase
  split
  · rfl
  · split
    · have h := links_foldl_trackStop
      simp only [Engine.links] at h ⊢
      rw [h]
    · rfl

theorem links_stopRenderLoop (S : String) (e : Engine) : (stopRenderLoop S e).links = e.links := by
  unfold stopRenderLoop
  split
  · rfl
  · simp only []
    split <;> split <;> rfl

theorem links_markOutputInactive (S : String) (T : TabId) (e : Engine) :
    (markOutputInactive S T e).links = e.links := by
  unfold markOutputInactive
  split
  · rfl
  · split
    · rfl
    · simp only []
      split
      · split
        · rw [links_stopRenderLoop]
          rfl
        · rfl
      · rfl

theorem links_ite (c : Bool) (a b : Engine) :
    (if c = true then a else b).links = if c = true then a.links else b.links := by
  cases c <;> rfl

theorem stopCapture_links (S : String) (e : Engine) :
    (stopCapture S e).links
      = (stopOutputsOf S
          (JsMap.entries (releaseSessionTrack S (closeSessionPc S (detachFromTab S e).2)).pcByOutput)
          (releaseSessionTrack S (closeSessionPc S (detachFromTab S e).2))).links := by
  have h1 : ∀ x : Engine,
      ({ x with activeOutputTabs := JsMap.delete x.activeOutputTabs S } : Engine).links = x.links :=
    fun _ => rfl
  have h2 : ∀ x : Engine,
      ({ x with originalStreams := JsMap.delete x.originalStreams S } : Engine).links = x.links :=
    fun _ => rfl
  unfold stopCapture
  simp only []
  rw [h1, links_releaseCanvasStream, links_ite, h2, links_clearSessionMaps, links_stopRenderLoop,
    links_ite, links_releaseBase]
  simp

theorem links_eq {a b : Engine} (h : a.links = b.links) :
    a.pcByOutput = b.pcByOutput ∧ a.offerByOutput = b.offerByOutput
    ∧ a.pendingIceByOutput = b.pendingIceByOutput ∧ a.offerIdByOutput = b.offerIdByOutput
    ∧ a.outputSenderTracks = b.outputSenderTracks := by
  simpa [Engine.links, Prod.mk.injEq] using h

theorem stopCapture_maps (S : String) (e : Engine) :
    (∀ k, JsMap.get (stopCapture S e).pcByOutput k
        = if k ∈ stoppedKeys S e.pcByOutput then none else JsMap.get e.pcByOutput k)
    ∧ (∀ k, JsMap.get (stopCapture S e).offerByOutput k
        = if k ∈ stoppedKeys S e.pcByOutput then none else JsMap.get e.offerByOutput k)
    ∧ (∀ k, JsMap.get (stopCapture S e).pendingIceByOutput k
        = if k ∈ stoppedKeys S e.pcByOutput then none else JsMap.get e.pendingIceByOutput k)
    ∧ (∀ k, JsMap.get (stopCapture S e).offerIdByOutput k
        = if k ∈ stoppedKeys S e.pcByOutput then none else JsMap.get e.offerIdByOutput k)
    ∧ (∀ k, JsMap.get (stopCapture S e).outputSenderTracks k
        = if k ∈ (stoppedKeys S e.pcByOutput).map (fun k0 => keyFor S (recoverTabId k0)) then none
          else JsMap.get e.outputSenderTracks k) := by
  have h3 : (releaseSessionTrack S (closeSessionPc S (detachFromTab S e).2)).links = e.links := by
    rw [links_releaseSessionTrack, links_closeSessionPc, links_detachFromTab]
  obtain ⟨a1, a2, a3, a4, a5⟩ := links_eq (stopCapture_links S e)
  obtain ⟨b1, b2, b3, b4, b5⟩ := links_eq h3
  obtain ⟨c1, c2, c3, c4, c5⟩ := stopOutputsOf_maps S
    (JsMap.entries (releaseSessionTrack S (closeSessionPc S (detachFromTab S e).2)).pcByOutput)
    (releaseSessionTrack S (closeSessionPc S (detachFromTab S e).2))
  rw [a1, a2, a3, a4, a5]
  simp only [JsMap.entries, b1, b2, b3, b4, b5] at c1 c2 c3 c4 c5 ⊢
  exact ⟨c1, c2, c3, c4, c5⟩

theorem jsStartsWith_keyFor_self (S : String) (T : TabId) :
    jsStartsWith (keyFor S T) (S ++ ":") = true := by
  unfold jsStartsWith
  rw [List.isPrefixOf_iff_prefix, keyFor_toList]
  exact ⟨T.render.toList, by simp [String.toList, String.data_append]⟩

theorem mem_stoppedKeys_keyFor (S : String) (T : TabId) (m : JsMap String PeerConnection)
    (h : JsMap.has m (keyFor S T) = true) : keyFor S T ∈ stoppedKeys S m := by
  unfold stoppedKeys
  rw [List.mem_filter]
  refine ⟨?_, jsStartsWith_keyFor_self S T⟩
  by_contra hn
  have := JsMap.get_eq_none_of_not_mem_keys m (keyFor S T) hn
  simp [JsMap.has, this] at h

theorem not_mem_stoppedKeys_other (S S' : String) (T : TabId) (m : List (String × PeerConnection))
    (hS : colonFree S) (hS' : colonFree S') (hne : S' ≠ S) : keyFor S' T ∉ stoppedKeys S m := by
  unfold stoppedKeys
  rw [List.mem_filter]
  rintro ⟨_, hp⟩
  exact hne ((jsStartsWith_keyFor S S' T hS hS').mp hp)

theorem not_mem_released_other (S S' : String) (T : TabId) (ks : List String)
    (hS : colonFree S) (hS' : colonFree S') (hne : S' ≠ S) :
    keyFor S' T ∉ ks.map (fun k0 => keyFor S (recoverTabId k0)) := by
  rw [List.mem_map]
  rintro ⟨k0, _, hk⟩
  have hp := jsStartsWith_keyFor_self S (recoverTabId k0)
  rw [hk] at hp
  exact hne ((jsStartsWith_keyFor S S' T hS hS').mp hp)

/-- C9 as stated fails: a key of session `s1` that has a pending offer and an
offer id but no connection in `pcByOutput` is not visited by the loop of
`stopCapture`, so both entries remain afterwards. -/
theorem C9_entries_without_connection_remain :
    colonFree "s1"
    ∧ JsMap.get (stopCapture "s1" engineOrphanOffer).offerIdByOutput (keyFor "s1" (.num 5))
        = some "o1"
    ∧ JsMap.has (stopCapture "s1" engineOrphanOffer).offerByOutput (keyFor "s1" (.num 5))
        = true := by
  decide

/-- C9 amended: for a session id `S` without colon (ids are UUIDs),
`stopCapture(S)` leaves no connection keyed (`S`, `T`); every key (`S`, `T`)
that had a connection is also removed from the pending-offer, queued-ICE,
offer-id and sender-track maps; and for every other colon-free session id
`S'` the entries keyed (`S'`, `T`) of the five maps are unchanged. -/
theorem C9_stopCapture_removes_links_of_session (S : String) (e : Engine) (hS : colonFree S) :
    (∀ T, JsMap.get (stopCapture S e).pcByOutput (keyFor S T) = none)
    ∧ (∀ T, JsMap.has e.pcByOutput (keyFor S T) = true →
        JsMap.get (stopCapture S e).offerByOutput (keyFor S T) = none
        ∧ JsMap.get (stopCapture S e).pendingIceByOutput (keyFor S T) = none
        ∧ JsMap.get (stopCapture S e).offerIdByOutput (keyFor S T) = none
        ∧ JsMap.get (stopCapture S e).outputSenderTracks (keyFor S T) = none)
    ∧ (∀ S' T, colonFree S' → S' ≠ S →
        JsMap.get (stopCapture S e).pcByOutput (keyFor S' T) = JsMap.get e.pcByOutput (keyFor S' T)
        ∧ JsMap.get (stopCapture S e).offerByOutput (keyFor S' T)
            = JsMap.get e.offerByOutput (keyFor S' T)
        ∧ JsMap.get (stopCapture S e).pendingIceByOutput (keyFor S' T)
            = JsMap.get e.pendingIceByOutput (keyFor S' T)
        ∧ JsMap.get (stopCapture S e).offerIdByOutput (keyFor S' T)
            = JsMap.get e.offerIdByOutput (keyFor S' T)
        ∧ JsMap.get (stopCapture S e).outputSenderTracks (keyFor S' T)
            = JsMap.get e.outputSenderTracks (keyFor S' T)) := by
  obtain ⟨m1, m2, m3, m4, m5⟩ := stopCapture_maps S e
  refine ⟨?_, ?_, ?_⟩
  · intro T
    rw [m1]
    by_cases hh : JsMap.has e.pcByOutput (keyFor S T) = true
    · simp [mem_stoppedKeys_keyFor S T e.pcByOutput hh]
    · have hnone : JsMap.get e.pcByOutput (keyFor S T) = none := by
        simpa [JsMap.has] using hh
      simp [hnone]
  · intro T hh
    have hmem := mem_stoppedKeys_keyFor S T e.pcByOutput hh
    have hmem' : keyFor S T ∈ (stoppedKeys S e.pcByOutput).map
        (fun k0 => keyFor S (recoverTabId k0)) :=
      List.mem_map.mpr ⟨keyFor S T, hmem, by rw [recoverTabId_keyFor S T hS]⟩
    rw [m2, m3, m4, m5]
    simp [hmem, hmem']
  · intro S' T hS' hne
    have h1 := not_mem_stoppedKeys_other S S' T e.pcByOutput hS hS' hne
    have h2 := not_mem_released_other S S' T (stoppedKeys S e.pcByOutput) hS hS' hne
    rw [m1, m2, m3, m4, m5]
    simp [h1, h2]

/-- Witness of C9 amended: stopping `s1` removes the link (`s1`, tab 5) and
keeps the connection of (`s2`, tab 5). -/
theorem C9_stopCapture_witness :
    JsMap.get (stopCapture "s1" engineTwoSessions).pcByOutput (keyFor "s1" (.num 5)) = none
    ∧ JsMap.get (stopCapture "s1" engineTwoSessions).outputSenderTracks (keyFor "s1" (.num 5)) = none
    ∧ JsMap.get (stopCapture "s1" engineTwoSessions).pcByOutput (keyFor "s2" (.num 5))
        = JsMap.get engineTwoSessions.pcByOutput (keyFor "s2" (.num 5)) :=
  have w := C9_stopCapture_removes_links_of_session "s1" engineTwoSessions (by decide)
  ⟨w.1 (.num 5), (w.2.1 (.num 5) (by decide)).2.2.2, (w.2.2 "s2" (.num 5) (by decide) (by decide)).1⟩

theorem trace_mem_stopRenderLoop (S : String) (e : Engine) (x : EngineEffect) (h : x ∈ e.trace) :
    x ∈ (stopRenderLoop S e).trace := by
  unfold stopRenderLoop
  split
  · exact h
  · simp only []
    split <;> split <;> simp [Engine.emit, h]

theorem trace_mem_markOutputInactive (S : String) (T : TabId) (e : Engine) (x : EngineEffect)
    (h : x ∈ e.trace) : x ∈ (markOutputInactive S T e).trace := by
  unfold markOutputInactive
  split
  · exact h
  · split
    · exact h
    · simp only []
      split
      · split
        · exact trace_mem_stopRenderLoop _ _ _ h
        · exact h
      · exact h

theorem trace_mem_releaseOutputTrack (S : String) (T : TabId) (e : Engine) (x : EngineEffect)
    (h : x ∈ e.trace) : x ∈ (releaseOutputTrack S T e).trace := by
  unfold releaseOutputTrack
  simp only []
  split
  · simp [stopTrack, Engine.emit, h]
  · exact h

theorem keyFor_inj (S S' : String) (T T' : TabId) (hS : colonFree S) (hS' : colonFree S')
    (h : keyFor S' T' = keyFor S T) : S' = S ∧ T' = T := by
  have hp := jsStartsWith_keyFor_self S T
  rw [← h] at hp
  have hSS := (jsStartsWith_keyFor S S' T' hS hS').mp hp
  refine ⟨hSS, ?_⟩
  have h1 := recoverTabId_keyFor S' T' hS'
  have h2 := recoverTabId_keyFor S T hS
  rw [h] at h1
  rw [← h1, h2]

/-- C10: processing stop-output-peer for (`S`, `T`) closes the connection of
that key, stops its sender track, removes the key from the connection,
pending-offer, queued-ICE, offer-id and sender-track maps, and leaves the
entries of every other key of those maps unchanged; with colon-free session
ids, the key of any other (session, viewer tab) pair is such another key. -/
theorem C10_stopOutputPeer_tears_down_one_link (S : String) (T : TabId) (e : Engine) :
    (∀ pc, JsMap.get e.pcByOutput (keyFor S T) = some pc →
        EngineEffect.pcClose pc.id ∈ (onStopOutputPeer S T e).trace)
    ∧ (∀ t, JsMap.get e.outputSenderTracks (keyFor S T) = some t →
        EngineEffect.trackStop (.clone t) ∈ (onStopOutputPeer S T e).trace)
    ∧ (JsMap.get (onStopOutputPeer S T e).pcByOutput (keyFor S T) = none
      ∧ JsMap.get (onStopOutputPeer S T e).offerByOutput (keyFor S T) = none
      ∧ JsMap.get (onStopOutputPeer S T e).pendingIceByOutput (keyFor S T) = none
      ∧ JsMap.get (onStopOutputPeer S T e).offerIdByOutput (keyFor S T) = none
      ∧ JsMap.get (onStopOutputPeer S T e).outputSenderTracks (keyFor S T) = none)
    ∧ (∀ k, k ≠ keyFor S T →
        JsMap.get (onStopOutputPeer S T e).pcByOutput k = JsMap.get e.pcByOutput k
        ∧ JsMap.get (onStopOutputPeer S T e).offerByOutput k = JsMap.get e.offerByOutput k
        ∧ JsMap.get (onStopOutputPeer S T e).pendingIceByOutput k = JsMap.get e.pendingIceByOutput k
        ∧ JsMap.get (onStopOutputPeer S T e).offerIdByOutput k = JsMap.get e.offerIdByOutput k
        ∧ JsMap.get (onStopOutputPeer S T e).outputSenderTracks k
            = JsMap.get e.outputSenderTracks k)
    ∧ (∀ S' T', colonFree S → colonFree S' → (S', T') ≠ (S, T) → keyFor S' T' ≠ keyFor S T) := by
  have hc := links_eq (links_closeOutputPc (keyFor S T) e)
  obtain ⟨c1, c2, c3, c4, c5⟩ := hc
  have hdef : onStopOutputPeer S T e = markOutputInactive S T (releaseOutputTrack S T
      { closeOutputPc (keyFor S T) e with
        pcByOutput := JsMap.delete e.pcByOutput (keyFor S T)
        offerByOutput := JsMap.delete e.offerByOutput (keyFor S T)
        pendingIceByOutput := JsMap.delete e.pendingIceByOutput (keyFor S T)
        offerIdByOutput := JsMap.delete e.offerIdByOutput (keyFor S T) }) := by
    unfold onStopOutputPeer
    simp only [c1, c2, c3, c4]
  obtain ⟨r1, r2, r3, r4, r5⟩ := releaseOutputTrack_maps S T
      { closeOutputPc (keyFor S T) e with
        pcByOutput := JsMap.delete e.pcByOutput (keyFor S T)
        offerByOutput := JsMap.delete e.offerByOutput (keyFor S T)
        pendingIceByOutput := JsMap.delete e.pendingIceByOutput (keyFor S T)
        offerIdByOutput := JsMap.delete e.offerIdByOutput (keyFor S T) }
  obtain ⟨l1, l2, l3, l4, l5⟩ := links_eq (links_markOutputInactive S T (releaseOutputTrack S T
      { closeOutputPc (keyFor S T) e with
        pcByOutput := JsMap.delete e.pcByOutput (keyFor S T)
        offerByOutput := JsMap.delete e.offerByOutput (keyFor S T)
        pendingIceByOutput := JsMap.delete e.pendingIceByOutput (keyFor S T)
        offerIdByOutput := JsMap.delete e.offerIdByOutput (keyFor S T) }))
  have htracks : ∀ k, JsMap.get (onStopOutputPeer S T e).outputSenderTracks k
      = if k = keyFor S T then none else JsMap.get e.outputSenderTracks k := by
    intro k
    rw [hdef, l5, r5]
    simp only [c5]
  refine ⟨?_, ?_, ⟨?_, ?_, ?_, ?_, ?_⟩, ?_, ?_⟩
  · intro pc hpc
    rw [hdef]
    apply trace_mem_markOutputInactive
    apply trace_mem_releaseOutputTrack
    simp [closeOutputPc, hpc, Engine.emit]
  · intro t ht
    rw [hdef]
    apply trace_mem_markOutputInactive
    unfold releaseOutputTrack
    simp only [c5, ht]
    simp [stopTrack, Engine.emit]
  · rw [hdef, l1, r1]
    exact JsMap.get_delete_self _ _
  · rw [hdef, l2, r2]
    exact JsMap.get_delete_self _ _
  · rw [hdef, l3, r3]
    exact JsMap.get_delete_self _ _
  · rw [hdef, l4, r4]
    exact JsMap.get_delete_self _ _
  · rw [htracks]
    simp
  · intro k hk
    refine ⟨?_, ?_, ?_, ?_, ?_⟩
    · rw [hdef, l1, r1]
      exact JsMap.get_delete_other _ hk
    · rw [hdef, l2, r2]
      exact JsMap.get_delete_other _ hk
    · rw [hdef, l3, r3]
      exact JsMap.get_delete_other _ hk
    · rw [hdef, l4, r4]
      exact JsMap.get_delete_other _ hk
    · rw [htracks]
      simp [hk]
  · intro S' T' hS hS' hne heq
    obtain ⟨h1, h2⟩ := keyFor_inj S S' T T' hS hS' heq
    exact hne (by rw [h1, h2])

/-- Witness of C10: tearing down (`s1`, tab 5) closes connection 1, stops
clone track 11 and leaves the link (`s1`, tab 6) in place. -/
theorem C10_stopOutputPeer_witness :
    EngineEffect.pcClose 1 ∈ (onStopOutputPeer "s1" (.num 5) engineTwoSessions).trace
    ∧ EngineEffect.trackStop (.clone 11) ∈ (onStopOutputPeer "s1" (.num 5) engineTwoSessions).trace
    ∧ JsMap.get (onStopOutputPeer "s1" (.num 5) engineTwoSessions).pcByOutput "s1:5" = none
    ∧ JsMap.get (onStopOutputPeer "s1" (.num 5) engineTwoSessions).pcByOutput "s1:6"
        = JsMap.get engineTwoSessions.pcByOutput "s1:6" :=
  have w := C10_stopOutputPeer_tears_down_one_link "s1" (.num 5) engineTwoSessions
  ⟨w.1 { id := 1, signalingState := .haveLocalOffer, remoteDescription := none, addedIce := [] }
      (by decide),
   w.2.1 11 (by decide), w.2.2.1.1, (w.2.2.2.1 "s1:6" (by decide)).1⟩

/-! ## Shared capture of one source tab -/

theorem base_emit (e : Engine) (x : EngineEffect) (hx : isCaptureStop x = false) :
    (e.emit x).base = e.base := by
  simp [Engine.base, Engine.emit, Engine.captureStops, List.filter_append, hx]

theorem base_stopTrack_clone (i : Nat) (e : Engine) :
    (stopTrack (some (.clone i)) e).base = e.base :=
  base_emit e _ rfl

theorem base_stopTrack_canvas (i : Nat) (e : Engine) :
    (stopTrack (some (.canvas i)) e).base = e.base :=
  base_emit e _ rfl

theorem base_foldl_canvas (tracks : List MediaTrack) (e : Engine) :
    (tracks.foldl (fun acc tr => stopTrack (some (.canvas tr.id)) acc) e).base = e.base := by
  induction tracks generalizing e with
  | nil => rfl
  | cons t ts ih => simp only [List.foldl_cons]; rw [ih, base_stopTrack_canvas]

theorem base_of_eq {a b : Engine} (h1 : a.baseVideoByTab = b.baseVideoByTab)
    (h2 : a.sessionsByTab = b.sessionsByTab) (h3 : a.sessionTab = b.sessionTab)
    (h4 : a.trace = b.trace) : a.base = b.base := by
  simp [Engine.base, Engine.captureStops, h1, h2, h3, h4]

theorem base_eq {a b : Engine} (h : a.base = b.base) :
    a.baseVideoByTab = b.baseVideoByTab ∧ a.sessionsByTab = b.sessionsByTab
    ∧ a.sessionTab = b.sessionTab ∧ a.captureStops = b.captureStops := by
  simpa [Engine.base, Prod.mk.injEq] using h

theorem base_releaseSessionTrack (S : String) (e : Engine) :
    (releaseSessionTrack S e).base = e.base := by
  unfold releaseSessionTrack
  split
  · exact (base_of_eq rfl rfl rfl rfl).trans (base_stopTrack_clone _ e)
  · rfl

theorem base_releaseOutputTrack (S : String) (T : TabId) (e : Engine) :
    (releaseOutputTrack S T e).base = e.base := by
  unfold releaseOutputTrack
  simp only []
  split
  · exact (base_of_eq rfl rfl rfl rfl).trans (base_stopTrack_clone _ e)
  · rfl

theorem base_closeSessionPc (S : String) (e : Engine) : (closeSessionPc S e).base = e.base := by
  unfold closeSessionPc
  split
  · exact base_emit e _ rfl
  · rfl

theorem base_stopOutputsOf (S : String) (l : List (String × PeerConnection)) (e : Engine) :
    (stopOutputsOf S l e).base = e.base := by
  induction l generalizing e with
  | nil => rfl
  | cons a l ih =>
    obtain ⟨k0, pc0⟩ := a
    unfold stopOutputsOf
    split
    · simp only []
      rw [ih, base_releaseOutputTrack]
      exact (base_of_eq rfl rfl rfl rfl).trans (base_emit e _ rfl)
    · exact ih e

theorem base_stopRenderLoop (S : String) (e : Engine) : (stopRenderLoop S e).base = e.base := by
  unfold stopRenderLoop
  split
  · rfl
  · simp only []
    split <;> split <;>
      simp [Engine.base, Engine.captureStops, Engine.emit, List.filter_append, isCaptureStop]

theorem base_clearSessionMaps (S : String) (e : Engine) : (clearSessionMaps S e).base = e.base :=
  rfl

theorem base_releaseCanvasStream (S : String) (e : Engine) :
    (releaseCanvasStream S e).base = e.base := by
  unfold releaseCanvasStream
  split
  · exact (base_of_eq rfl rfl rfl rfl).trans (base_foldl_canvas _ e)
  · rfl

theorem base_startRenderLoop (p : Platform) (S : String) (e : Engine) :
    (startRenderLoop p S e).base = e.base := by
  unfold startRenderLoop
  split
  · rfl
  · split
    · rfl
    · split
      · rfl
      · split
        · split <;> rfl
        · rfl

theorem base_initCanvasStream (p : Platform) (S : String) (e : Engine) :
    (initCanvasStream p S e).2.base = e.base := by
  unfold initCanvasStream
  split <;> rfl

theorem base_getCanvasStream (p : Platform) (S : String) (e : Engine) :
    (getCanvasStream p S e).2.base = e.base := by
  unfold getCanvasStream
  split
  · split
    · split
      · exact base_initCanvasStream p S e
      · rfl
    · exact base_initCanvasStream p S e
  · exact base_initCanvasStream p S e

theorem base_createCanvasTrackClone (p : Platform) (S : String) (e : Engine) :
    (createCanvasTrackClone p S e).2.base = e.base := by
  unfold createCanvasTrackClone
  simp only []
  split
  · exact base_getCanvasStream p S e
  · split
    · exact base_getCanvasStream p S e
    · exact base_getCanvasStream p S e

theorem base_setupPeerConnection (p : Platform) (S : String) (e : Engine) :
    (setupPeerConnection p S e).1.base = e.base := by
  have h2 : ∀ x : Engine, x.base = e.base →
      (createCanvasTrackClone p S (releaseSessionTrack S x)).2.base = e.base := by
    intro x hx
    rw [base_createCanvasTrackClone, base_releaseSessionTrack, hx]
  unfold setupPeerConnection
  simp only []
  generalize hE1 : closeSessionPc S e = E1
  have h1 : E1.base = e.base := by
    rw [← hE1]
    exact base_closeSessionPc S e
  split
  · exact h1
  · generalize hR : createCanvasTrackClone p S (releaseSessionTrack S _) = R
    have h3 : R.2.base = e.base := by
      rw [← hR]
      exact h2 _ ((base_of_eq rfl rfl rfl rfl).trans h1)
    split
    · simp only [Engine.base, Engine.captureStops, Engine.emit, List.filter_append] at h3 ⊢
      simpa [isCaptureStop] using h3
    · split
      · exact (base_of_eq rfl rfl rfl rfl).trans h3
      · exact (base_of_eq rfl rfl rfl rfl).trans h3

theorem base_ite (c : Bool) (a b : Engine) :
    (if c = true then a else b).base = if c = true then a.base else b.base := by
  cases c <;> rfl

theorem foldl_emit_eq (f : MediaTrack → EngineEffect) (tracks : List MediaTrack) (e : Engine) :
    tracks.foldl (fun acc tr => acc.emit (f tr)) e = { e with trace := e.trace ++ tracks.map f } := by
  induction tracks generalizing e with
  | nil => simp
  | cons t ts ih =>
    simp only [List.foldl_cons]
    rw [ih]
    simp [Engine.emit]

theorem filter_captureStops_map (tracks : List MediaTrack) :
    (tracks.map (fun tr => EngineEffect.trackStop (.capture tr.id))).filter isCaptureStop
      = tracks.map (fun tr => EngineEffect.trackStop (.capture tr.id)) := by
  induction tracks with
  | nil => rfl
  | cons t ts ih => simp [List.filter_cons, isCaptureStop, ih]

theorem releaseBase_base (t : TabId) (x : Engine) (ht : t.truthy = true) :
    (releaseBase (some t) x).base
      = (JsMap.delete x.baseVideoByTab t, x.sessionsByTab, x.sessionTab,
          x.captureStops
            ++ (baseTracks x.baseVideoByTab t).map (fun tr => .trackStop (.capture tr.id))) := by
  unfold releaseBase
  simp only [ht, if_true]
  rw [foldl_emit_eq (fun tr => EngineEffect.trackStop (.capture tr.id))]
  simp only [Engine.base, Engine.captureStops, List.filter_append, baseTracks]
  rw [filter_captureStops_map]

theorem base_stopCapture (S : String) (e : Engine) :
    ∃ Y : Engine, Y.base = (detachFromTab S e).2.base
      ∧ (stopCapture S e).base
          = (if (detachFromTab S e).1 = true then releaseBase (JsMap.get e.sessionTab S) Y
              else Y).base := by
  refine ⟨stopOutputsOf S
    (JsMap.entries (releaseSessionTrack S (closeSessionPc S (detachFromTab S e).2)).pcByOutput)
    (releaseSessionTrack S (closeSessionPc S (detachFromTab S e).2)), ?_, ?_⟩
  · rw [base_stopOutputsOf, base_releaseSessionTrack, base_closeSessionPc]
  · have h1 : ∀ x : Engine,
        ({ x with activeOutputTabs := JsMap.delete x.activeOutputTabs S } : Engine).base = x.base :=
      fun _ => rfl
    have h2 : ∀ x : Engine,
        ({ x with originalStreams := JsMap.delete x.originalStreams S } : Engine).base = x.base :=
      fun _ => rfl
    unfold stopCapture
    simp only []
    rw [h1, base_releaseCanvasStream, base_ite, h2, base_clearSessionMaps, base_stopRenderLoop]
    simp

theorem stopCapture_keep (S : String) (e : Engine) (tid : TabId)
    (h1 : JsMap.get e.sessionTab S = some tid) (h2 : tid.truthy = true)
    (h3 : JsMap.has e.sessionsByTab tid = true) (h4 : remainingSessions S tid e ≠ []) :
    (stopCapture S e).base
      = (e.baseVideoByTab, JsMap.set e.sessionsByTab tid (remainingSessions S tid e),
          e.sessionTab, e.captureStops) := by
  obtain ⟨Y, hY, hb⟩ := base_stopCapture S e
  have hlen : (remainingSessions S tid e).length > 0 := List.length_pos.mpr h4
  have hd : detachFromTab S e
      = (false, { e with sessionsByTab := JsMap.set e.sessionsByTab tid (remainingSessions S tid e) }) := by
    unfold detachFromTab
    unfold remainingSessions at hlen
    simp only [h1, h2, h3, Bool.and_self, if_true, hlen]
    rfl
  rw [hd] at hY hb
  simp only [Bool.false_eq_true, if_false] at hb
  rw [hb, hY]
  rfl

theorem stopCapture_release (S : String) (e : Engine) (tid : TabId)
    (h1 : JsMap.get e.sessionTab S = some tid) (h2 : tid.truthy = true)
    (h4 : remainingSessions S tid e = []) :
    (stopCapture S e).baseVideoByTab = JsMap.delete e.baseVideoByTab tid
    ∧ (stopCapture S e).sessionTab = e.sessionTab
    ∧ (stopCapture S e).captureStops
        = e.captureStops
          ++ (baseTracks e.baseVideoByTab tid).map (fun tr => .trackStop (.capture tr.id)) := by
  obtain ⟨Y, hY, hb⟩ := base_stopCapture S e
  have hd : (detachFromTab S e).1 = true
      ∧ (detachFromTab S e).2.baseVideoByTab = e.baseVideoByTab
      ∧ (detachFromTab S e).2.sessionTab = e.sessionTab
      ∧ (detachFromTab S e).2.captureStops = e.captureStops := by
    unfold detachFromTab
    unfold remainingSessions at h4
    simp only [h1, h2, Bool.true_and]
    by_cases h3 : JsMap.has e.sessionsByTab tid = true
    · simp [h3, h4, Engine.captureStops]
    · simp [h3]
  obtain ⟨d1, d2, d3, d4⟩ := hd
  rw [d1, h1] at hb
  simp only [if_true] at hb
  rw [releaseBase_base tid Y h2] at hb
  obtain ⟨y1, _, y3, y4⟩ := base_eq hY
  have hb' := hb
  simp only [Engine.base, Prod.mk.injEq] at hb'
  obtain ⟨b1, _, b3, b4⟩ := hb'
  refine ⟨?_, ?_, ?_⟩
  · rw [b1, y1, d2]
  · rw [b3, y3, d3]
  · rw [b4, y4, d4, y1, d2]

theorem setupPeerConnection_ok (p : Platform) (S : String) (e : Engine) (sdp : String)
    (h : p.offerSdp = some sdp) : (setupPeerConnection p S e).2 = true := by
  unfold setupPeerConnection
  simp only [h]
  split
  · rfl
  · split <;> rfl

theorem base_addSessionToTab (T : TabId) (S : String) (e : Engine) :
    (addSessionToTab T S e).base
      = (e.baseVideoByTab,
          JsMap.set e.sessionsByTab T
            (if S ∈ (JsMap.get e.sessionsByTab T).getD [] then (JsMap.get e.sessionsByTab T).getD []
              else (JsMap.get e.sessionsByTab T).getD [] ++ [S]),
          e.sessionTab, e.captureStops) := rfl

theorem base_registerBase (T : TabId) (S : String) (video : Video) (e : Engine) :
    (registerBase T S video e).base
      = (JsMap.set e.baseVideoByTab T video,
          JsMap.set e.sessionsByTab T
            (if S ∈ (JsMap.get e.sessionsByTab T).getD [] then (JsMap.get e.sessionsByTab T).getD []
              else (JsMap.get e.sessionsByTab T).getD [] ++ [S]),
          JsMap.set e.sessionTab S T, e.captureStops) := by
  unfold registerBase
  simp only []
  split <;> rfl

theorem startCapture_base (p : Platform) (S : String) (T : TabId) (e : Engine)
    (stream : MediaStream) (sdp : String)
    (hfresh : JsMap.has e.peerConnections S = false) (hacq : p.acquired = some stream)
    (htracks : stream.videoTracks ≠ []) (hoffer : p.offerSdp = some sdp) (hT : T.truthy = true) :
    (startCapture p S T e).base
      = (JsMap.set e.baseVideoByTab T { p.video with srcObject := some stream },
          JsMap.set e.sessionsByTab T
            (if S ∈ (JsMap.get e.sessionsByTab T).getD [] then (JsMap.get e.sessionsByTab T).getD []
              else (JsMap.get e.sessionsByTab T).getD [] ++ [S]),
          JsMap.set e.sessionTab S T, e.captureStops) := by
  obtain ⟨t0, ts, hts⟩ : ∃ t0 ts, stream.videoTracks = t0 :: ts := by
    cases hv : stream.videoTracks with
    | nil => exact absurd hv htracks
    | cons t0 ts => exact ⟨t0, ts, rfl⟩
  have hA : ∀ x : Engine,
      ({ x with pendingCropPayload := JsMap.delete x.pendingCropPayload S } : Engine).base = x.base :=
    fun _ => rfl
  have hB : ∀ x : Engine,
      ({ x with canvasContexts := JsMap.set x.canvasContexts S p.canvasId } : Engine).base = x.base :=
    fun _ => rfl
  unfold startCapture
  simp only [hfresh, Bool.false_eq_true, if_false, hacq, hts, List.head?_cons, hT, if_true,
    setupPeerConnection_ok p S _ sdp hoffer]
  rw [base_startRenderLoop, hA, base_setupPeerConnection, base_initCanvasStream, hB,
    base_registerBase]
  rfl

theorem attachSessionToBase_base (p : Platform) (T : TabId) (S : String) (e : Engine)
    (v : Video) (hv : JsMap.get e.baseVideoByTab T = some v) :
    (attachSessionToBase p T S e).base
      = (e.baseVideoByTab,
          JsMap.set e.sessionsByTab T
            (if S ∈ (JsMap.get e.sessionsByTab T).getD [] then (JsMap.get e.sessionsByTab T).getD []
              else (JsMap.get e.sessionsByTab T).getD [] ++ [S]),
          JsMap.set e.sessionTab S T, e.captureStops) := by
  unfold attachSessionToBase
  simp only [hv]
  generalize hR : setupPeerConnection p S _ = R
  have hRb : R.1.base = (e.baseVideoByTab,
          JsMap.set e.sessionsByTab T
            (if S ∈ (JsMap.get e.sessionsByTab T).getD [] then (JsMap.get e.sessionsByTab T).getD []
              else (JsMap.get e.sessionsByTab T).getD [] ++ [S]),
          JsMap.set e.sessionTab S T, e.captureStops) := by
    have hC : ∀ x : Engine,
        ({ x with videoElements := JsMap.set x.videoElements S v
                  canvasContexts := JsMap.set x.canvasContexts S p.canvasId } : Engine).base
          = x.base :=
      fun _ => rfl
    rw [← hR, base_setupPeerConnection, base_initCanvasStream, hC, base_addSessionToTab]
    rfl
  split
  · split
    · split
      · rw [base_emit _ (.sendMessage _) rfl, base_startRenderLoop, hRb]
      · rw [base_startRenderLoop, hRb]
    · rw [base_startRenderLoop, hRb]
  · exact hRb

theorem twoSessionsOnTab_base (p1 p2 : Platform) (S1 S2 : String) (T : TabId) (e0 : Engine)
    (stream : MediaStream) (sdp : String)
    (hT : T.truthy = true) (hne : S1 ≠ S2)
    (hfresh : JsMap.has e0.peerConnections S1 = false)
    (hnew : JsMap.get e0.sessionsByTab T = none)
    (hacq : p1.acquired = some stream) (htracks : stream.videoTracks ≠ [])
    (hoffer : p1.offerSdp = some sdp) :
    JsMap.get (twoSessionsOnTab p1 p2 S1 S2 T e0).sessionTab S1 = some T
    ∧ JsMap.get (twoSessionsOnTab p1 p2 S1 S2 T e0).sessionTab S2 = some T
    ∧ JsMap.get (twoSessionsOnTab p1 p2 S1 S2 T e0).sessionsByTab T = some [S1, S2]
    ∧ JsMap.get (twoSessionsOnTab p1 p2 S1 S2 T e0).baseVideoByTab T
        = some { p1.video with srcObject := some stream }
    ∧ (twoSessionsOnTab p1 p2 S1 S2 T e0).captureStops = e0.captureStops := by
  have hs := startCapture_base p1 S1 T e0 stream sdp hfresh hacq htracks hoffer hT
  obtain ⟨s1, s2, s3, s4⟩ : (startCapture p1 S1 T e0).baseVideoByTab
        = JsMap.set e0.baseVideoByTab T { p1.video with srcObject := some stream }
      ∧ (startCapture p1 S1 T e0).sessionsByTab = JsMap.set e0.sessionsByTab T [S1]
      ∧ (startCapture p1 S1 T e0).sessionTab = JsMap.set e0.sessionTab S1 T
      ∧ (startCapture p1 S1 T e0).captureStops = e0.captureStops := by
    simpa [Engine.base, Prod.mk.injEq, hnew] using hs
  have hv : JsMap.get (startCapture p1 S1 T e0).baseVideoByTab T
      = some { p1.video with srcObject := some stream } := by
    rw [s1, JsMap.get_set_self]
  have ha := attachSessionToBase_base p2 T S2 (startCapture p1 S1 T e0) _ hv
  have hg : JsMap.get (startCapture p1 S1 T e0).sessionsByTab T = some [S1] := by
    rw [s2, JsMap.get_set_self]
  obtain ⟨a1, a2, a3, a4⟩ : (twoSessionsOnTab p1 p2 S1 S2 T e0).baseVideoByTab
        = (startCapture p1 S1 T e0).baseVideoByTab
      ∧ (twoSessionsOnTab p1 p2 S1 S2 T e0).sessionsByTab
        = JsMap.set (startCapture p1 S1 T e0).sessionsByTab T [S1, S2]
      ∧ (twoSessionsOnTab p1 p2 S1 S2 T e0).sessionTab
        = JsMap.set (startCapture p1 S1 T e0).sessionTab S2 T
      ∧ (twoSessionsOnTab p1 p2 S1 S2 T e0).captureStops
        = (startCapture p1 S1 T e0).captureStops := by
    unfold twoSessionsOnTab
    simpa [Engine.base, Prod.mk.injEq, hg, Ne.symm hne] using ha
  refine ⟨?_, ?_, ?_, ?_, ?_⟩
  · rw [a3, JsMap.get_set_other _ _ hne, s3, JsMap.get_set_self]
  · rw [a3, JsMap.get_set_self]
  · rw [a2, JsMap.get_set_self]
  · rw [a1, hv]
  · rw [a4, s4]

theorem stopCapture_first_then_last (e : Engine) (A B : String) (T : TabId) (v : Video)
    (hT : T.truthy = true) (hne : A ≠ B)
    (hA : JsMap.get e.sessionTab A = some T) (hB : JsMap.get e.sessionTab B = some T)
    (hset : (JsMap.get e.sessionsByTab T).getD [] = [A, B] ∨ (JsMap.get e.sessionsByTab T).getD [] = [B, A])
    (hhas : JsMap.has e.sessionsByTab T = true)
    (hv : JsMap.get e.baseVideoByTab T = some v) :
    JsMap.get (stopCapture A e).baseVideoByTab T = some v
    ∧ (stopCapture A e).captureStops = e.captureStops
    ∧ JsMap.get (stopCapture B (stopCapture A e)).baseVideoByTab T = none
    ∧ (stopCapture B (stopCapture A e)).captureStops
        = e.captureStops ++ (baseTracks e.baseVideoByTab T).map
            (fun tr => EngineEffect.trackStop (.capture tr.id)) := by
  have hrem : remainingSessions A T e = [B] := by
    unfold remainingSessions
    rcases hset with h | h
    · rw [h]
      simp
    · rw [h]
      simp [List.erase_cons, hne, Ne.symm hne]
  have hk := stopCapture_keep A e T hA hT hhas (by rw [hrem]; simp)
  obtain ⟨k1, k2, k3, k4⟩ : (stopCapture A e).baseVideoByTab = e.baseVideoByTab
      ∧ (stopCapture A e).sessionsByTab = JsMap.set e.sessionsByTab T [B]
      ∧ (stopCapture A e).sessionTab = e.sessionTab
      ∧ (stopCapture A e).captureStops = e.captureStops := by
    simpa [Engine.base, Prod.mk.injEq, hrem] using hk
  have hrem2 : remainingSessions B T (stopCapture A e) = [] := by
    unfold remainingSessions
    rw [k2, JsMap.get_set_self]
    simp
  obtain ⟨r1, _, r3⟩ := stopCapture_release B (stopCapture A e) T (by rw [k3]; exact hB) hT hrem2
  refine ⟨?_, k4, ?_, ?_⟩
  · rw [k1, hv]
  · rw [r1, JsMap.get_delete_self]
  · rw [r3, k4, k1]

/-- C7: with session `S1` started by `startCapture` on tab `T` and session
`S2` attached to the same capture by `attachSessionToBase`, `stopCapture` of
either one leaves the base mirror of `T` registered and stops no captured
track; `stopCapture` of the remaining one then removes the base mirror and
stops every track of the captured stream. In general `stopCapture(S)`
releases the base mirror of the tab of `S` exactly when no session remains
attached to that tab. -/
theorem C7_base_capture_released_with_last_session (p1 p2 : Platform) (S1 S2 : String)
    (T : TabId) (e0 : Engine) (stream : MediaStream) (sdp : String)
    (hT : T.truthy = true) (hne : S1 ≠ S2)
    (hfresh : JsMap.has e0.peerConnections S1 = false)
    (hnew : JsMap.get e0.sessionsByTab T = none)
    (hacq : p1.acquired = some stream) (htracks : stream.videoTracks ≠ [])
    (hoffer : p1.offerSdp = some sdp) :
    (JsMap.get (stopCapture S1 (twoSessionsOnTab p1 p2 S1 S2 T e0)).baseVideoByTab T
        = some { p1.video with srcObject := some stream }
      ∧ (stopCapture S1 (twoSessionsOnTab p1 p2 S1 S2 T e0)).captureStops = e0.captureStops
      ∧ JsMap.get (stopCapture S2 (stopCapture S1 (twoSessionsOnTab p1 p2 S1 S2 T e0))).baseVideoByTab T
          = none
      ∧ (stopCapture S2 (stopCapture S1 (twoSessionsOnTab p1 p2 S1 S2 T e0))).captureStops
          = e0.captureStops ++ stopsOfStream stream)
    ∧ (JsMap.get (stopCapture S2 (twoSessionsOnTab p1 p2 S1 S2 T e0)).baseVideoByTab T
        = some { p1.video with srcObject := some stream }
      ∧ (stopCapture S2 (twoSessionsOnTab p1 p2 S1 S2 T e0)).captureStops = e0.captureStops
      ∧ JsMap.get (stopCapture S1 (stopCapture S2 (twoSessionsOnTab p1 p2 S1 S2 T e0))).baseVideoByTab T
          = none
      ∧ (stopCapture S1 (stopCapture S2 (twoSessionsOnTab p1 p2 S1 S2 T e0))).captureStops
          = e0.captureStops ++ stopsOfStream stream)
    ∧ (∀ (e : Engine) (S : String) (tid : TabId),
        JsMap.get e.sessionTab S = some tid → tid.truthy = true →
        (remainingSessions S tid e ≠ [] →
          (stopCapture S e).baseVideoByTab = e.baseVideoByTab
          ∧ (stopCapture S e).captureStops = e.captureStops)
        ∧ (remainingSessions S tid e = [] →
          JsMap.get (stopCapture S e).baseVideoByTab tid = none
          ∧ (stopCapture S e).captureStops
              = e.captureStops ++ (baseTracks e.baseVideoByTab tid).map
                  (fun tr => EngineEffect.trackStop (.capture tr.id)))) := by
  obtain ⟨f1, f2, f3, f4, f5⟩ :=
    twoSessionsOnTab_base p1 p2 S1 S2 T e0 stream sdp hT hne hfresh hnew hacq htracks hoffer
  have hhas : JsMap.has (twoSessionsOnTab p1 p2 S1 S2 T e0).sessionsByTab T = true := by
    simp [JsMap.has, f3]
  have hbt : (baseTracks (twoSessionsOnTab p1 p2 S1 S2 T e0).baseVideoByTab T).map
      (fun tr => EngineEffect.trackStop (.capture tr.id)) = stopsOfStream stream := by
    simp [baseTracks, f4, stopsOfStream]
  refine ⟨?_, ?_, ?_⟩
  · have h := stopCapture_first_then_last (twoSessionsOnTab p1 p2 S1 S2 T e0) S1 S2 T _ hT hne
      f1 f2 (Or.inl (by rw [f3]; rfl)) hhas f4
    rw [hbt, f5] at h
    exact h
  · have h := stopCapture_first_then_last (twoSessionsOnTab p1 p2 S1 S2 T e0) S2 S1 T _ hT
      (Ne.symm hne) f2 f1 (Or.inr (by rw [f3]; rfl)) hhas f4
    rw [hbt, f5] at h
    exact h
  · intro e S tid hS htid
    constructor
    · intro hrem
      have hhas' : JsMap.has e.sessionsByTab tid = true := by
        unfold remainingSessions at hrem
        cases hg : JsMap.get e.sessionsByTab tid with
        | none => simp [hg] at hrem
        | some l => simp [JsMap.has, hg]
      have hk := stopCapture_keep S e tid hS htid hhas' hrem
      simp only [Engine.base, Prod.mk.injEq] at hk
      exact ⟨hk.1, hk.2.2.2⟩
    · intro hrem
      obtain ⟨r1, _, r3⟩ := stopCapture_release S e tid hS htid hrem
      exact ⟨by rw [r1, JsMap.get_delete_self], r3⟩

/-- Witness of C7: sessions `s1` and `s2` on tab 1 of a fresh engine. -/
theorem C7_base_capture_witness :
    JsMap.get (stopCapture "s1" (twoSessionsOnTab platformA platformB "s1" "s2" (.num 1)
        Engine.init)).baseVideoByTab (.num 1)
      = some { platformA.video with
               srcObject := some { id := 1, videoTracks :=
                 [{ id := 100, ended := false, width := 1280, height := 720 }] } }
    ∧ JsMap.get (stopCapture "s2" (stopCapture "s1" (twoSessionsOnTab platformA platformB "s1" "s2"
        (.num 1) Engine.init))).baseVideoByTab (.num 1) = none :=
  have w := C7_base_capture_released_with_last_session platformA platformB "s1" "s2" (.num 1)
    Engine.init { id := 1, videoTracks := [{ id := 100, ended := false, width := 1280, height := 720 }] }
    "v=0" (by decide) (by decide) (by decide) (by decide) rfl (by decide) rfl
  ⟨w.1.1, w.1.2.2.1⟩

/-! ## Remote candidates -/

theorem onIce_queued (payload : SignalPayload) (e : Engine) (pc : PeerConnection) (c : Candidate)
    (hpc : linkConnection e payload = some pc) (hc : payload.candidate = some c)
    (hct : truthyStr c = true)
    (hfresh : staleOffer payload.offerId (latestOfferId e payload) = false)
    (hrd : pc.remoteDescription = none) :
    linkQueue (onIceFromOutput payload e) payload = some ((linkQueue e payload).getD [] ++ [c])
    ∧ linkConnection (onIceFromOutput payload e) payload = some pc := by
  unfold linkConnection latestOfferId linkQueue at *
  unfold onIceFromOutput
  cases ht : payload.tabId.truthy with
  | true =>
    simp only [ht, if_true] at hpc hfresh ⊢
    simp [hpc, hc, hct, hfresh, hrd, JsMap.get_set_self]
  | false =>
    simp only [ht, Bool.false_eq_true, if_false] at hpc hfresh ⊢
    simp [hpc, hc, hct, hfresh, hrd, JsMap.get_set_self]

theorem onIce_applied (payload : SignalPayload) (e : Engine) (pc : PeerConnection) (c : Candidate)
    (hpc : linkConnection e payload = some pc) (hc : payload.candidate = some c)
    (hct : truthyStr c = true)
    (hfresh : staleOffer payload.offerId (latestOfferId e payload) = false)
    (hrd : pc.remoteDescription ≠ none) :
    linkConnection (onIceFromOutput payload e) payload
        = some { pc with addedIce := pc.addedIce ++ [c] }
    ∧ linkQueue (onIceFromOutput payload e) payload = linkQueue e payload := by
  have hrd' : pc.remoteDescription.isNone = false := by
    cases h : pc.remoteDescription with
    | none => exact absurd h hrd
    | some d => rfl
  unfold linkConnection latestOfferId linkQueue at *
  unfold onIceFromOutput
  cases ht : payload.tabId.truthy with
  | true =>
    simp only [ht, if_true] at hpc hfresh ⊢
    simp [hpc, hc, hct, hfresh, hrd', JsMap.get_set_self]
  | false =>
    simp only [ht, Bool.false_eq_true, if_false] at hpc hfresh ⊢
    simp [hpc, hc, hct, hfresh, hrd', JsMap.get_set_self]

/-- C11: an `ICE_FROM_OUTPUT` message that addresses an existing connection,
carries a candidate and passes the stale-offer guard appends the candidate to
the end of the queue of its key, without applying it, when the connection has
no remote description yet; otherwise it hands the candidate to the connection
at once and leaves the queue as it was. -/
theorem C11_ice_queued_until_remote_description (payload : SignalPayload) (e : Engine)
    (pc : PeerConnection) (c : Candidate)
    (hpc : linkConnection e payload = some pc) (hc : payload.candidate = some c)
    (hct : truthyStr c = true)
    (hfresh : staleOffer payload.offerId (latestOfferId e payload) = false) :
    (pc.remoteDescription = none →
        linkQueue (onIceFromOutput payload e) payload
            = some ((linkQueue e payload).getD [] ++ [c])
        ∧ linkConnection (onIceFromOutput payload e) payload = some pc)
    ∧ (pc.remoteDescription ≠ none →
        linkConnection (onIceFromOutput payload e) payload
            = some { pc with addedIce := pc.addedIce ++ [c] }
        ∧ linkQueue (onIceFromOutput payload e) payload = linkQueue e payload) :=
  ⟨onIce_queued payload e pc c hpc hc hct hfresh, onIce_applied payload e pc c hpc hc hct hfresh⟩

/-- Witness of C11: a candidate for link (`s1`, tab 7), which awaits its
answer, is queued behind nothing and the connection is untouched. -/
theorem C11_ice_queued_witness :
    linkQueue (onIceFromOutput ⟨"s1", .num 7, none, some "o1", some "cand"⟩ engineAwaitingAnswer)
        ⟨"s1", .num 7, none, some "o1", some "cand"⟩ = some ["cand"]
    ∧ linkConnection (onIceFromOutput ⟨"s1", .num 7, none, some "o1", some "cand"⟩
        engineAwaitingAnswer) ⟨"s1", .num 7, none, some "o1", some "cand"⟩
        = some { id := 1, signalingState := .haveLocalOffer, remoteDescription := none,
                 addedIce := [] } :=
  (C11_ice_queued_until_remote_description ⟨"s1", .num 7, none, some "o1", some "cand"⟩
    engineAwaitingAnswer
    { id := 1, signalingState := .haveLocalOffer, remoteDescription := none, addedIce := [] }
    "cand" (by decide) rfl (by decide) (by decide)).1 rfl

theorem applyAnswer_snd (pc : PeerConnection) (sdp : Option String) (q : Option (List Candidate)) :
    (applyAnswer pc sdp q).2 = true ∨ q.getD [] = [] := by
  cases q with
  | none => right; rfl
  | some l =>
    cases l with
    | nil => right; rfl
    | cons c cs => left; rfl

theorem onAnswer_queue_drained (payload : SignalPayload) (e : Engine) (pc : PeerConnection)
    (hpc : linkConnection e payload = some pc) (hsdp : truthyOpt payload.sdp = true)
    (hst : pc.signalingState = .haveLocalOffer)
    (hfresh : staleOffer payload.offerId (latestOfferId e payload) = false) :
    (linkQueue (onAnswer true payload e) payload).getD [] = [] := by
  unfold linkConnection latestOfferId linkQueue at *
  unfold onAnswer
  cases ht : payload.tabId.truthy with
  | true =>
    simp only [ht, if_true] at hpc hfresh ⊢
    simp only [hpc, hsdp, hst, hfresh, staleOffer_normalised]
    rcases applyAnswer_snd pc payload.sdp
      (JsMap.get e.pendingIceByOutput (keyFor payload.sessionId payload.tabId)) with h | h
    · simp [h, JsMap.get_delete_self]
    · by_cases h2 : (applyAnswer pc payload.sdp
          (JsMap.get e.pendingIceByOutput (keyFor payload.sessionId payload.tabId))).2 = true
      · simp [h2, JsMap.get_delete_self]
      · simpa [h2] using h
  | false =>
    simp only [ht, Bool.false_eq_true, if_false] at hpc hfresh ⊢
    simp only [hpc, hsdp, hst, hfresh, staleOffer_normalised]
    rcases applyAnswer_snd pc payload.sdp (JsMap.get e.pendingOutputIce payload.sessionId) with h | h
    · simp [h, JsMap.get_delete_self]
    · by_cases h2 : (applyAnswer pc payload.sdp
          (JsMap.get e.pendingOutputIce payload.sessionId)).2 = true
      · simp [h2, JsMap.get_delete_self]
      · simpa [h2] using h

/-- C12: when an answer is applied to a link, every candidate queued for its
key is handed to `addIceCandidate` of the connection, after the candidates
handed over before and in the order of the queue, and the key has no queued
candidate afterwards. (A rejected `addIceCandidate` is caught inside the loop,
candidate by candidate, so every queued candidate is handed over.) -/
theorem C12_answer_drains_queued_candidates (payload : SignalPayload) (e : Engine)
    (pc : PeerConnection)
    (hpc : linkConnection e payload = some pc) (hsdp : truthyOpt payload.sdp = true)
    (hst : pc.signalingState = .haveLocalOffer)
    (hfresh : staleOffer payload.offerId (latestOfferId e payload) = false) :
    (∃ pc', linkConnection (onAnswer true payload e) payload = some pc'
        ∧ pc'.addedIce = pc.addedIce ++ (linkQueue e payload).getD []
        ∧ pc'.remoteDescription = payload.sdp)
    ∧ (linkQueue (onAnswer true payload e) payload).getD [] = [] :=
  ⟨⟨_, onAnswer_applied payload e pc hpc hsdp hst hfresh, rfl, rfl⟩,
   onAnswer_queue_drained payload e pc hpc hsdp hst hfresh⟩

/-- Witness of C12: the answer to `o1` drains the queue `c1`, `c2` of link
(`s1`, tab 7) in that order. -/
theorem C12_answer_drains_witness :
    (∃ pc', linkConnection (onAnswer true ⟨"s1", .num 7, some "v=0", some "o1", none⟩
          engineWithQueuedIce) ⟨"s1", .num 7, some "v=0", some "o1", none⟩ = some pc'
        ∧ pc'.addedIce = [] ++ (linkQueue engineWithQueuedIce
            ⟨"s1", .num 7, some "v=0", some "o1", none⟩).getD []
        ∧ pc'.remoteDescription = some "v=0")
    ∧ (linkQueue (onAnswer true ⟨"s1", .num 7, some "v=0", some "o1", none⟩ engineWithQueuedIce)
        ⟨"s1", .num 7, some "v=0", some "o1", none⟩).getD [] = [] :=
  C12_answer_drains_queued_candidates ⟨"s1", .num 7, some "v=0", some "o1", none⟩
    engineWithQueuedIce
    { id := 1, signalingState := .haveLocalOffer, remoteDescription := none, addedIce := [] }
    (by decide) (by decide) rfl (by decide)

/-! ## Crop region -/

theorem roundHalfEven_intCast (z : Int) : roundHalfEven (z : Rat) = z := by
  unfold roundHalfEven
  simp

theorem roundDouble_int (z : Int) (h : |z| < 2 ^ 53) : roundDouble (z : Rat) = .num (z : Rat) := by
  unfold roundDouble
  have habs : |(z : Rat)| = ((|z| : Int) : Rat) := by simp
  have hlt : |(z : Rat)| < 2 ^ 53 := by
    rw [habs]
    exact_mod_cast h
  have hth : ¬ ((2 : Rat) ^ 1024 - 2 ^ 970 ≤ |(z : Rat)|) := by
    intro hh
    have : (2 : Rat) ^ 53 < 2 ^ 1024 - 2 ^ 970 := by norm_num
    linarith
  simp only [hth, if_false]
  by_cases hz : z = 0
  · subst hz
    simp
  · have hpos : 0 < |(z : Rat)| := by
      simpa using hz
    have hne : ¬ (|(z : Rat)| = 0) := ne_of_gt hpos
    simp only [hne, if_false]
    have hone : (1 : Rat) ≤ |(z : Rat)| := by
      rw [habs]
      have : (1 : Int) ≤ |z| := Int.one_le_abs hz
      exact_mod_cast this
    have hk0 : 0 ≤ Int.log 2 |(z : Rat)| := by
      have := (Int.zpow_le_iff_le_log (b := 2) (by norm_num) hpos (x := 0)).1 (by simpa using hone)
      exact this
    have hk52 : Int.log 2 |(z : Rat)| < 53 := by
      exact (Int.lt_zpow_iff_log_lt (b := 2) (by norm_num) hpos (x := 53)).1 (by exact_mod_cast hlt)
    obtain ⟨n, hn⟩ : ∃ n : Nat, Int.log 2 |(z : Rat)| - 52 = -(n : Int) := by
      refine ⟨(52 - Int.log 2 |(z : Rat)|).toNat, ?_⟩
      rw [Int.toNat_of_nonneg (by omega)]
      ring
    have hmax : max (Int.log 2 |(z : Rat)| - 52) (-1074) = -(n : Int) := by
      rw [← hn]
      apply max_eq_left
      omega
    rw [hmax]
    have hdiv : |(z : Rat)| / (2 : Rat) ^ (-(n : Int)) = ((|z| * 2 ^ n : Int) : Rat) := by
      rw [zpow_neg, zpow_natCast, div_inv_eq_mul, habs]
      push_cast
      ring
    rw [hdiv, roundHalfEven_intCast]
    congr 1
    rw [zpow_neg, zpow_natCast]
    push_cast
    have h2 : ((2 : Rat) ^ n) ≠ 0 := by positivity
    by_cases hzpos : 0 < (z : Rat)
    · simp only [hzpos, if_true]
      rw [abs_of_pos hzpos]
      field_simp
    · simp only [hzpos, if_false]
      have : z < 0 := by
        have : ¬ (0 < z) := by
          intro h'
          exact hzpos (by exact_mod_cast h')
        omega
      have hq : (z : Rat) < 0 := by exact_mod_cast this
      rw [abs_of_neg hq]
      field_simp

theorem roundDouble_overflow (q : Rat) (h : (2 : Rat) ^ 1024 - 2 ^ 970 ≤ |q|) :
    roundDouble q = if 0 < q then .posInf else .negInf := by
  unfold roundDouble
  simp only [h, if_true]

theorem roundDouble_nat (n : Nat) (h : n < 2 ^ 53) : roundDouble (n : Rat) = .num (n : Rat) := by
  have := roundDouble_int (n : Int) (by rw [abs_lt]; constructor <;> omega)
  simpa using this

theorem roundDouble_zero : roundDouble 0 = .num 0 := by
  simpa using roundDouble_nat 0 (by norm_num)

theorem roundDouble_eq (q r : Rat) (n : Nat) (hq : q = n) (hr : r = n) (hn : n < 2 ^ 53) :
    roundDouble q = .num r := by
  rw [hq, hr]
  exact roundDouble_nat n hn

theorem JsNum.div_num (p q : Rat) (hq : q ≠ 0) :
    JsNum.div (.num p) (.num q) = roundDouble (p / q) := by
  simp [JsNum.div, hq]

theorem JsNum.round_eq (q : Rat) (r : Rat) (n : Nat) (hq : q = n) (hr : r = n) :
    JsNum.round (.num q) = .num r := by
  subst hq
  subst hr
  show JsNum.num ((Int.floor ((n : Rat) + 1 / 2) : Int) : Rat) = _
  have : Int.floor ((n : Rat) + 1 / 2) = (n : Int) := by
    rw [Int.floor_eq_iff]
    constructor
    · push_cast
      linarith
    · push_cast
      linarith
  rw [this]
  simp

theorem JsNum.round_cases (a : JsNum) (h : a.round ≠ .nan) :
    (∃ z : Int, a.round = .num z) ∨ a.round = .posInf ∨ a.round = .negInf := by
  cases a with
  | num q => exact Or.inl ⟨_, rfl⟩
  | posInf => exact Or.inr (Or.inl rfl)
  | negInf => exact Or.inr (Or.inr rfl)
  | nan => exact absurd rfl h

theorem JsNum.add_int (a b : Int) (h : |a + b| < 2 ^ 53) :
    JsNum.add (.num a) (.num b) = .num ((a + b : Int) : Rat) := by
  show roundDouble ((a : Rat) + (b : Rat)) = _
  rw [← Int.cast_add]
  exact roundDouble_int _ h

theorem JsNum.sub_int (a b : Int) (h : |a - b| < 2 ^ 53) :
    JsNum.sub (.num a) (.num b) = .num ((a - b : Int) : Rat) := by
  show roundDouble ((a : Rat) + -(b : Rat)) = _
  rw [← Int.cast_neg, ← Int.cast_add, ← sub_eq_add_neg]
  exact roundDouble_int _ h

theorem JsNum.max_int (a b : Int) :
    JsNum.max (.num a) (.num b) = .num ((Max.max a b : Int) : Rat) := by
  show JsNum.num (Max.max (a : Rat) (b : Rat)) = _
  rw [Int.cast_max]

theorem JsNum.min_int (a b : Int) :
    JsNum.min (.num a) (.num b) = .num ((Min.min a b : Int) : Rat) := by
  show JsNum.num (Min.min (a : Rat) (b : Rat)) = _
  rw [Int.cast_min]

theorem JsNum.zero_eq : (0 : JsNum) = .num ((0 : Int) : Rat) := by
  show JsNum.num (0 : Rat) = _
  simp

theorem JsNum.one_eq : (1 : JsNum) = .num ((1 : Int) : Rat) := by
  show JsNum.num (1 : Rat) = _
  simp

theorem JsNum.ofNat_eq (n : Nat) : JsNum.ofNat n = .num (((n : Int) : Int) : Rat) := by
  show JsNum.num (n : Rat) = _
  simp

theorem clampAxis (V : Nat) (L R : JsNum) (hV : 1 ≤ V) (hVm : V < 2 ^ 32)
    (hL : (∃ z : Int, L = .num z) ∨ L = .posInf ∨ L = .negInf)
    (hR : (∃ z : Int, R = .num z) ∨ R = .posInf ∨ R = .negInf) :
    ∃ l r : Int,
      JsNum.max 0 (JsNum.min L (JsNum.sub (JsNum.ofNat V) 1)) = .num l
      ∧ JsNum.max (JsNum.add (.num l) 1) (JsNum.min R (JsNum.ofNat V)) = .num r
      ∧ JsNum.sub (.num r) (.num l) = .num ((r - l : Int) : Rat)
      ∧ 0 ≤ l ∧ 1 ≤ r - l ∧ r ≤ V := by
  have hV1 : JsNum.sub (JsNum.ofNat V) 1 = .num (((V : Int) - 1 : Int) : Rat) := by
    rw [JsNum.ofNat_eq, JsNum.one_eq]
    apply JsNum.sub_int
    rw [abs_lt]
    constructor <;> omega
  have hleft : ∃ l : Int, JsNum.max 0 (JsNum.min L (JsNum.sub (JsNum.ofNat V) 1)) = .num l
      ∧ 0 ≤ l ∧ l ≤ (V : Int) - 1 := by
    rw [hV1, JsNum.zero_eq]
    rcases hL with ⟨z, rfl⟩ | rfl | rfl
    · rw [JsNum.min_int, JsNum.max_int]
      exact ⟨_, rfl, le_max_left _ _, max_le (by omega) (min_le_right _ _)⟩
    · rw [show ∀ q : Rat, JsNum.min .posInf (.num q) = .num q from fun _ => rfl, JsNum.max_int]
      exact ⟨_, rfl, le_max_left _ _, max_le (by omega) le_rfl⟩
    · exact ⟨0, rfl, le_rfl, by omega⟩
  obtain ⟨l, hl, hl0, hlV⟩ := hleft
  have hl1 : JsNum.add (.num l) 1 = .num ((l + 1 : Int) : Rat) := by
    rw [JsNum.one_eq]
    apply JsNum.add_int
    rw [abs_lt]
    constructor <;> omega
  have hright : ∃ r : Int,
      JsNum.max (JsNum.add (.num l) 1) (JsNum.min R (JsNum.ofNat V)) = .num r
      ∧ l + 1 ≤ r ∧ r ≤ V := by
    rw [hl1, JsNum.ofNat_eq]
    rcases hR with ⟨z, rfl⟩ | rfl | rfl
    · rw [JsNum.min_int, JsNum.max_int]
      exact ⟨_, rfl, le_max_left _ _, max_le (by omega) (min_le_right _ _)⟩
    · rw [show ∀ q : Rat, JsNum.min .posInf (.num q) = .num q from fun _ => rfl, JsNum.max_int]
      exact ⟨_, rfl, le_max_left _ _, max_le (by omega) le_rfl⟩
    · exact ⟨l + 1, rfl, le_rfl, by omega⟩
  obtain ⟨r, hr, hr1, hrV⟩ := hright
  refine ⟨l, r, hl, hr, ?_, hl0, by omega, hrV⟩
  apply JsNum.sub_int
  rw [abs_lt]
  constructor <;> omega

theorem cropEdges_cropUpdate :
    cropEdges 1280 720 cropUpdate = { left := 100, top := 50, right := 420, bottom := 230 } := by
  have hmaxW : JsNum.max 1 1280 = 1280 := by
    show JsNum.num (Max.max (1 : Rat) 1280) = JsNum.num 1280
    norm_num
  have hmaxH : JsNum.max 1 720 = 720 := by
    show JsNum.num (Max.max (1 : Rat) 720) = JsNum.num 720
    norm_num
  have hdivW : (JsNum.ofNat 1280).div 1280 = 1 :=
    (JsNum.div_num _ _ (by norm_num)).trans
      (roundDouble_eq _ _ 1 (by norm_num) (by norm_num) (by norm_num))
  have hdivH : (JsNum.ofNat 720).div 720 = 1 :=
    (JsNum.div_num _ _ (by norm_num)).trans
      (roundDouble_eq _ _ 1 (by norm_num) (by norm_num) (by norm_num))
  have hmin : JsNum.min 1 1 = 1 := by
    show JsNum.num (Min.min (1 : Rat) 1) = JsNum.num 1
    norm_num
  have hmulW : JsNum.mul 1280 1 = 1280 := by
    show roundDouble _ = JsNum.num _
    exact roundDouble_eq _ _ 1280 (by norm_num) (by norm_num) (by norm_num)
  have hmulH : JsNum.mul 720 1 = 720 := by
    show roundDouble _ = JsNum.num _
    exact roundDouble_eq _ _ 720 (by norm_num) (by norm_num) (by norm_num)
  have hsubW : (JsNum.ofNat 1280).sub 1280 = 0 := by
    show roundDouble _ = JsNum.num _
    exact roundDouble_eq _ _ 0 (by norm_num) (by norm_num) (by norm_num)
  have hsubH : (JsNum.ofNat 720).sub 720 = 0 := by
    show roundDouble _ = JsNum.num _
    exact roundDouble_eq _ _ 0 (by norm_num) (by norm_num) (by norm_num)
  have hdiv0 : JsNum.div 0 2 = 0 :=
    (JsNum.div_num _ _ (by norm_num)).trans
      (roundDouble_eq _ _ 0 (by norm_num) (by norm_num) (by norm_num))
  have hm100 : JsNum.mul 100 1 = 100 := by
    show roundDouble _ = JsNum.num _
    exact roundDouble_eq _ _ 100 (by norm_num) (by norm_num) (by norm_num)
  have hm50 : JsNum.mul 50 1 = 50 := by
    show roundDouble _ = JsNum.num _
    exact roundDouble_eq _ _ 50 (by norm_num) (by norm_num) (by norm_num)
  have hm320 : JsNum.mul 320 1 = 320 := by
    show roundDouble _ = JsNum.num _
    exact roundDouble_eq _ _ 320 (by norm_num) (by norm_num) (by norm_num)
  have hm180 : JsNum.mul 180 1 = 180 := by
    show roundDouble _ = JsNum.num _
    exact roundDouble_eq _ _ 180 (by norm_num) (by norm_num) (by norm_num)
  have ha100 : JsNum.add 100 0 = 100 := by
    show roundDouble _ = JsNum.num _
    exact roundDouble_eq _ _ 100 (by norm_num) (by norm_num) (by norm_num)
  have ha50 : JsNum.add 50 0 = 50 := by
    show roundDouble _ = JsNum.num _
    exact roundDouble_eq _ _ 50 (by norm_num) (by norm_num) (by norm_num)
  have ha420 : JsNum.add 100 320 = 420 := by
    show roundDouble _ = JsNum.num _
    exact roundDouble_eq _ _ 420 (by norm_num) (by norm_num) (by norm_num)
  have ha230 : JsNum.add 50 180 = 230 := by
    show roundDouble _ = JsNum.num _
    exact roundDouble_eq _ _ 230 (by norm_num) (by norm_num) (by norm_num)
  have hr100 : JsNum.round 100 = 100 := JsNum.round_eq _ _ 100 (by norm_num) (by norm_num)
  have hr50 : JsNum.round 50 = 50 := JsNum.round_eq _ _ 50 (by norm_num) (by norm_num)
  have hr420 : JsNum.round 420 = 420 := JsNum.round_eq _ _ 420 (by norm_num) (by norm_num)
  have hr230 : JsNum.round 230 = 230 := JsNum.round_eq _ _ 230 (by norm_num) (by norm_num)
  unfold cropEdges cropUpdate
  simp only [hmaxW, hmaxH, hdivW, hdivH, hmin, hmulW, hmulH, hsubW, hsubH, hdiv0, hm100, hm50,
    hm320, hm180, ha100, ha50, ha420, ha230, hr100, hr50, hr420, hr230]


theorem clampRegion_bounds (videoW videoH : Nat) (edges : CropEdges)
    (hW : 1 ≤ videoW) (hH : 1 ≤ videoH) (hWm : videoW < 2 ^ 32) (hHm : videoH < 2 ^ 32)
    (hL : (∃ z : Int, edges.left = .num z) ∨ edges.left = .posInf ∨ edges.left = .negInf)
    (hT : (∃ z : Int, edges.top = .num z) ∨ edges.top = .posInf ∨ edges.top = .negInf)
    (hR : (∃ z : Int, edges.right = .num z) ∨ edges.right = .posInf ∨ edges.right = .negInf)
    (hB : (∃ z : Int, edges.bottom = .num z) ∨ edges.bottom = .posInf
      ∨ edges.bottom = .negInf) :
    ∃ x y w h : Int,
      clampRegion videoW videoH edges = { x := .num x, y := .num y, w := .num w, h := .num h }
      ∧ 0 ≤ x ∧ 0 ≤ y ∧ 1 ≤ w ∧ 1 ≤ h ∧ x + w ≤ videoW ∧ y + h ≤ videoH := by
  obtain ⟨l, r, h1, h2, h3, h4, h5, h6⟩ := clampAxis videoW edges.left edges.right hW hWm hL hR
  obtain ⟨t, b, k1, k2, k3, k4, k5, k6⟩ := clampAxis videoH edges.top edges.bottom hH hHm hT hB
  refine ⟨l, t, r - l, b - t, ?_, h4, k4, h5, k5, by omega, by omega⟩
  unfold clampRegion
  simp only [h1, h2, h3, k1, k2, k3]

theorem cropEdges_cropOverflow :
    cropEdges 1280 720 cropOverflow
      = { left := .negInf, top := 0, right := .nan, bottom := 720 } := by
  have hmax1 : JsNum.max 1 1 = 1 := by
    show JsNum.num (Max.max (1 : Rat) 1) = JsNum.num 1
    norm_num
  have hdW : (JsNum.ofNat 1280).div 1 = 1280 :=
    (JsNum.div_num _ _ (by norm_num)).trans
      (roundDouble_eq _ _ 1280 (by norm_num) (by norm_num) (by norm_num))
  have hdH : (JsNum.ofNat 720).div 1 = 720 :=
    (JsNum.div_num _ _ (by norm_num)).trans
      (roundDouble_eq _ _ 720 (by norm_num) (by norm_num) (by norm_num))
  have hmin : JsNum.min 1280 720 = 720 := by
    show JsNum.num (Min.min (1280 : Rat) 720) = JsNum.num 720
    norm_num
  have hmul1 : JsNum.mul 1 720 = 720 := by
    show roundDouble _ = JsNum.num _
    exact roundDouble_eq _ _ 720 (by norm_num) (by norm_num) (by norm_num)
  have hsW : (JsNum.ofNat 1280).sub 720 = 560 := by
    show roundDouble _ = JsNum.num _
    exact roundDouble_eq _ _ 560 (by norm_num) (by norm_num) (by norm_num)
  have hsH : (JsNum.ofNat 720).sub 720 = 0 := by
    show roundDouble _ = JsNum.num _
    exact roundDouble_eq _ _ 0 (by norm_num) (by norm_num) (by norm_num)
  have hd560 : JsNum.div 560 2 = 280 :=
    (JsNum.div_num _ _ (by norm_num)).trans
      (roundDouble_eq _ _ 280 (by norm_num) (by norm_num) (by norm_num))
  have hd0 : JsNum.div 0 2 = 0 :=
    (JsNum.div_num _ _ (by norm_num)).trans
      (roundDouble_eq _ _ 0 (by norm_num) (by norm_num) (by norm_num))
  have hmx : JsNum.mul (.num (-(2 ^ 1023))) 720 = .negInf := by
    show roundDouble _ = _
    rw [roundDouble_overflow _ (by rw [abs_of_neg (by norm_num)]; norm_num)]
    norm_num
  have hmw : JsNum.mul (.num (2 ^ 1023)) 720 = .posInf := by
    show roundDouble _ = _
    rw [roundDouble_overflow _ (by rw [abs_of_pos (by norm_num)]; norm_num)]
    norm_num
  have hmy : JsNum.mul 0 720 = 0 := by
    show roundDouble _ = JsNum.num _
    exact roundDouble_eq _ _ 0 (by norm_num) (by norm_num) (by norm_num)
  have haN : JsNum.add .negInf 280 = .negInf := rfl
  have ha0 : JsNum.add 0 0 = 0 := by
    show roundDouble _ = JsNum.num _
    exact roundDouble_eq _ _ 0 (by norm_num) (by norm_num) (by norm_num)
  have hnan : JsNum.add .negInf .posInf = .nan := rfl
  have ha720 : JsNum.add 0 720 = 720 := by
    show roundDouble _ = JsNum.num _
    exact roundDouble_eq _ _ 720 (by norm_num) (by norm_num) (by norm_num)
  have hrN : JsNum.round .negInf = .negInf := rfl
  have hrnan : JsNum.round .nan = .nan := rfl
  have hr0 : JsNum.round 0 = 0 := JsNum.round_eq _ _ 0 (by norm_num) (by norm_num)
  have hr720 : JsNum.round 720 = 720 := JsNum.round_eq _ _ 720 (by norm_num) (by norm_num)
  unfold cropEdges cropOverflow
  simp only [hmax1, hdW, hdH, hmin, hmul1, hsW, hsH, hd560, hd0, hmx, hmw, hmy, haN, ha0, hnan,
    ha720, hrN, hrnan, hr0, hr720]

theorem clampRegion_overflow :
    clampRegion 1280 720 { left := .negInf, top := 0, right := .nan, bottom := 720 }
      = { x := 0, y := 0, w := .nan, h := 720 } := by
  have hs1279 : (JsNum.ofNat 1280).sub 1 = 1279 := by
    show roundDouble _ = JsNum.num _
    exact roundDouble_eq _ _ 1279 (by norm_num) (by norm_num) (by norm_num)
  have hs719 : (JsNum.ofNat 720).sub 1 = 719 := by
    show roundDouble _ = JsNum.num _
    exact roundDouble_eq _ _ 719 (by norm_num) (by norm_num) (by norm_num)
  have hminN : JsNum.min .negInf 1279 = .negInf := rfl
  have hmax0N : JsNum.max 0 .negInf = 0 := rfl
  have hmin0 : JsNum.min 0 719 = 0 := by
    show JsNum.num (Min.min (0 : Rat) 719) = JsNum.num 0
    norm_num
  have hmax00 : JsNum.max 0 0 = 0 := by
    show JsNum.num (Max.max (0 : Rat) 0) = JsNum.num 0
    norm_num
  have ha1 : JsNum.add 0 1 = 1 := by
    show roundDouble _ = JsNum.num _
    exact roundDouble_eq _ _ 1 (by norm_num) (by norm_num) (by norm_num)
  have hminNan : JsNum.min .nan (JsNum.ofNat 1280) = .nan := rfl
  have hmaxNan : JsNum.max 1 .nan = .nan := rfl
  have hmin720 : JsNum.min 720 (JsNum.ofNat 720) = 720 := by
    show JsNum.num (Min.min (720 : Rat) ((720 : Nat) : Rat)) = JsNum.num 720
    norm_num
  have hmax720 : JsNum.max 1 720 = 720 := by
    show JsNum.num (Max.max (1 : Rat) 720) = JsNum.num 720
    norm_num
  have hsubNan : JsNum.sub .nan 0 = .nan := rfl
  have hsub720 : JsNum.sub 720 0 = 720 := by
    show roundDouble _ = JsNum.num _
    exact roundDouble_eq _ _ 720 (by norm_num) (by norm_num) (by norm_num)
  unfold clampRegion
  simp only [hs1279, hs719, hminN, hmax0N, hmin0, hmax00, ha1, hminNan, hmaxNan, hmin720,
    hmax720, hsubNan, hsub720]

theorem computeCrop_cropOverflow :
    computeCrop 1280 720 cropOverflow = { x := 0, y := 0, w := .nan, h := 720 } := by
  unfold computeCrop
  rw [cropEdges_cropOverflow, clampRegion_overflow]

theorem clampRegion_cropUpdate :
    clampRegion 1280 720 { left := 100, top := 50, right := 420, bottom := 230 }
      = { x := 100, y := 50, w := 320, h := 180 } := by
  have hs1279 : (JsNum.ofNat 1280).sub 1 = 1279 := by
    show roundDouble _ = JsNum.num _
    exact roundDouble_eq _ _ 1279 (by norm_num) (by norm_num) (by norm_num)
  have hs719 : (JsNum.ofNat 720).sub 1 = 719 := by
    show roundDouble _ = JsNum.num _
    exact roundDouble_eq _ _ 719 (by norm_num) (by norm_num) (by norm_num)
  have h1 : JsNum.min 100 1279 = 100 := by
    show JsNum.num (Min.min (100 : Rat) 1279) = JsNum.num 100
    norm_num
  have h2 : JsNum.max 0 100 = 100 := by
    show JsNum.num (Max.max (0 : Rat) 100) = JsNum.num 100
    norm_num
  have h3 : JsNum.min 50 719 = 50 := by
    show JsNum.num (Min.min (50 : Rat) 719) = JsNum.num 50
    norm_num
  have h4 : JsNum.max 0 50 = 50 := by
    show JsNum.num (Max.max (0 : Rat) 50) = JsNum.num 50
    norm_num
  have h5 : JsNum.add 100 1 = 101 := by
    show roundDouble _ = JsNum.num _
    exact roundDouble_eq _ _ 101 (by norm_num) (by norm_num) (by norm_num)
  have h6 : JsNum.add 50 1 = 51 := by
    show roundDouble _ = JsNum.num _
    exact roundDouble_eq _ _ 51 (by norm_num) (by norm_num) (by norm_num)
  have h7 : JsNum.min 420 (JsNum.ofNat 1280) = 420 := by
    show JsNum.num (Min.min (420 : Rat) ((1280 : Nat) : Rat)) = JsNum.num 420
    norm_num
  have h8 : JsNum.min 230 (JsNum.ofNat 720) = 230 := by
    show JsNum.num (Min.min (230 : Rat) ((720 : Nat) : Rat)) = JsNum.num 230
    norm_num
  have h9 : JsNum.max 101 420 = 420 := by
    show JsNum.num (Max.max (101 : Rat) 420) = JsNum.num 420
    norm_num
  have h10 : JsNum.max 51 230 = 230 := by
    show JsNum.num (Max.max (51 : Rat) 230) = JsNum.num 230
    norm_num
  have h11 : JsNum.sub 420 100 = 320 := by
    show roundDouble _ = JsNum.num _
    exact roundDouble_eq _ _ 320 (by norm_num) (by norm_num) (by norm_num)
  have h12 : JsNum.sub 230 50 = 180 := by
    show roundDouble _ = JsNum.num _
    exact roundDouble_eq _ _ 180 (by norm_num) (by norm_num) (by norm_num)
  unfold clampRegion
  simp only [hs1279, hs719, h1, h2, h3, h4, h5, h6, h7, h8, h9, h10, h11, h12]

theorem computeCrop_cropUpdate :
    computeCrop 1280 720 cropUpdate = { x := 100, y := 50, w := 320, h := 180 } := by
  unfold computeCrop
  rw [cropEdges_cropUpdate, clampRegion_cropUpdate]

theorem JsNum.strictNe_iff (a b : JsNum) (hb : b ≠ .nan) :
    JsNum.strictNe a b = true ↔ a ≠ b := by
  cases a <;> cases b <;> simp [JsNum.strictNe] at hb ⊢

theorem JsMap.set_set_self {κ α : Type} [DecidableEq κ] (m : JsMap κ α) (k : κ) (v : α) :
    JsMap.set (JsMap.set m k v) k v = JsMap.set m k v := by
  induction m with
  | nil => simp [JsMap.set]
  | cons a m ih =>
    obtain ⟨k', v'⟩ := a
    by_cases h : k' = k
    · simp [JsMap.set, h]
    · simp only [JsMap.set, h, if_false]
      rw [ih]

theorem onSetVideoCrop_handled (payload : CropPayload) (e : Engine) (video : Video)
    (hsid : truthyStr payload.sessionId = true) (hvp : payload.viewportWidth.truthy = true)
    (hv : JsMap.get e.videoElements payload.sessionId = some video)
    (hW : 1 ≤ video.videoWidth) (hH : 1 ≤ video.videoHeight) :
    onSetVideoCrop payload e
      = (if JsMap.get e.scaledRegions payload.sessionId = none
            ∨ (∃ p, JsMap.get e.scaledRegions payload.sessionId = some p
                ∧ (JsNum.strictNe p.w
                      (computeCrop video.videoWidth video.videoHeight payload).w = true
                  ∨ JsNum.strictNe p.h
                      (computeCrop video.videoWidth video.videoHeight payload).h = true))
          then
            ({ e with
               scaledRegions := JsMap.set e.scaledRegions payload.sessionId
                 (computeCrop video.videoWidth video.videoHeight payload) } : Engine).emit
              (.sendMessage (.cropAr payload.sessionId
                (computeCrop video.videoWidth video.videoHeight payload).w
                (computeCrop video.videoWidth video.videoHeight payload).h))
          else
            { e with
              scaledRegions := JsMap.set e.scaledRegions payload.sessionId
                (computeCrop video.videoWidth video.videoHeight payload) }) := by
  have h0 : ¬ (video.videoWidth = 0 ∨ video.videoHeight = 0) := by omega
  unfold onSetVideoCrop
  simp only [hsid, hvp, Bool.and_self, if_true, hv, h0, if_false]
  cases hp : JsMap.get e.scaledRegions payload.sessionId with
  | none => simp
  | some p =>
    by_cases hd : JsNum.strictNe p.w
          (computeCrop video.videoWidth video.videoHeight payload).w = true
        ∨ JsNum.strictNe p.h
          (computeCrop video.videoWidth video.videoHeight payload).h = true
    · simp only [Bool.or_eq_true, hd, if_true]
      rw [if_pos (Or.inr ⟨p, rfl, hd⟩)]
    · simp only [Bool.or_eq_true, hd, if_false]
      rw [if_neg]
      rintro (h | ⟨q, hq, hq'⟩)
      · cases h
      · cases hq
        exact hd hq'

theorem onSetVideoCrop_region (payload : CropPayload) (e : Engine) (video : Video)
    (hsid : truthyStr payload.sessionId = true) (hvp : payload.viewportWidth.truthy = true)
    (hv : JsMap.get e.videoElements payload.sessionId = some video)
    (hW : 1 ≤ video.videoWidth) (hH : 1 ≤ video.videoHeight) :
    JsMap.get (onSetVideoCrop payload e).scaledRegions payload.sessionId
      = some (computeCrop video.videoWidth video.videoHeight payload) := by
  rw [onSetVideoCrop_handled payload e video hsid hvp hv hW hH]
  split <;> simp [Engine.emit, JsMap.get_set_self]

theorem onSetVideoCrop_video (payload : CropPayload) (e : Engine) (video : Video)
    (hsid : truthyStr payload.sessionId = true) (hvp : payload.viewportWidth.truthy = true)
    (hv : JsMap.get e.videoElements payload.sessionId = some video)
    (hW : 1 ≤ video.videoWidth) (hH : 1 ≤ video.videoHeight) :
    JsMap.get (onSetVideoCrop payload e).videoElements payload.sessionId = some video := by
  rw [onSetVideoCrop_handled payload e video hsid hvp hv hW hH]
  split <;> simpa [Engine.emit] using hv

theorem cropEdges_cases (videoW videoH : Nat) (payload : CropPayload) :
    ((cropEdges videoW videoH payload).left ≠ .nan →
        (∃ z : Int, (cropEdges videoW videoH payload).left = .num z)
        ∨ (cropEdges videoW videoH payload).left = .posInf
        ∨ (cropEdges videoW videoH payload).left = .negInf)
    ∧ ((cropEdges videoW videoH payload).top ≠ .nan →
        (∃ z : Int, (cropEdges videoW videoH payload).top = .num z)
        ∨ (cropEdges videoW videoH payload).top = .posInf
        ∨ (cropEdges videoW videoH payload).top = .negInf)
    ∧ ((cropEdges videoW videoH payload).right ≠ .nan →
        (∃ z : Int, (cropEdges videoW videoH payload).right = .num z)
        ∨ (cropEdges videoW videoH payload).right = .posInf
        ∨ (cropEdges videoW videoH payload).right = .negInf)
    ∧ ((cropEdges videoW videoH payload).bottom ≠ .nan →
        (∃ z : Int, (cropEdges videoW videoH payload).bottom = .num z)
        ∨ (cropEdges videoW videoH payload).bottom = .posInf
        ∨ (cropEdges videoW videoH payload).bottom = .negInf) := by
  unfold cropEdges
  simp only []
  exact ⟨JsNum.round_cases _, JsNum.round_cases _, JsNum.round_cases _, JsNum.round_cases _⟩

theorem JsNum.max_nan_right (a : JsNum) : JsNum.max a .nan = .nan := by
  cases a <;> rfl

theorem JsNum.sub_nan_left (a : JsNum) : JsNum.sub .nan a = .nan := by
  cases a <;> rfl

theorem clampRegion_nan_of_edge (videoW videoH : Nat) (edges : CropEdges)
    (h : edges.left = .nan ∨ edges.top = .nan ∨ edges.right = .nan ∨ edges.bottom = .nan) :
    (clampRegion videoW videoH edges).x = .nan ∨ (clampRegion videoW videoH edges).y = .nan
    ∨ (clampRegion videoW videoH edges).w = .nan ∨ (clampRegion videoW videoH edges).h = .nan := by
  have hmin : ∀ b : JsNum, JsNum.min .nan b = .nan := fun b => by cases b <;> rfl
  unfold clampRegion
  simp only []
  rcases h with h | h | h | h
  · exact Or.inl (by rw [h, hmin, JsNum.max_nan_right])
  · exact Or.inr (Or.inl (by rw [h, hmin, JsNum.max_nan_right]))
  · exact Or.inr (Or.inr (Or.inl (by rw [h, hmin, JsNum.max_nan_right, JsNum.sub_nan_left])))
  · exact Or.inr (Or.inr (Or.inr (by rw [h, hmin, JsNum.max_nan_right, JsNum.sub_nan_left])))

/-- C13, counterexample: the crop update `cropOverflow` has finite geometry
and viewport values and is handled on the 1280 x 720 mirror of `s1`, yet the
stored region is `{ x: 0, y: 0, w: NaN, h: 720 }`: the products `g.x * scale`
and `g.width * scale` overflow to `-Infinity` and `+Infinity`, their sum is
`NaN`, and `Math.min`, `Math.max` and the subtraction pass `NaN` on. The stored
width is no integer. -/
theorem C13_overflowing_geometry_stores_nan_width :
    JsMap.get (onSetVideoCrop cropOverflow engineWithMirror).scaledRegions "s1"
        = some { x := 0, y := 0, w := .nan, h := 720 }
    ∧ ¬ ∃ x y w h : Int,
        JsMap.get (onSetVideoCrop cropOverflow engineWithMirror).scaledRegions "s1"
          = some { x := .num x, y := .num y, w := .num w, h := .num h } := by
  have hget : JsMap.get (onSetVideoCrop cropOverflow engineWithMirror).scaledRegions "s1"
      = some { x := 0, y := 0, w := .nan, h := 720 } := by
    have h := onSetVideoCrop_region cropOverflow engineWithMirror
      { id := 1, srcObject := none, videoWidth := 1280, videoHeight := 720,
        hasFrameCallback := true }
      (by decide) (by decide) (by decide) (by decide) (by decide)
    rw [computeCrop_cropOverflow] at h
    exact h
  refine ⟨hget, ?_⟩
  rintro ⟨x, y, w, h, hr⟩
  rw [hget] at hr
  simp at hr

/-- C13, amended: for every crop update handled while the mirror of the
session has native size `videoW x videoH`, both at least 1 (and below `2 ^ 32`,
the sizes being `unsigned long`), whose four rounded edges `Math.round(rx)`,
`Math.round(ry)`, `Math.round(rx + rw)` and `Math.round(ry + rh)` are not
`NaN`, the stored crop region has integer fields with `0 <= x`, `0 <= y`,
`w >= 1`, `h >= 1`, `x + w <= videoW` and `y + h <= videoH`. The edges may be
infinite. -/
theorem C13_crop_region_within_video_unless_nan (payload : CropPayload) (e : Engine)
    (video : Video)
    (hsid : truthyStr payload.sessionId = true) (hvp : payload.viewportWidth.truthy = true)
    (hv : JsMap.get e.videoElements payload.sessionId = some video)
    (hW : 1 ≤ video.videoWidth) (hH : 1 ≤ video.videoHeight)
    (hWm : video.videoWidth < 2 ^ 32) (hHm : video.videoHeight < 2 ^ 32)
    (hl : (cropEdges video.videoWidth video.videoHeight payload).left ≠ .nan)
    (ht : (cropEdges video.videoWidth video.videoHeight payload).top ≠ .nan)
    (hr : (cropEdges video.videoWidth video.videoHeight payload).right ≠ .nan)
    (hb : (cropEdges video.videoWidth video.videoHeight payload).bottom ≠ .nan) :
    ∃ x y w h : Int,
      JsMap.get (onSetVideoCrop payload e).scaledRegions payload.sessionId
        = some { x := .num x, y := .num y, w := .num w, h := .num h }
      ∧ 0 ≤ x ∧ 0 ≤ y ∧ 1 ≤ w ∧ 1 ≤ h
      ∧ x + w ≤ video.videoWidth ∧ y + h ≤ video.videoHeight := by
  obtain ⟨cl, ct, cr, cb⟩ := cropEdges_cases video.videoWidth video.videoHeight payload
  obtain ⟨x, y, w, h, hreg, hb⟩ := clampRegion_bounds video.videoWidth video.videoHeight
    (cropEdges video.videoWidth video.videoHeight payload) hW hH hWm hHm
    (cl hl) (ct ht) (cr hr) (cb hb)
  refine ⟨x, y, w, h, ?_, hb⟩
  rw [onSetVideoCrop_region payload e video hsid hvp hv hW hH]
  unfold computeCrop
  rw [hreg]

/-- Witness of C13: the crop update of `s1` on the 1280 x 720 mirror, whose
rounded edges are 100, 50, 420 and 230. -/
theorem C13_crop_region_witness :
    ∃ x y w h : Int,
      JsMap.get (onSetVideoCrop cropUpdate engineWithMirror).scaledRegions "s1"
        = some { x := .num x, y := .num y, w := .num w, h := .num h }
      ∧ 0 ≤ x ∧ 0 ≤ y ∧ 1 ≤ w ∧ 1 ≤ h
      ∧ x + w ≤ (1280 : Nat) ∧ y + h ≤ (720 : Nat) :=
  C13_crop_region_within_video_unless_nan cropUpdate engineWithMirror
    { id := 1, srcObject := none, videoWidth := 1280, videoHeight := 720, hasFrameCallback := true }
    (by decide) (by decide) (by decide) (by decide) (by decide) (by decide) (by decide)
    (by rw [show cropEdges 1280 720 cropUpdate = _ from cropEdges_cropUpdate]; decide)
    (by rw [show cropEdges 1280 720 cropUpdate = _ from cropEdges_cropUpdate]; decide)
    (by rw [show cropEdges 1280 720 cropUpdate = _ from cropEdges_cropUpdate]; decide)
    (by rw [show cropEdges 1280 720 cropUpdate = _ from cropEdges_cropUpdate]; decide)

/-- C14, counterexample: the crop update `cropOverflow`, handled twice in a
row on the 1280 x 720 mirror of `s1`, sends `CROP_AR` both times. The stored
width is `NaN` after the first handling, and `prev.w !== finalW` holds of two
`NaN`s. -/
theorem C14_identical_update_broadcast_twice :
    (onSetVideoCrop cropOverflow (onSetVideoCrop cropOverflow engineWithMirror)).trace
      = engineWithMirror.trace
        ++ [.sendMessage (.cropAr "s1" .nan 720), .sendMessage (.cropAr "s1" .nan 720)] := by
  have hvideo : JsMap.get engineWithMirror.videoElements cropOverflow.sessionId
      = some { id := 1, srcObject := none, videoWidth := 1280, videoHeight := 720,
               hasFrameCallback := true } := by decide
  have h1 := onSetVideoCrop_handled cropOverflow engineWithMirror _
    (by decide) (by decide) hvideo (by decide) (by decide)
  have hv2 := onSetVideoCrop_video cropOverflow engineWithMirror _
    (by decide) (by decide) hvideo (by decide) (by decide)
  have hr2 := onSetVideoCrop_region cropOverflow engineWithMirror _
    (by decide) (by decide) hvideo (by decide) (by decide)
  have h2 := onSetVideoCrop_handled cropOverflow (onSetVideoCrop cropOverflow engineWithMirror) _
    (by decide) (by decide) hv2 (by decide) (by decide)
  simp only [] at h1 h2 hr2
  rw [computeCrop_cropOverflow] at h1 h2 hr2
  rw [if_pos (Or.inr ⟨_, hr2, Or.inl rfl⟩)] at h2
  rw [h2]
  rw [if_pos (Or.inl (by decide))] at h1
  rw [h1]
  simp [Engine.emit, cropOverflow]

/-- C14, amended: a handled crop update whose computed width and height are
not `NaN` sends `CROP_AR` exactly when the session had no previous crop region
or the new integer width or height differs from the previous one; handling the
same update a second time in a row leaves the engine as the first handling
left it: the same region is stored and no second `CROP_AR` is sent. -/
theorem C14_crop_broadcast_only_on_size_change (payload : CropPayload) (e : Engine)
    (video : Video)
    (hsid : truthyStr payload.sessionId = true) (hvp : payload.viewportWidth.truthy = true)
    (hv : JsMap.get e.videoElements payload.sessionId = some video)
    (hW : 1 ≤ video.videoWidth) (hH : 1 ≤ video.videoHeight)
    (hw : (computeCrop video.videoWidth video.videoHeight payload).w ≠ .nan)
    (hh : (computeCrop video.videoWidth video.videoHeight payload).h ≠ .nan) :
    ((∀ p, JsMap.get e.scaledRegions payload.sessionId = some p →
          p.w ≠ (computeCrop video.videoWidth video.videoHeight payload).w
          ∨ p.h ≠ (computeCrop video.videoWidth video.videoHeight payload).h) →
        (onSetVideoCrop payload e).trace
          = e.trace ++ [.sendMessage (.cropAr payload.sessionId
              (computeCrop video.videoWidth video.videoHeight payload).w
              (computeCrop video.videoWidth video.videoHeight payload).h)])
    ∧ ((∃ p, JsMap.get e.scaledRegions payload.sessionId = some p
          ∧ p.w = (computeCrop video.videoWidth video.videoHeight payload).w
          ∧ p.h = (computeCrop video.videoWidth video.videoHeight payload).h) →
        (onSetVideoCrop payload e).trace = e.trace)
    ∧ JsMap.get (onSetVideoCrop payload e).scaledRegions payload.sessionId
        = some (computeCrop video.videoWidth video.videoHeight payload)
    ∧ onSetVideoCrop payload (onSetVideoCrop payload e) = onSetVideoCrop payload e := by
  have hE := onSetVideoCrop_handled payload e video hsid hvp hv hW hH
  have hget := onSetVideoCrop_region payload e video hsid hvp hv hW hH
  have hvid := onSetVideoCrop_video payload e video hsid hvp hv hW hH
  simp only [JsNum.strictNe_iff _ _ hw, JsNum.strictNe_iff _ _ hh] at hE
  refine ⟨?_, ?_, hget, ?_⟩
  · intro hall
    rw [hE, if_pos]
    · simp [Engine.emit]
    · cases hp : JsMap.get e.scaledRegions payload.sessionId with
      | none => exact Or.inl rfl
      | some p => exact Or.inr ⟨p, rfl, hall p hp⟩
  · rintro ⟨p, hp, hw', hh'⟩
    rw [hE, if_neg]
    rintro (h | ⟨q, hq, hq'⟩)
    · rw [hp] at h
      cases h
    · rw [hp] at hq
      cases hq
      rcases hq' with h | h
      · exact h hw'
      · exact h hh'
  · have hE2 := onSetVideoCrop_handled payload (onSetVideoCrop payload e) video hsid hvp hvid hW hH
    simp only [JsNum.strictNe_iff _ _ hw, JsNum.strictNe_iff _ _ hh] at hE2
    rw [hE2, if_neg]
    · generalize hX : onSetVideoCrop payload e = X at hget
      have hset : JsMap.set X.scaledRegions payload.sessionId
          (computeCrop video.videoWidth video.videoHeight payload) = X.scaledRegions := by
        rw [← hX, hE]
        split <;> simp [Engine.emit, JsMap.set_set_self]
      rw [hset]
    · rintro (h | ⟨q, hq, hq'⟩)
      · rw [hget] at h
        cases h
      · rw [hget] at hq
        cases hq
        rcases hq' with h | h <;> exact h rfl

/-- Witness of C14: the crop update of `s1`, whose computed size is
320 x 180, handled twice on the 1280 x 720 mirror, changes nothing the second
time. -/
theorem C14_crop_broadcast_witness :
    onSetVideoCrop cropUpdate (onSetVideoCrop cropUpdate engineWithMirror)
      = onSetVideoCrop cropUpdate engineWithMirror :=
  (C14_crop_broadcast_only_on_size_change cropUpdate engineWithMirror
    { id := 1, srcObject := none, videoWidth := 1280, videoHeight := 720, hasFrameCallback := true }
    (by decide) (by decide) (by decide) (by decide) (by decide)
    (by rw [show computeCrop 1280 720 cropUpdate = _ from computeCrop_cropUpdate]; decide)
    (by rw [show computeCrop 1280 720 cropUpdate = _ from computeCrop_cropUpdate]; decide)).2.2.2

/-! ## Session start -/

theorem mem_sessionsOfTab (sessions : JsMap String Session) (tabId : Nat) (s : Session) :
    s ∈ sessionsOfTab sessions tabId ↔
      (∃ sid ∈ JsMap.keys sessions, JsMap.get sessions sid = some s)
        ∧ s.sourceTabId = some tabId := by
  unfold sessionsOfTab
  simp [List.mem_filter, List.mem_filterMap]

theorem nextOrdinal_foldl (sessions : JsMap String Session) (tabId : Nat) (ks : List String)
    (a : Nat) :
    a ≤ ks.foldl
        (fun nextOrdinal sid =>
          match JsMap.get sessions sid with
          | some s =>
            if s.sourceTabId = some tabId then
              if s.sourceOrdinal.getD 0 ≥ nextOrdinal then s.sourceOrdinal.getD 0 + 1
              else nextOrdinal
            else nextOrdinal
          | none => nextOrdinal)
        a
    ∧ (∀ sid ∈ ks, ∀ s, JsMap.get sessions sid = some s → s.sourceTabId = some tabId →
        ordinalOf s < ks.foldl
          (fun nextOrdinal sid =>
            match JsMap.get sessions sid with
            | some s =>
              if s.sourceTabId = some tabId then
                if s.sourceOrdinal.getD 0 ≥ nextOrdinal then s.sourceOrdinal.getD 0 + 1
                else nextOrdinal
              else nextOrdinal
            | none => nextOrdinal)
          a)
    ∧ (ks.foldl
          (fun nextOrdinal sid =>
            match JsMap.get sessions sid with
            | some s =>
              if s.sourceTabId = some tabId then
                if s.sourceOrdinal.getD 0 ≥ nextOrdinal then s.sourceOrdinal.getD 0 + 1
                else nextOrdinal
              else nextOrdinal
            | none => nextOrdinal)
          a = a
        ∨ ∃ sid ∈ ks, ∃ s, JsMap.get sessions sid = some s ∧ s.sourceTabId = some tabId
            ∧ ks.foldl
                (fun nextOrdinal sid =>
                  match JsMap.get sessions sid with
                  | some s =>
                    if s.sourceTabId = some tabId then
                      if s.sourceOrdinal.getD 0 ≥ nextOrdinal then s.sourceOrdinal.getD 0 + 1
                      else nextOrdinal
                    else nextOrdinal
                  | none => nextOrdinal)
                a = ordinalOf s + 1) := by
  induction ks generalizing a with
  | nil => simp
  | cons k ks ih =>
    simp only [List.foldl_cons]
    cases hk : JsMap.get sessions k with
    | none =>
      obtain ⟨h1, h2, h3⟩ := ih a
      refine ⟨h1, ?_, ?_⟩
      · intro sid hsid s hs ht
        rcases List.mem_cons.1 hsid with rfl | hmem
        · rw [hk] at hs
          cases hs
        · exact h2 sid hmem s hs ht
      · rcases h3 with h3 | ⟨sid, hmem, s, hs, ht, hr⟩
        · exact Or.inl h3
        · exact Or.inr ⟨sid, List.mem_cons_of_mem _ hmem, s, hs, ht, hr⟩
    | some s0 =>
      by_cases ht0 : s0.sourceTabId = some tabId
      · by_cases hge : s0.sourceOrdinal.getD 0 ≥ a
        · simp only [ht0, if_true, hge]
          obtain ⟨h1, h2, h3⟩ := ih (s0.sourceOrdinal.getD 0 + 1)
          refine ⟨by omega, ?_, ?_⟩
          · intro sid hsid s hs ht
            rcases List.mem_cons.1 hsid with rfl | hmem
            · rw [hk] at hs
              cases hs
              unfold ordinalOf
              omega
            · exact h2 sid hmem s hs ht
          · rcases h3 with h3 | ⟨sid, hmem, s, hs, ht, hr⟩
            · exact Or.inr ⟨k, List.mem_cons_self _ _, s0, hk, ht0, h3⟩
            · exact Or.inr ⟨sid, List.mem_cons_of_mem _ hmem, s, hs, ht, hr⟩
        · simp only [ht0, if_true, hge, if_false]
          obtain ⟨h1, h2, h3⟩ := ih a
          refine ⟨h1, ?_, ?_⟩
          · intro sid hsid s hs ht
            rcases List.mem_cons.1 hsid with rfl | hmem
            · rw [hk] at hs
              cases hs
              unfold ordinalOf
              omega
            · exact h2 sid hmem s hs ht
          · rcases h3 with h3 | ⟨sid, hmem, s, hs, ht, hr⟩
            · exact Or.inl h3
            · exact Or.inr ⟨sid, List.mem_cons_of_mem _ hmem, s, hs, ht, hr⟩
      · simp only [ht0, if_false]
        obtain ⟨h1, h2, h3⟩ := ih a
        refine ⟨h1, ?_, ?_⟩
        · intro sid hsid s hs ht
          rcases List.mem_cons.1 hsid with rfl | hmem
          · rw [hk] at hs
            cases hs
            exact absurd ht ht0
          · exact h2 sid hmem s hs ht
        · rcases h3 with h3 | ⟨sid, hmem, s, hs, ht, hr⟩
          · exact Or.inl h3
          · exact Or.inr ⟨sid, List.mem_cons_of_mem _ hmem, s, hs, ht, hr⟩

theorem nextOrdinal_spec (sessions : JsMap String Session) (tabId : Nat) :
    (sessionsOfTab sessions tabId = [] → nextOrdinal sessions tabId = 1)
    ∧ (sessionsOfTab sessions tabId ≠ [] →
        ∃ s ∈ sessionsOfTab sessions tabId, nextOrdinal sessions tabId = ordinalOf s + 1)
    ∧ (∀ s ∈ sessionsOfTab sessions tabId, ordinalOf s < nextOrdinal sessions tabId) := by
  obtain ⟨h1, h2, h3⟩ := nextOrdinal_foldl sessions tabId (JsMap.keys sessions) 1
  have hlt : ∀ s ∈ sessionsOfTab sessions tabId, ordinalOf s < nextOrdinal sessions tabId := by
    intro s hs
    obtain ⟨⟨sid, hsid, hget⟩, ht⟩ := (mem_sessionsOfTab sessions tabId s).1 hs
    exact h2 sid hsid s hget ht
  refine ⟨?_, ?_, hlt⟩
  · intro hempty
    rcases h3 with h3 | ⟨sid, hmem, s, hs, ht, _⟩
    · exact h3
    · have : s ∈ sessionsOfTab sessions tabId :=
        (mem_sessionsOfTab sessions tabId s).2 ⟨⟨sid, hmem, hs⟩, ht⟩
      rw [hempty] at this
      cases this
  · intro hne
    rcases h3 with h3 | ⟨sid, hmem, s, hs, ht, hr⟩
    · obtain ⟨s, hs⟩ := List.exists_mem_of_ne_nil _ hne
      have hlt' := hlt s hs
      refine ⟨s, hs, ?_⟩
      have h3' : nextOrdinal sessions tabId = 1 := h3
      omega
    · exact ⟨s, (mem_sessionsOfTab sessions tabId s).2 ⟨⟨sid, hmem, hs⟩, ht⟩, hr⟩

theorem hasExistingForTab_iff (sessions : JsMap String Session) (tabId : Nat) :
    hasExistingForTab sessions tabId = true ↔ sessionsOfTab sessions tabId ≠ [] := by
  constructor
  · intro h
    unfold hasExistingForTab at h
    obtain ⟨sid, hsid, hp⟩ := List.any_eq_true.1 h
    cases hget : JsMap.get sessions sid with
    | none => simp [hget] at hp
    | some s =>
      simp only [hget, decide_eq_true_eq] at hp
      have : s ∈ sessionsOfTab sessions tabId :=
        (mem_sessionsOfTab sessions tabId s).2 ⟨⟨sid, hsid, hget⟩, hp⟩
      exact List.ne_nil_of_mem this
  · intro hne
    obtain ⟨s, hs⟩ := List.exists_mem_of_ne_nil _ hne
    obtain ⟨⟨sid, hsid, hget⟩, ht⟩ := (mem_sessionsOfTab sessions tabId s).1 hs
    unfold hasExistingForTab
    exact List.any_eq_true.2 ⟨sid, hsid, by simp [hget, ht]⟩

theorem handleStartCapture_registry (env : Env) (offscreen : OffscreenSetup) (sessionId : String)
    (grant : StreamGrant) (tab : SourceTab) (c : Coordinator) (hok : offscreen ≠ .failed) :
    (handleStartCapture env offscreen sessionId grant tab c).1.store.sessions
      = some (JsMap.set c.registry sessionId
          { sessionId := sessionId
            sourceTabId := some tab.id
            sourceTabTitle := tab.title
            sourceOrdinal := some (nextOrdinal c.registry tab.id)
            sourceOverlayId := none
            theme := none
            outputs := some JsMap.empty }) := by
  unfold handleStartCapture Coordinator.registry
  rw [if_neg hok]
  simp only []
  split
  · rfl
  · split
    · rfl
    · rfl
    · split
      · rfl
      · rfl

theorem handleStartCapture_session (env : Env) (offscreen : OffscreenSetup) (sessionId : String)
    (grant : StreamGrant) (tab : SourceTab) (c : Coordinator) (hok : offscreen ≠ .failed) :
    (handleStartCapture env offscreen sessionId grant tab c).1.session sessionId
      = some
          { sessionId := sessionId
            sourceTabId := some tab.id
            sourceTabTitle := tab.title
            sourceOrdinal := some (nextOrdinal c.registry tab.id)
            sourceOverlayId := none
            theme := none
            outputs := some JsMap.empty } := by
  unfold Coordinator.session
  rw [handleStartCapture_registry env offscreen sessionId grant tab c hok]
  exact JsMap.get_set_self _ _ _

/-- C15: `handleStartCapture` registers the new session with
`sourceOrdinal` 1 when no registered session has the same source tab;
otherwise the ordinal is one more than the ordinal of a registered session of
that tab and exceeds the ordinal of every registered session of that tab,
that is, one more than the largest of them (a non-numeric ordinal counts
as 0). -/
theorem C15_start_capture_ordinal (env : Env) (offscreen : OffscreenSetup) (sessionId : String)
    (grant : StreamGrant) (tab : SourceTab) (c : Coordinator) (hok : offscreen ≠ .failed) :
    ∃ s n, (handleStartCapture env offscreen sessionId grant tab c).1.session sessionId = some s
      ∧ s.sourceTabId = some tab.id
      ∧ s.sourceOrdinal = some n
      ∧ (sessionsOfTab c.registry tab.id = [] → n = 1)
      ∧ (sessionsOfTab c.registry tab.id ≠ [] →
          ∃ s0 ∈ sessionsOfTab c.registry tab.id, n = ordinalOf s0 + 1)
      ∧ (∀ s0 ∈ sessionsOfTab c.registry tab.id, ordinalOf s0 < n) := by
  obtain ⟨h1, h2, h3⟩ := nextOrdinal_spec c.registry tab.id
  exact ⟨_, nextOrdinal c.registry tab.id,
    handleStartCapture_session env offscreen sessionId grant tab c hok, rfl, rfl, h1, h2, h3⟩

set_option maxRecDepth 8000 in
/-- C15 at a concrete run: from the empty registry, two `StartCapture` on
tab 1 give the ordinals 1 and 2. -/
theorem C15_start_capture_witness :
    OffscreenSetup.present ≠ OffscreenSetup.failed
    ∧ (∃ s n, (handleStartCapture envAllOk .present "S1" (.streamId (some "stream-1")) tabA
          coordinatorEmpty).1.session "S1" = some s
        ∧ s.sourceTabId = some tabA.id
        ∧ s.sourceOrdinal = some n
        ∧ (sessionsOfTab coordinatorEmpty.registry tabA.id = [] → n = 1)
        ∧ (sessionsOfTab coordinatorEmpty.registry tabA.id ≠ [] →
            ∃ s0 ∈ sessionsOfTab coordinatorEmpty.registry tabA.id, n = ordinalOf s0 + 1)
        ∧ (∀ s0 ∈ sessionsOfTab coordinatorEmpty.registry tabA.id, ordinalOf s0 < n))
    ∧ assignedOrdinals envAllOk 1
        [.start .present "S1" (.streamId (some "stream-1")) tabA,
         .start .present "S2" (.streamId (some "stream-2")) tabA]
        coordinatorEmpty = [1, 2] :=
  ⟨by decide,
   C15_start_capture_ordinal envAllOk .present "S1" (.streamId (some "stream-1")) tabA
     coordinatorEmpty (by decide),
   by decide⟩

theorem safeSendToTab_no_request (env : Env) (tabId : Nat) (message : TabMsg) (t : Nat) :
    Effect.getMediaStreamId t ∉ safeSendToTab env tabId message := by
  unfold safeSendToTab
  cases env.send false tabId message with
  | ok => simp
  | rejected e =>
    cases env.inject tabId with
    | ok => by_cases hi : jsIncludes (e.getD "").toLower "receiving end" = true <;> simp [hi]
    | rejected e' => by_cases hi : jsIncludes (e.getD "").toLower "receiving end" = true <;> simp [hi]

theorem pushAll_foldl_no_request (env : Env) (sessions : JsMap String Session) (t : Nat)
    (ks : List String) (acc : List Effect) (hacc : Effect.getMediaStreamId t ∉ acc) :
    Effect.getMediaStreamId t ∉ ks.foldl
      (fun acc sid =>
        match JsMap.get sessions sid with
        | none => acc
        | some s =>
          match s.sourceTabId with
          | none => acc
          | some tab =>
            if tab = 0 then acc
            else acc ++ safeSendToTab env tab (.outputsUpdated sid (computeSessionOutputCount s)))
      acc := by
  induction ks generalizing acc with
  | nil => simpa using hacc
  | cons k ks ih =>
    simp only [List.foldl_cons]
    apply ih
    cases JsMap.get sessions k with
    | none => exact hacc
    | some s =>
      cases hs : s.sourceTabId with
      | none => simpa [hs] using hacc
      | some tab =>
        by_cases h0 : tab = 0
        · simpa [hs, h0] using hacc
        · simp [hs, h0, hacc, safeSendToTab_no_request]

theorem scheduleAllCountsBroadcast_no_request (env : Env) (store : Store) (delayMs : Nat)
    (t : Nat) : Effect.getMediaStreamId t ∉ scheduleAllCountsBroadcast env store delayMs := by
  have hp : Effect.getMediaStreamId t ∉ pushAllCountsToSources env store := by
    unfold pushAllCountsToSources
    exact pushAll_foldl_no_request env _ t _ [] (by simp)
  unfold scheduleAllCountsBroadcast
  simp [hp]

theorem scheduleAllCountsBroadcast_no_runtime (env : Env) (store : Store) (delayMs : Nat)
    (m : EngineMsg) :
    Effect.runtimeSendMessage m ∉ scheduleAllCountsBroadcast env store delayMs := by
  have hp := pushAllCountsToSources_no_runtime env store m
  unfold scheduleAllCountsBroadcast
  simp [hp]

theorem setupOffscreenDocument_mem (offscreen : OffscreenSetup) (x : Effect)
    (h : x ∈ setupOffscreenDocument offscreen) : x = .createOffscreenDocument := by
  cases offscreen <;> simp [setupOffscreenDocument] at h <;> exact h

/-- C17: `handleStartCapture` sends the engine an attach message for the new
session and requests no stream id when the registry already held a session
with the same `sourceTabId`; when it held none, it requests a stream id for
the source tab and sends no attach message. -/
theorem C17_attach_exactly_when_tab_captured (env : Env) (offscreen : OffscreenSetup)
    (sessionId : String) (grant : StreamGrant) (tab : SourceTab) (c : Coordinator)
    (hok : offscreen ≠ .failed) :
    (sessionsOfTab c.registry tab.id ≠ [] →
      Effect.runtimeSendMessage (.attachSessionToTabCapture sessionId (.num tab.id))
          ∈ (handleStartCapture env offscreen sessionId grant tab c).2
        ∧ ∀ t, Effect.getMediaStreamId t
            ∉ (handleStartCapture env offscreen sessionId grant tab c).2)
    ∧ (sessionsOfTab c.registry tab.id = [] →
      Effect.getMediaStreamId tab.id ∈ (handleStartCapture env offscreen sessionId grant tab c).2
        ∧ ∀ sid t, Effect.runtimeSendMessage (.attachSessionToTabCapture sid t)
            ∉ (handleStartCapture env offscreen sessionId grant tab c).2) := by
  have hsetup : ∀ x ∈ setupOffscreenDocument offscreen, x = Effect.createOffscreenDocument :=
    fun x hx => setupOffscreenDocument_mem offscreen x hx
  constructor
  · intro hne
    have hex : hasExistingForTab (c.store.sessions.getD JsMap.empty) tab.id = true :=
      (hasExistingForTab_iff _ _).2 hne
    unfold handleStartCapture
    rw [if_neg hok]
    simp only [hex, if_true]
    refine ⟨by simp, ?_⟩
    intro t hmem
    rcases List.mem_append.1 hmem with hmem | hmem
    · rcases List.mem_append.1 hmem with hmem | hmem
      · cases hsetup _ hmem
      · simp at hmem
    · exact scheduleAllCountsBroadcast_no_request _ _ _ _ hmem
  · intro hempty
    have hex : hasExistingForTab (c.store.sessions.getD JsMap.empty) tab.id = false := by
      cases hb : hasExistingForTab (c.store.sessions.getD JsMap.empty) tab.id with
      | false => rfl
      | true => exact absurd hempty ((hasExistingForTab_iff _ _).1 hb)
    unfold handleStartCapture
    rw [if_neg hok]
    simp only [hex, Bool.false_eq_true, if_false]
    have hno : ∀ (sid : String) (t : TabId), Effect.runtimeSendMessage
        (.attachSessionToTabCapture sid t) ∉ setupOffscreenDocument offscreen := by
      intro sid t hmem
      cases hsetup _ hmem
    cases grant with
    | lastError m =>
      refine ⟨by simp, ?_⟩
      intro sid t hmem
      rcases List.mem_append.1 hmem with hmem | hmem
      · exact hno sid t hmem
      · simp at hmem
    | streamId id =>
      cases id with
      | none =>
        refine ⟨by simp, ?_⟩
        intro sid t hmem
        rcases List.mem_append.1 hmem with hmem | hmem
        · exact hno sid t hmem
        · simp at hmem
      | some streamId =>
        by_cases htr : truthyStr streamId = true
        · simp only [htr, if_true]
          refine ⟨by simp, ?_⟩
          intro sid t hmem
          rcases List.mem_append.1 hmem with hmem | hmem
          · rcases List.mem_append.1 hmem with hmem | hmem
            · exact hno sid t hmem
            · simp at hmem
          · exact scheduleAllCountsBroadcast_no_runtime _ _ _ _ hmem
        · simp only [htr, if_false]
          refine ⟨by simp, ?_⟩
          intro sid t hmem
          rcases List.mem_append.1 hmem with hmem | hmem
          · exact hno sid t hmem
          · simp at hmem

set_option maxRecDepth 8000 in
/-- C17 on the empty registry, where the first `StartCapture` of tab 1
requests a stream id. -/
theorem C17_attach_witness :
    OffscreenSetup.present ≠ OffscreenSetup.failed
    ∧ sessionsOfTab coordinatorEmpty.registry tabA.id = []
    ∧ Effect.getMediaStreamId tabA.id
        ∈ (handleStartCapture envAllOk .present "S1" (.streamId (some "stream-1")) tabA
            coordinatorEmpty).2
    ∧ sessionsOfTab coordinatorOneSession.registry tabA.id ≠ []
    ∧ Effect.runtimeSendMessage (.attachSessionToTabCapture "S2" (.num tabA.id))
        ∈ (handleStartCapture envAllOk .present "S2" (.streamId (some "stream-1")) tabA
            coordinatorOneSession).2 :=
  ⟨by decide, by decide,
   ((C17_attach_exactly_when_tab_captured envAllOk .present "S1" (.streamId (some "stream-1")) tabA
      coordinatorEmpty (by decide)).2 (by decide)).1,
   by decide,
   ((C17_attach_exactly_when_tab_captured envAllOk .present "S2" (.streamId (some "stream-1")) tabA
      coordinatorOneSession (by decide)).1 (by decide)).1⟩

set_option maxRecDepth 8000 in
/-- C18, as worded, fails: the stream request of the first `StartCapture`
on tab 1 ends in an error, or in a missing stream id, and the registry holds
the record of the new session afterwards. -/
theorem C18_record_remains_after_refused_request :
    coordinatorEmpty.session "S1" = none
    ∧ (handleStartCapture envAllOk .present "S1" (.lastError "denied") tabA
        coordinatorEmpty).1.session "S1"
      = some { sessionId := "S1", sourceTabId := some 1, sourceTabTitle := "a",
               sourceOrdinal := some 1, sourceOverlayId := none, theme := none,
               outputs := some [] }
    ∧ (handleStartCapture envAllOk .present "S1" (.streamId none) tabA
        coordinatorEmpty).1.session "S1"
      = some { sessionId := "S1", sourceTabId := some 1, sourceTabTitle := "a",
               sourceOrdinal := some 1, sourceOverlayId := none, theme := none,
               outputs := some [] } := by
  decide

/-- C18, amended: when the stream request of a source tab that no registered
session captures yet reports an error or hands over an empty stream id,
`handleStartCapture` requests the stream and does nothing further: no
message goes to the engine and no count broadcast is scheduled; the record
of the new session, written before the request, stays in the registry. -/
theorem C18_refused_request_starts_no_capture (env : Env) (offscreen : OffscreenSetup)
    (sessionId : String) (grant : StreamGrant) (tab : SourceTab) (c : Coordinator)
    (hok : offscreen ≠ .failed) (hnew : sessionsOfTab c.registry tab.id = [])
    (hrefused : grant.refused = true) :
    (handleStartCapture env offscreen sessionId grant tab c).2
        = setupOffscreenDocument offscreen ++ [.getMediaStreamId tab.id]
    ∧ (∀ m, Effect.runtimeSendMessage m
        ∉ (handleStartCapture env offscreen sessionId grant tab c).2)
    ∧ (∀ d, Effect.setTimeoutCounts d
        ∉ (handleStartCapture env offscreen sessionId grant tab c).2)
    ∧ ∃ s, (handleStartCapture env offscreen sessionId grant tab c).1.session sessionId = some s
        ∧ s.sessionId = sessionId ∧ s.sourceTabId = some tab.id := by
  have hex : hasExistingForTab (c.store.sessions.getD JsMap.empty) tab.id = false := by
    cases hb : hasExistingForTab (c.store.sessions.getD JsMap.empty) tab.id with
    | false => rfl
    | true => exact absurd hnew ((hasExistingForTab_iff _ _).1 hb)
  have heff : (handleStartCapture env offscreen sessionId grant tab c).2
      = setupOffscreenDocument offscreen ++ [.getMediaStreamId tab.id] := by
    unfold handleStartCapture
    rw [if_neg hok]
    simp only [hex, Bool.false_eq_true, if_false]
    cases grant with
    | lastError m => rfl
    | streamId id =>
      cases id with
      | none => rfl
      | some streamId =>
        have htr : truthyStr streamId = false := by
          simpa [StreamGrant.refused] using hrefused
        simp [htr]
  refine ⟨heff, ?_, ?_, ?_⟩
  · intro m hmem
    rw [heff] at hmem
    rcases List.mem_append.1 hmem with hmem | hmem
    · cases setupOffscreenDocument_mem offscreen _ hmem
    · simp at hmem
  · intro d hmem
    rw [heff] at hmem
    rcases List.mem_append.1 hmem with hmem | hmem
    · cases setupOffscreenDocument_mem offscreen _ hmem
    · simp at hmem
  · exact ⟨_, handleStartCapture_session env offscreen sessionId grant tab c hok, rfl, rfl⟩

set_option maxRecDepth 8000 in
/-- C18, amended, on the empty registry with a request that ends in an
error. -/
theorem C18_refused_request_witness :
    OffscreenSetup.present ≠ OffscreenSetup.failed
    ∧ sessionsOfTab coordinatorEmpty.registry tabA.id = []
    ∧ (StreamGrant.lastError "denied").refused = true
    ∧ (handleStartCapture envAllOk .present "S1" (.lastError "denied") tabA coordinatorEmpty).2
        = [.getMediaStreamId 1] :=
  ⟨by decide, by decide, by decide,
   (C18_refused_request_starts_no_capture envAllOk .present "S1" (.lastError "denied") tabA
      coordinatorEmpty (by decide) (by decide) (by decide)).1⟩

/-! ## Ordinals along a run -/

theorem JsMap.get_none_not_mem_keys {κ α : Type} [DecidableEq κ] (m : List (κ × α)) (k : κ)
    (h : JsMap.get m k = none) : k ∉ JsMap.keys m := by
  induction m with
  | nil => simp [JsMap.keys]
  | cons e m ih =>
    obtain ⟨k', v'⟩ := e
    by_cases h' : k' = k
    · simp [JsMap.get, h'] at h
    · simp only [JsMap.get, h', if_false] at h
      have := ih h
      simp only [JsMap.keys] at this ⊢
      simp [Ne.symm h', this]

theorem JsMap.set_of_get_none {κ α : Type} [DecidableEq κ] (m : List (κ × α)) (k : κ) (v : α)
    (h : JsMap.get m k = none) : JsMap.set m k v = m ++ [(k, v)] := by
  induction m with
  | nil => rfl
  | cons e m ih =>
    obtain ⟨k', v'⟩ := e
    by_cases h' : k' = k
    · simp [JsMap.get, h'] at h
    · simp only [JsMap.get, h', if_false] at h
      simp [JsMap.set, h', ih h]

theorem JsMap.delete_sublist {κ α : Type} [DecidableEq κ] (m : List (κ × α)) (k : κ) :
    List.Sublist (JsMap.delete m k) m := by
  induction m with
  | nil => exact List.Sublist.slnil
  | cons e m ih =>
    obtain ⟨k', v'⟩ := e
    by_cases h' : k' = k
    · simp only [JsMap.delete, h', if_true]
      exact List.Sublist.cons _ (by simpa [h'] using ih)
    · simp only [JsMap.delete, h', if_false]
      exact List.Sublist.cons₂ _ ih

theorem JsMap.get_of_mem_nodup {κ α : Type} [DecidableEq κ] (m : List (κ × α)) (k : κ) (v : α)
    (hnd : (JsMap.keys m).Nodup) (hmem : (k, v) ∈ m) : JsMap.get m k = some v := by
  induction m with
  | nil => cases hmem
  | cons e m ih =>
    obtain ⟨k', v'⟩ := e
    simp only [JsMap.keys, List.map_cons, List.nodup_cons] at hnd
    rcases List.mem_cons.1 hmem with heq | hin
    · cases heq
      simp [JsMap.get]
    · have hk : k' ≠ k := by
        intro hkk
        apply hnd.1
        rw [hkk]
        exact List.mem_map_of_mem Prod.fst hin
      simp only [JsMap.get, hk, if_false]
      exact ih hnd.2 hin

theorem registryOrdered_sublist (m m' : List (String × Session)) (hsub : List.Sublist m' m)
    (h : registryOrdered m) : registryOrdered m' := by
  refine ⟨?_, ?_⟩
  · exact List.Nodup.sublist (List.Sublist.map Prod.fst hsub) h.1
  · intro tabId
    exact List.Pairwise.sublist
      (List.Sublist.map _ (List.Sublist.filter _ hsub)) (h.2 tabId)

theorem registryOrdered_start (m : List (String × Session)) (sessionId : String) (tab : SourceTab)
    (title : String) (hfresh : JsMap.get m sessionId = none) (h : registryOrdered m) :
    registryOrdered (JsMap.set m sessionId
      { sessionId := sessionId
        sourceTabId := some tab.id
        sourceTabTitle := title
        sourceOrdinal := some (nextOrdinal m tab.id)
        sourceOverlayId := none
        theme := none
        outputs := some JsMap.empty }) := by
  rw [JsMap.set_of_get_none m sessionId _ hfresh]
  refine ⟨?_, ?_⟩
  · have hk := JsMap.get_none_not_mem_keys m sessionId hfresh
    simp only [JsMap.keys] at hk ⊢
    rw [List.map_append]
    refine List.Nodup.append h.1 (by simp) ?_
    intro k hk1 hk2
    simp only [List.map_cons, List.map_nil, List.mem_singleton] at hk2
    exact hk (hk2 ▸ hk1)
  · intro tabId
    unfold liveOrdinals JsMap.entries
    rw [List.filter_append, List.map_append]
    refine List.pairwise_append.2 ⟨h.2 tabId, ?_, ?_⟩
    · by_cases ht : tab.id = tabId
      · simp [List.filter, ht]
      · simp [List.filter, ht]
    · intro a ha b hb
      by_cases ht : tab.id = tabId
      · subst ht
        simp only [List.filter, decide_True, List.map_cons, List.map_nil,
          List.mem_singleton] at hb
        obtain ⟨e, he, hea⟩ := List.mem_map.1 ha
        obtain ⟨hem, het⟩ := List.mem_filter.1 he
        have hget : JsMap.get m e.1 = some e.2 := JsMap.get_of_mem_nodup m e.1 e.2 h.1 hem
        have hmem : e.2 ∈ sessionsOfTab m tab.id := by
          refine (mem_sessionsOfTab m tab.id e.2).2 ⟨⟨e.1, ?_, hget⟩, ?_⟩
          · exact List.mem_map_of_mem Prod.fst hem
          · simpa using het
        have hlt := (nextOrdinal_spec m tab.id).2.2 e.2 hmem
        rw [hb, ← hea]
        simpa [ordinalOf] using hlt
      · simp [List.filter, ht] at hb

theorem handleStopSession_registry (env : Env) (sessionId : String) (c : Coordinator) :
    List.Sublist (handleStopSession env sessionId c).1.registry c.registry := by
  cases h : c.session sessionId with
  | none =>
    have hc : (handleStopSession env sessionId c).1 = c := by
      unfold Coordinator.session at h
      unfold handleStopSession
      simp only [h]
    rw [hc]
  | some session =>
    have hs := (handleStopSession_store env sessionId c session h).1
    unfold Coordinator.registry
    rw [hs]
    exact JsMap.delete_sublist _ _

theorem runOp_registryOrdered (env : Env) (op : RegistryOp) (c : Coordinator)
    (h : registryOrdered c.registry) (hfresh : freshIds env [op] c = true) :
    registryOrdered (runOp env op c).registry := by
  cases op with
  | start offscreen sessionId grant tab =>
    by_cases hok : offscreen = .failed
    · have hc : runOp env (.start offscreen sessionId grant tab) c = c := by
        unfold runOp handleStartCapture
        simp only [hok, if_true]
      rw [hc]
      exact h
    · have hf : JsMap.get c.registry sessionId = none := by
        simp only [freshIds, Bool.and_true, Option.isNone_iff_eq_none] at hfresh
        exact hfresh
      have hreg : (runOp env (.start offscreen sessionId grant tab) c).registry
          = JsMap.set c.registry sessionId
              { sessionId := sessionId
                sourceTabId := some tab.id
                sourceTabTitle := tab.title
                sourceOrdinal := some (nextOrdinal c.registry tab.id)
                sourceOverlayId := none
                theme := none
                outputs := some JsMap.empty } := by
        have hr := handleStartCapture_registry env offscreen sessionId grant tab c hok
        unfold runOp
        simp only []
        unfold Coordinator.registry at hr ⊢
        rw [hr]
        rfl
      rw [hreg]
      exact registryOrdered_start c.registry sessionId tab tab.title hf h
  | stop sessionId =>
    exact registryOrdered_sublist _ _ (handleStopSession_registry env sessionId c) h

set_option maxRecDepth 8000 in
/-- C16, as worded, fails: the first session of tab 1 is started and
stopped, and the next session started on tab 1 is given ordinal 1 again. -/
theorem C16_ordinal_assigned_again_after_stop :
    freshIds envAllOk
        [.start .present "S1" (.streamId (some "stream-1")) tabA,
         .stop "S1",
         .start .present "S2" (.streamId (some "stream-2")) tabA]
        coordinatorEmpty = true
    ∧ assignedOrdinals envAllOk 1
        [.start .present "S1" (.streamId (some "stream-1")) tabA,
         .stop "S1",
         .start .present "S2" (.streamId (some "stream-2")) tabA]
        coordinatorEmpty = [1, 1]
    ∧ ¬ List.Pairwise (fun a b => a < b)
        (assignedOrdinals envAllOk 1
          [.start .present "S1" (.streamId (some "stream-1")) tabA,
           .stop "S1",
           .start .present "S2" (.streamId (some "stream-2")) tabA]
          coordinatorEmpty) := by
  decide

/-- C16, amended: along every sequence of `StartCapture` (each with a fresh
session id) and `StopSession` operations, the sessions of one source tab that
are registered at the same time carry strictly increasing ordinals in
creation order, which is the order of the registry, a new record being
appended at its end; no session id is registered twice. -/
theorem C16_registered_ordinals_increase (env : Env) (ops : List RegistryOp) (c : Coordinator)
    (hstart : registryOrdered c.registry) (hfresh : freshIds env ops c = true) :
    registryOrdered (runOps env ops c).registry := by
  induction ops generalizing c with
  | nil => exact hstart
  | cons op ops ih =>
    have hone : freshIds env [op] c = true ∧ freshIds env ops (runOp env op c) = true := by
      cases op with
      | start offscreen sessionId grant tab =>
        simp only [freshIds, Bool.and_eq_true, Bool.and_true] at hfresh ⊢
        exact hfresh
      | stop sessionId =>
        simp only [freshIds] at hfresh ⊢
        exact ⟨trivial, hfresh⟩
    unfold runOps
    simp only [List.foldl_cons]
    exact ih (runOp env op c) (runOp_registryOrdered env op c hstart hone.1) hone.2

set_option maxRecDepth 8000 in
/-- C16, amended, on a run from the empty registry: three sessions are
started on tab 1 and the first is stopped in between; the two that remain
carry the ordinals 2 and 3. -/
theorem C16_registered_ordinals_witness :
    registryOrdered coordinatorEmpty.registry
    ∧ freshIds envAllOk
        [.start .present "S1" (.streamId (some "stream-1")) tabA,
         .start .present "S2" (.streamId (some "stream-2")) tabA,
         .stop "S1",
         .start .present "S3" (.streamId (some "stream-3")) tabA]
        coordinatorEmpty = true
    ∧ registryOrdered (runOps envAllOk
        [.start .present "S1" (.streamId (some "stream-1")) tabA,
         .start .present "S2" (.streamId (some "stream-2")) tabA,
         .stop "S1",
         .start .present "S3" (.streamId (some "stream-3")) tabA]
        coordinatorEmpty).registry
    ∧ liveOrdinals (runOps envAllOk
        [.start .present "S1" (.streamId (some "stream-1")) tabA,
         .start .present "S2" (.streamId (some "stream-2")) tabA,
         .stop "S1",
         .start .present "S3" (.streamId (some "stream-3")) tabA]
        coordinatorEmpty).registry 1 = [2, 3] :=
  have h0 : registryOrdered coordinatorEmpty.registry :=
    ⟨List.nodup_nil, fun _ => List.Pairwise.nil⟩
  ⟨h0, by decide,
   C16_registered_ordinals_increase envAllOk
     [.start .present "S1" (.streamId (some "stream-1")) tabA,
      .start .present "S2" (.streamId (some "stream-2")) tabA,
      .stop "S1",
      .start .present "S3" (.streamId (some "stream-3")) tabA]
     coordinatorEmpty h0 (by decide),
   by decide⟩

/-! ## Reconnection and closed source tabs -/

theorem foldl_append_singleton_eq_map {α β : Type} (f : α → β) (l : List α) (acc : List β) :
    l.foldl (fun acc x => acc ++ [f x]) acc = acc ++ l.map f := by
  induction l generalizing acc with
  | nil => simp
  | cons x l ih => simp [ih]

/-- C19: for a tab with a truthy id, `handleReconnect` sends that tab one
`CREATE_OUTPUT_OVERLAY` message for every overlay id in the tab's entry of
the session, in the order of the entry, each with the session id and the
session's theme (the stored options when it has none), and nothing else, so
that each id of an entry without repetitions is sent exactly once; it sends
nothing when the session is missing or has no entry for the tab. -/
theorem C19_reconnect_recreates_each_overlay (sessionId : String) (tabId : Nat)
    (c : Coordinator) (htab : tabId ≠ 0) :
    (∀ session, c.session sessionId = some session →
      handleReconnect sessionId (some tabId) c
        = (entryList (c.outputsAt sessionId tabId)).map
            (fun overlayId =>
              Effect.tabsSendMessage tabId
                (.createOutputOverlay sessionId overlayId
                  (match session.theme with
                    | some t => some t
                    | none => c.store.options)))
        ∧ ((entryList (c.outputsAt sessionId tabId)).Nodup →
            ∀ overlayId ∈ entryList (c.outputsAt sessionId tabId),
              (handleReconnect sessionId (some tabId) c).count
                (Effect.tabsSendMessage tabId
                  (.createOutputOverlay sessionId overlayId
                    (match session.theme with
                      | some t => some t
                      | none => c.store.options))) = 1))
    ∧ (c.session sessionId = none → handleReconnect sessionId (some tabId) c = [])
    ∧ (c.outputsAt sessionId tabId = none → handleReconnect sessionId (some tabId) c = []) := by
  refine ⟨?_, ?_, ?_⟩
  · intro session hs
    have hs' : JsMap.get (c.store.sessions.getD JsMap.empty) sessionId = some session := hs
    have heq : handleReconnect sessionId (some tabId) c
        = (entryList (c.outputsAt sessionId tabId)).map
            (fun overlayId =>
              Effect.tabsSendMessage tabId
                (.createOutputOverlay sessionId overlayId
                  (match session.theme with
                    | some t => some t
                    | none => c.store.options))) := by
      unfold Coordinator.outputsAt
      unfold handleReconnect
      simp only [htab, if_false, hs, hs']
      cases ho : session.outputs with
      | none => simp [JsMap.get, JsMap.empty, entryList]
      | some outputs =>
        simp only [Option.getD_some]
        cases hv : JsMap.get outputs tabId with
        | none => simp [entryList]
        | some val =>
          simp only [List.append_nil]
          rw [foldl_append_singleton_eq_map]
          simp
    refine ⟨heq, ?_⟩
    intro hnd overlayId hov
    rw [heq]
    refine List.count_eq_one_of_mem (List.Nodup.map ?_ hnd) (List.mem_map_of_mem _ hov)
    intro a b hab
    cases hab
    rfl
  · intro hs
    have hs' : JsMap.get (c.store.sessions.getD JsMap.empty) sessionId = none := hs
    unfold handleReconnect
    simp only [htab, if_false, hs']
  · intro hnone
    unfold Coordinator.outputsAt at hnone
    unfold handleReconnect
    simp only [htab, if_false]
    cases hs : c.session sessionId with
    | none =>
      have hs' : JsMap.get (c.store.sessions.getD JsMap.empty) sessionId = none := hs
      simp only [hs']
    | some session =>
      have hs' : JsMap.get (c.store.sessions.getD JsMap.empty) sessionId = some session := hs
      simp only [hs, hs'] at hnone ⊢
      cases ho : session.outputs with
      | none => rfl
      | some outputs =>
        simp only [ho, Option.getD_some] at hnone
        simp only [hnone]

set_option maxRecDepth 8000 in
/-- C19 on a session whose entry of tab 2 lists `O1`, `O2`: the tab is sent
the two messages in that order; tab 5, which has no entry, is sent none. -/
theorem C19_reconnect_witness :
    (2 : Nat) ≠ 0
    ∧ handleReconnect "S1" (some 2) coordinatorWithOutputs
        = [.tabsSendMessage 2 (.createOutputOverlay "S1" "O1" none),
           .tabsSendMessage 2 (.createOutputOverlay "S1" "O2" none)]
    ∧ handleReconnect "S1" (some 5) coordinatorWithOutputs = [] :=
  ⟨by decide,
   ((C19_reconnect_recreates_each_overlay "S1" 2 coordinatorWithOutputs (by decide)).1
      { sessionId := "S1", sourceTabId := some 1, sourceTabTitle := "a", sourceOrdinal := some 1,
        sourceOverlayId := some "ov-src", theme := none,
        outputs := some [(2, .list ["O1", "O2"]), (3, .legacy (some "O3"))] }
      (by decide)).1.trans (by decide),
   by decide⟩

theorem stopFirstSessionOfTab_stops_at_most_one (env : Env) (tabId : Nat)
    (sessions : JsMap String Session) (c : Coordinator) (ks : List String) :
    stopFirstSessionOfTab env tabId sessions c ks = (c, [])
    ∨ ∃ sid, stopFirstSessionOfTab env tabId sessions c ks = handleStopSession env sid c := by
  induction ks with
  | nil => exact Or.inl rfl
  | cons k ks ih =>
    unfold stopFirstSessionOfTab
    cases JsMap.get sessions k with
    | none => exact ih
    | some session =>
      by_cases ht : session.sourceTabId = some tabId
      · simp only [ht, if_true]
        exact Or.inr ⟨k, rfl⟩
      · simp only [ht, if_false]
        exact ih

set_option maxRecDepth 8000 in
/-- C20 fails on a registry with two sessions of the same source tab: `S1`
and `S2` both have source tab 1; when tab 1 is closed the listener stops
`S1` and returns, so `S2` stays registered with its source tab and the
engine is never told to stop it. -/
theorem C20_only_first_session_of_closed_tab_stopped :
    (coordinatorTwoSessions.session "S1").map (fun s => s.sourceTabId) = some (some 1)
    ∧ (coordinatorTwoSessions.session "S2").map (fun s => s.sourceTabId) = some (some 1)
    ∧ (onTabRemoved envAllOk 1 coordinatorTwoSessions).1.session "S1" = none
    ∧ (onTabRemoved envAllOk 1 coordinatorTwoSessions).1.session "S2"
        = coordinatorTwoSessions.session "S2"
    ∧ Effect.runtimeSendMessage (.stopCapture "S1")
        ∈ (onTabRemoved envAllOk 1 coordinatorTwoSessions).2
    ∧ Effect.runtimeSendMessage (.stopCapture "S2")
        ∉ (onTabRemoved envAllOk 1 coordinatorTwoSessions).2
    ∧ onTabRemoved envAllOk 1 coordinatorTwoSessions
        = handleStopSession envAllOk "S1" coordinatorTwoSessions := by
  decide

/-! ## Unknown sessions -/

/-- C25: for a session id that the registry does not hold, each of
`handleStopSession`, `handleCreateOutput`, `handleCloseOutput` and
`handleAssociateSourceOverlay` returns the coordinator as it was, the
persisted store included, and sends no message to any tab or to the
engine. -/
theorem C25_unknown_session_is_noop (env : Env) (sessionId : String) (c : Coordinator)
    (habsent : c.session sessionId = none) :
    handleStopSession env sessionId c = (c, [])
    ∧ (∀ newOverlayId outputTab, handleCreateOutput env newOverlayId sessionId outputTab c = (c, []))
    ∧ (∀ tabId overlayId, handleCloseOutput env sessionId tabId overlayId c = (c, []))
    ∧ (∀ overlayId, handleAssociateSourceOverlay env sessionId overlayId c = (c, [])) := by
  unfold Coordinator.session at habsent
  refine ⟨?_, ?_, ?_, ?_⟩
  · unfold handleStopSession
    simp only [habsent]
  · intro newOverlayId outputTab
    unfold handleCreateOutput
    simp only [habsent]
  · intro tabId overlayId
    unfold handleCloseOutput
    simp only [habsent]
  · intro overlayId
    unfold handleAssociateSourceOverlay
    simp only [habsent]

/-- C25 on a registry that holds `S1` only: the four handlers leave it alone
when they are called for `S9`. -/
theorem C25_unknown_session_witness :
    coordinatorOneSession.session "S9" = none
    ∧ handleStopSession envAllOk "S9" coordinatorOneSession = (coordinatorOneSession, [])
    ∧ handleCloseOutput envAllOk "S9" 2 "O1" coordinatorOneSession = (coordinatorOneSession, []) :=
  ⟨by decide,
   (C25_unknown_session_is_noop envAllOk "S9" coordinatorOneSession (by decide)).1,
   (C25_unknown_session_is_noop envAllOk "S9" coordinatorOneSession (by decide)).2.2.1 2 "O1"⟩

/-! ## Delivery to a tab -/

theorem toLower_toList (s : String) : s.toLower.toList = s.toList.map Char.toLower := by
  unfold String.toLower
  rw [String.map_eq]
  rfl

set_option maxRecDepth 20000 in
theorem noListener_message_matches :
    jsIncludes ("Could not establish connection. Receiving end does not exist.").toLower
      "receiving end" = true := by
  unfold jsIncludes
  rw [toLower_toList]
  decide

/-- C26: the promise of `safeSendToTab` is always fulfilled. When the first
delivery is rejected with a message that contains "receiving end" in any
letter case, the content script is injected once and the delivery is retried
once, the retry being dropped when the injection is rejected; the outcome of
the retry is not looked at. After any other rejection, and after a
successful delivery, nothing follows the first delivery. -/
theorem C26_safeSendToTab_reinjects_once (env : Env) (tabId : Nat) (message : TabMsg) :
    safeSendToTabSettles env tabId message = .ok
    ∧ (∀ e, env.send false tabId message = .rejected e →
        jsIncludes (e.getD "").toLower "receiving end" = true →
          (safeSendToTab env tabId message).count (.executeScript tabId) = 1
          ∧ (env.inject tabId = .ok →
              safeSendToTab env tabId message
                = [.tabsSendMessage tabId message, .executeScript tabId,
                   .tabsSendMessage tabId message])
          ∧ (env.inject tabId ≠ .ok →
              safeSendToTab env tabId message
                = [.tabsSendMessage tabId message, .executeScript tabId]))
    ∧ (∀ e, env.send false tabId message = .rejected e →
        jsIncludes (e.getD "").toLower "receiving end" = false →
          safeSendToTab env tabId message = [.tabsSendMessage tabId message])
    ∧ (env.send false tabId message = .ok →
        safeSendToTab env tabId message = [.tabsSendMessage tabId message]) := by
  refine ⟨?_, ?_, ?_, ?_⟩
  · unfold safeSendToTabSettles Outcome.tryCatch Outcome.andThen
    cases env.send false tabId message with
    | ok => rfl
    | rejected e =>
      simp only []
      split
      · cases env.inject tabId with
        | ok => cases env.send true tabId message <;> rfl
        | rejected e' => rfl
      · rfl
  · intro e he hi
    unfold safeSendToTab
    simp only [he, hi, if_true]
    cases hinj : env.inject tabId with
    | ok => simp
    | rejected e' => simp
  · intro e he hi
    unfold safeSendToTab
    simp only [he, hi, Bool.false_eq_true, if_false]
  · intro he
    unfold safeSendToTab
    simp only [he]

set_option maxRecDepth 20000 in
/-- C26 on three platforms: no listener and a successful injection, no
listener and a refused injection, and a tab that is gone. -/
theorem C26_safeSendToTab_witness :
    safeSendToTab envNoListener 3 (.peekHide "o")
        = [.tabsSendMessage 3 (.peekHide "o"), .executeScript 3, .tabsSendMessage 3 (.peekHide "o")]
    ∧ safeSendToTab envNoInjection 3 (.peekHide "o")
        = [.tabsSendMessage 3 (.peekHide "o"), .executeScript 3]
    ∧ safeSendToTab envNoTab 3 (.peekHide "o") = [.tabsSendMessage 3 (.peekHide "o")] :=
  ⟨((C26_safeSendToTab_reinjects_once envNoListener 3 (.peekHide "o")).2.1
      (some "Could not establish connection. Receiving end does not exist.") rfl
      noListener_message_matches).2.1 rfl,
   ((C26_safeSendToTab_reinjects_once envNoInjection 3 (.peekHide "o")).2.1
      (some "Could not establish connection. Receiving end does not exist.") rfl
      noListener_message_matches).2.2 (by decide),
   (C26_safeSendToTab_reinjects_once envNoTab 3 (.peekHide "o")).2.2.1
      (some "No tab with id.") rfl
      (by unfold jsIncludes; rw [toLower_toList]; decide)⟩

/-! ## Badge of the source overlay -/

theorem badgeCount_onPeekSetKindSource (overlayId sessionId : String)
    (sessions : JsMap String Session) (h : JsMap.get sessions "undefined" = none) :
    badgeCount (onPeekSetKindSource overlayId sessionId) (some sessions) = 0 := by
  simp [badgeCount, onPeekSetKindSource, createSourceOverlay, updateCount, propertyKey, h]

/-- C27 fails on the source overlay `ov-src` of session `S1`, set up by
`PEEK_SET_KIND`: its root carries the session id `S1`, but `updateCount`
captured the id before it was written, looks the registry up under
`undefined` and writes 0 into the badge, while `computeSessionOutputCount`
gives 2 for the record of `S1`, whose outputs are `{ 2: [O1, O2] }`. -/
theorem C27_badge_reads_session_id_before_it_is_set :
    (onPeekSetKindSource "ov-src" "S1").root.peekSessionId = some "S1"
    ∧ (onPeekSetKindSource "ov-src" "S1").countSessionId = none
    ∧ (coordinatorTwoSessions.session "S1").map (fun s => s.outputs)
        = some (some [(2, .list ["O1", "O2"])])
    ∧ badgeCount (onPeekSetKindSource "ov-src" "S1") coordinatorTwoSessions.store.sessions = 0
    ∧ (coordinatorTwoSessions.session "S1").map computeSessionOutputCount = some 2 := by
  decide

/-! ## Updates of a tab -/

set_option maxRecDepth 20000 in
/-- C30 fails on a viewer tab with a list of overlay ids: for `S1` with
`outputs[2] = [O1, O2]`, a load-complete event of tab 2 makes the listener
send one `CREATE_OUTPUT_OVERLAY` without overlay id (it reads `overlayId`
from the array) and one for `O2`; no message carries `O1`, the first id of
the list. -/
theorem C30_first_overlay_id_not_sent :
    coordinatorWithOutputs.outputsAt "S1" 2 = some (.list ["O1", "O2"])
    ∧ (onTabUpdated envAllOk .present (.streamId (some "stream-1")) "ov-new" 2
        { status := some .complete, url := none } coordinatorWithOutputs).2
      = [.tabsSendMessage 2 (.createOutputOverlayNoId "S1" none),
         .tabsSendMessage 2 (.createOutputOverlay "S1" "O2" none),
         .runtimeSendMessage (.newOutputAdded "S1" (.num 2))]
    ∧ Effect.tabsSendMessage 2 (.createOutputOverlay "S1" "O1" none)
        ∉ (onTabUpdated envAllOk .present (.streamId (some "stream-1")) "ov-new" 2
            { status := some .complete, url := none } coordinatorWithOutputs).2
    ∧ (onTabUpdated envAllOk .present (.streamId (some "stream-1")) "ov-new" 2
        { status := some .loading, url := none } coordinatorWithOutputs).2
      = [.tabsSendMessage 2 (.createOutputOverlayNoId "S1" none),
         .tabsSendMessage 2 (.createOutputOverlay "S1" "O2" none),
         .runtimeSendMessage (.newOutputAdded "S1" (.num 2))] := by
  decide

set_option maxRecDepth 20000 in
/-- C22 fails for every registered session: `S1` of source tab 1 is marked
reloading and tab 1 reports `complete`; the restore ends in the
`ReferenceError` of `handleRestartCapture`, the listener is rejected before
it resets the flags, and the runtime state of `S1` keeps `reloading` set,
whatever the stream grant is. -/
theorem C22_reloading_flag_survives_restore :
    JsMap.get coordinatorReloading.sessionRuntimeState "S1"
        = some { reloading := true, restoring := false, restoringPromise := false }
    ∧ JsMap.get (onTabUpdated envAllOk .present (.streamId (some "stream-1")) "ov-new" 1
        { status := some .complete, url := none } coordinatorReloading).1.sessionRuntimeState "S1"
        = some { reloading := true, restoring := false, restoringPromise := false }
    ∧ JsMap.get (onTabUpdated envAllOk .present (.lastError "denied") "ov-new" 1
        { status := some .complete, url := none } coordinatorReloading).1.sessionRuntimeState "S1"
        = some { reloading := true, restoring := false, restoringPromise := false }
    ∧ (restoreSourceAfterReload envAllOk .present (.streamId (some "stream-1")) "ov-new" "S1"
        coordinatorReloading).fulfilled = false := by
  decide

set_option maxRecDepth 20000 in
/-- C23 fails for every registered session: when tab 1, the source of the
reloading session `S1`, reports `complete` and the stream would be granted,
the restore keeps the record of `S1` and restores overlay and geometry, but
`handleRestartCapture` throws before it requests a stream: no stream id is
requested and no message at all goes to the engine. -/
theorem C23_restore_never_restarts_capture :
    handleRestartCapture .present (.streamId (some "stream-1")) "S1"
        = .error "ReferenceError: sessions is not defined"
    ∧ (onTabUpdated envAllOk .present (.streamId (some "stream-1")) "ov-new" 1
        { status := some .complete, url := none } coordinatorReloading).1.session "S1"
        = coordinatorReloading.session "S1"
    ∧ (onTabUpdated envAllOk .present (.streamId (some "stream-1")) "ov-new" 1
        { status := some .complete, url := none } coordinatorReloading).2
      = [.tabsSendMessage 1 (.peekSetKind "ov-src" "S1"),
         .tabsSendMessage 1 (.peekShow "ov-src"),
         .tabsSendMessage 1 (.outputsUpdated "S1" 0),
         .tabsSendMessage 1 (.restoreSourceGeom "ov-src" ⟨0, 0, 10, 10⟩)]
    ∧ Effect.runtimeSendMessage (.startCapture "S1" (some "stream-1") .undefined)
        ∉ (onTabUpdated envAllOk .present (.streamId (some "stream-1")) "ov-new" 1
            { status := some .complete, url := none } coordinatorReloading).2 :=
  ⟨rfl, by decide⟩

theorem findSessionForTab_found (sessions : JsMap String Session) (tabId : Nat)
    (ks : List String) (sid : String) (session : Session)
    (h : findSessionForTab sessions tabId ks = .found sid session) :
    JsMap.get sessions sid = some session := by
  induction ks with
  | nil => simp [findSessionForTab] at h
  | cons k ks ih =>
    unfold findSessionForTab at h
    cases hk : JsMap.get sessions k with
    | none =>
      simp only [hk] at h
      exact ih h
    | some s =>
      simp only [hk] at h
      by_cases hs : s.sourceTabId = some tabId
      · simp only [hs, if_true] at h
        cases h
        exact hk
      · simp only [hs, if_false] at h
        cases ho : s.outputs with
        | none => simp [ho] at h
        | some outputs =>
          simp only [ho] at h
          by_cases hso : (JsMap.get outputs tabId).isSome = true
          · simp only [hso, if_true] at h
            cases h
            exact hk
          · simp only [hso, if_false] at h
            exact ih h

theorem findSessionForTab_only (sessions : JsMap String Session) (tabId : Nat)
    (sid : String) (session : Session)
    (hget : JsMap.get sessions sid = some session)
    (hsrc : session.sourceTabId = some tabId)
    (honly : ∀ sid' s', sid' ≠ sid → JsMap.get sessions sid' = some s' →
      s'.sourceTabId ≠ some tabId
      ∧ ∃ outputs, s'.outputs = some outputs ∧ JsMap.get outputs tabId = none)
    (ks : List String) (hmem : sid ∈ ks) :
    findSessionForTab sessions tabId ks = .found sid session := by
  induction ks with
  | nil => simp at hmem
  | cons k ks ih =>
    unfold findSessionForTab
    by_cases hk : k = sid
    · subst hk
      simp only [hget, hsrc, if_true]
    · have hmem' : sid ∈ ks := by
        rcases List.mem_cons.1 hmem with h | h
        · exact absurd h.symm hk
        · exact h
      cases hs : JsMap.get sessions k with
      | none =>
        simp only []
        exact ih hmem'
      | some s =>
        obtain ⟨h1, outputs, h2, h3⟩ := honly k s hk hs
        simp only [h1, if_false, h2, h3, Option.isSome_none, Bool.false_eq_true]
        exact ih hmem'

set_option maxRecDepth 20000 in
/-- C21, as worded, fails: an update of source tab 1 that carries a changed
URL and no status leaves the idle session `S1` registered and sends nothing;
an update with status `complete` and a changed URL, received while `S1` is
marked reloading, starts a restore instead of `StopSession` and `S1` stays
registered; and a `loading` update with a changed URL on tab 1 leaves a
session of source tab 1 registered when another session is attached to the
tab: `S2` next to `S1` of the same source tab, `S1` next to `S0` that has
tab 1 as an output tab. -/
theorem C21_url_change_without_stop :
    coordinatorOneSession.session "S1" ≠ none
    ∧ onTabUpdated envAllOk .present (.streamId (some "stream-1")) "ov-new" 1
        { status := none, url := some "https://b.example/" } coordinatorOneSession
      = (coordinatorOneSession, [])
    ∧ (onTabUpdated envAllOk .present (.streamId (some "stream-1")) "ov-new" 1
        { status := some .complete, url := some "https://b.example/" }
        coordinatorReloading).1.session "S1"
      = coordinatorReloading.session "S1"
    ∧ Effect.runtimeSendMessage (.stopCapture "S1")
        ∉ (onTabUpdated envAllOk .present (.streamId (some "stream-1")) "ov-new" 1
            { status := some .complete, url := some "https://b.example/" }
            coordinatorReloading).2
    ∧ (coordinatorTwoSessions.session "S2").bind (fun s => s.sourceTabId) = some 1
    ∧ (onTabUpdated envAllOk .present (.streamId (some "stream-1")) "ov-new" 1
        { status := some .loading, url := some "https://b.example/" }
        coordinatorTwoSessions).1.session "S2"
      = coordinatorTwoSessions.session "S2"
    ∧ Effect.runtimeSendMessage (.stopCapture "S2")
        ∉ (onTabUpdated envAllOk .present (.streamId (some "stream-1")) "ov-new" 1
            { status := some .loading, url := some "https://b.example/" }
            coordinatorTwoSessions).2
    ∧ (coordinatorSharedTab.session "S1").bind (fun s => s.sourceTabId) = some 1
    ∧ (onTabUpdated envAllOk .present (.streamId (some "stream-1")) "ov-new" 1
        { status := some .loading, url := some "https://b.example/" }
        coordinatorSharedTab).1
      = coordinatorSharedTab
    ∧ Effect.runtimeSendMessage (.stopCapture "S1")
        ∉ (onTabUpdated envAllOk .present (.streamId (some "stream-1")) "ov-new" 1
            { status := some .loading, url := some "https://b.example/" }
            coordinatorSharedTab).2 := by
  decide

/-- C21, amended: for every runtime state of a session and every update of
its source tab that carries a changed URL with status `loading`, or with
status `complete` while the session is not marked reloading, the listener
invokes `StopSession` for that session, so that afterwards the session is no
longer in the registry, provided every other registered session has another
source tab and an outputs map without an entry for the tab. -/
theorem C21_url_navigation_stops_only_session (env : Env) (offscreen : OffscreenSetup)
    (grant : StreamGrant) (newOverlayId : String) (tabId : Nat) (changeInfo : ChangeInfo)
    (c : Coordinator) (sid : String) (session : Session)
    (hget : c.session sid = some session)
    (hsrc : session.sourceTabId = some tabId)
    (honly : ∀ sid' s', sid' ≠ sid → c.session sid' = some s' →
      s'.sourceTabId ≠ some tabId
      ∧ ∃ outputs, s'.outputs = some outputs ∧ JsMap.get outputs tabId = none)
    (hurl : truthyOpt changeInfo.url = true)
    (hstatus : changeInfo.status = some .loading
      ∨ (changeInfo.status = some .complete
          ∧ ((JsMap.get c.sessionRuntimeState sid).getD
              { reloading := false, restoring := false, restoringPromise := false }).reloading
              = false)) :
    onTabUpdated env offscreen grant newOverlayId tabId changeInfo c = handleStopSession env sid c
    ∧ (onTabUpdated env offscreen grant newOverlayId tabId changeInfo c).1.session sid = none := by
  have hfound : findSessionForTab (c.store.sessions.getD JsMap.empty) tabId
      (JsMap.keys (c.store.sessions.getD JsMap.empty)) = .found sid session :=
    findSessionForTab_only _ tabId sid session hget hsrc honly _
      (JsMap.mem_keys_of_get _ sid session hget)
  have hrun : onTabUpdated env offscreen grant newOverlayId tabId changeInfo c
      = handleStopSession env sid c := by
    unfold onTabUpdated
    simp only [hfound, hsrc, if_true, hurl, Bool.true_eq_false, and_false, if_false, and_true]
    rcases hstatus with hl | ⟨hc, hr⟩
    · simp only [hl, if_true]
    · simp [hc, hr]
  refine ⟨hrun, ?_⟩
  rw [hrun]
  have hs := (handleStopSession_store env sid c session hget).1
  unfold Coordinator.session
  rw [hs]
  exact JsMap.get_delete_self _ _

set_option maxRecDepth 20000 in
/-- C21, amended, on session `S0` of source tab 9, the registry also holding
session `S1` of source tab 1 without outputs: a `loading` update of tab 9 with
a changed URL removes `S0` from the registry. -/
theorem C21_url_navigation_witness :
    coordinatorSharedTab.session "S1" ≠ none
    ∧ (onTabUpdated envAllOk .present (.streamId (some "stream-1")) "ov-new" 9
        { status := some .loading, url := some "https://b.example/" }
        coordinatorSharedTab).1.session "S0" = none :=
  ⟨by decide,
   (C21_url_navigation_stops_only_session envAllOk .present (.streamId (some "stream-1"))
      "ov-new" 9 { status := some .loading, url := some "https://b.example/" }
      coordinatorSharedTab "S0"
      { sessionId := "S0", sourceTabId := some 9, sourceTabTitle := "z",
        sourceOrdinal := some 1, sourceOverlayId := none, theme := none,
        outputs := some [(1, .list ["P1"])] }
      (by decide) rfl
      (by
        intro sid' s' hne h
        have h1 : ¬ ("S0" = sid') := fun h' => hne h'.symm
        unfold Coordinator.session coordinatorSharedTab at h
        simp only [Option.getD_some, JsMap.get, h1, if_false] at h
        by_cases h2 : "S1" = sid'
        · simp only [h2, if_true] at h
          cases h
          exact ⟨by simp, [], rfl, rfl⟩
        · simp only [h2, if_false] at h
          cases h)
      (by decide) (Or.inl rfl)).2⟩

/-! ## Closing an overlay that is not registered -/

set_option maxRecDepth 20000 in
/-- C29, as worded, fails: `zz` is not among the overlays `O1`, `O2` that
`S1` has on tab 2, yet `handleCloseOutput(S1, 2, zz)` sends `PEEK_HIDE` for
`zz` to tab 2 and removes the stored geometry and the state key of `zz`. -/
theorem C29_foreign_overlay_is_hidden_and_purged :
    coordinatorTwoSessions.outputsAt "S1" 2 = some (.list ["O1", "O2"])
    ∧ JsMap.get (coordinatorTwoSessions.store.geom.getD JsMap.empty) "zz" = some ⟨2, 2, 5, 5⟩
    ∧ JsMap.get coordinatorTwoSessions.store.kv (STATE_KEY_PREFIX ++ "zz") = some "x"
    ∧ Effect.tabsSendMessage 2 (.peekHide "zz")
        ∈ (handleCloseOutput envAllOk "S1" 2 "zz" coordinatorTwoSessions).2
    ∧ JsMap.get ((handleCloseOutput envAllOk "S1" 2 "zz" coordinatorTwoSessions).1.store.geom.getD
        JsMap.empty) "zz" = none
    ∧ JsMap.get (handleCloseOutput envAllOk "S1" 2 "zz" coordinatorTwoSessions).1.store.kv
        (STATE_KEY_PREFIX ++ "zz") = none := by
  decide

/-- C29, amended: `handleCloseOutput(S, T, o)` with an overlay id `o` that is
not among the overlay ids that `S` has registered for tab `T` (a non-empty
entry) leaves these ids as they are and sends nothing to the engine, but it
still sends `PEEK_HIDE` for `o` to the tab and removes the persisted
geometry and the state key of `o`. -/
theorem C29_unregistered_overlay_keeps_registered_ids (env : Env) (S : String) (T : Nat)
    (o : String) (c : Coordinator) (session : Session) (outs : JsMap Nat OutputEntry)
    (val : OutputEntry)
    (h : c.session S = some session) (ho : session.outputs = some outs)
    (hv : JsMap.get outs T = some val) (hne : entryList (some val) ≠ [])
    (hnot : o ∉ entryList (some val)) :
    (handleCloseOutput env S T o c).1.outputsAt S T = some (.list (entryList (some val)))
    ∧ Effect.tabsSendMessage T (.peekHide o) ∈ (handleCloseOutput env S T o c).2
    ∧ (∀ m, Effect.runtimeSendMessage m ∉ (handleCloseOutput env S T o c).2)
    ∧ (truthyStr o = true →
        JsMap.get ((handleCloseOutput env S T o c).1.store.geom.getD JsMap.empty) o = none
        ∧ JsMap.get (handleCloseOutput env S T o c).1.store.kv (STATE_KEY_PREFIX ++ o) = none) := by
  have hfilter : (entryList (some val)).filter (fun id => decide (id ≠ o)) = entryList (some val) := by
    apply List.filter_eq_self.2
    intro a ha
    simp only [decide_eq_true_eq]
    intro hao
    exact hnot (hao ▸ ha)
  have hlen : (entryList (some val)).length > 0 := List.length_pos.mpr hne
  have hs := handleCloseOutput_session env S T o c session outs val h ho hv
  obtain ⟨store1, he⟩ := handleCloseOutput_effects env S T o c session outs val h ho hv
  rw [hfilter] at hs he
  simp only [hlen, if_true] at hs he
  refine ⟨?_, ?_, ?_, ?_⟩
  · simp [Coordinator.outputsAt, hs, JsMap.get_set_self]
  · rw [he]
    simp
  · intro m
    rw [he]
    have hp := pushAllCountsToSources_no_runtime env store1 m
    have hk : (JsMap.keys (JsMap.set outs T (.list (entryList (some val))))).length ≠ 0 := by
      intro hz
      have hg := JsMap.get_set_self outs T (OutputEntry.list (entryList (some val)))
      cases hm : JsMap.set outs T (OutputEntry.list (entryList (some val))) with
      | nil => rw [hm] at hg; simp [JsMap.get] at hg
      | cons a l => rw [hm] at hz; simp [JsMap.keys] at hz
    simp [hk, hp]
  · intro ht
    unfold Coordinator.session at h
    unfold handleCloseOutput
    simp only [h, ho, hv, ht, Bool.true_and, if_true]
    constructor
    · split
      · simp [JsMap.get_delete_self]
      · rename_i hhas
        simp only [JsMap.has, Bool.not_eq_true, Option.not_isSome, Option.isNone_iff_eq_none] at hhas
        simpa using hhas
    · split <;> simp [JsMap.get_delete_self]

set_option maxRecDepth 20000 in
/-- C29, amended, on `S1` with `O1`, `O2` on tab 2 and the foreign overlay
`zz`: the registered ids stay and `PEEK_HIDE` for `zz` is sent. -/
theorem C29_unregistered_overlay_witness :
    "zz" ∉ entryList (some (OutputEntry.list ["O1", "O2"]))
    ∧ (handleCloseOutput envAllOk "S1" 2 "zz" coordinatorTwoSessions).1.outputsAt "S1" 2
        = some (.list ["O1", "O2"])
    ∧ Effect.tabsSendMessage 2 (.peekHide "zz")
        ∈ (handleCloseOutput envAllOk "S1" 2 "zz" coordinatorTwoSessions).2 :=
  have w := C29_unregistered_overlay_keeps_registered_ids envAllOk "S1" 2 "zz"
    coordinatorTwoSessions
    { sessionId := "S1", sourceTabId := some 1, sourceTabTitle := "a", sourceOrdinal := some 1,
      sourceOverlayId := some "ov-src", theme := none,
      outputs := some [(2, .list ["O1", "O2"])] }
    [(2, .list ["O1", "O2"])] (.list ["O1", "O2"]) (by decide) rfl (by decide) (by decide)
    (by decide)
  ⟨by decide, w.1, w.2.1⟩

/-! ## Setup of a link and teardown in between -/

theorem setupBegin_closure (p : Platform) (S : String) (T : TabId) (e : Engine) (s : OutputSetup)
    (h : (setupPeerConnectionForOutputBegin p S T e).2 = some s) :
    s.key = keyFor S T ∧ s.sessionId = S ∧ s.tabId = T := by
  unfold setupPeerConnectionForOutputBegin at h
  simp only [] at h
  split at h
  · cases h
  · split at h
    · cases h
    · simp only [Option.some.injEq] at h
      subst h
      exact ⟨rfl, rfl, rfl⟩

theorem onStopOutputPeer_pc_none (S : String) (T : TabId) (e : Engine) :
    JsMap.get (onStopOutputPeer S T e).pcByOutput (keyFor S T) = none := by
  unfold onStopOutputPeer
  simp only []
  rw [(links_eq (links_markOutputInactive _ _ _)).1, (releaseOutputTrack_maps _ _ _).1]
  exact JsMap.get_delete_self _ _

theorem onOutputSetupDone_maps (S : String) (T : TabId) (e : Engine) :
    (onOutputSetupDone S T e).pcByOutput = e.pcByOutput
    ∧ (onOutputSetupDone S T e).offerByOutput = e.offerByOutput
    ∧ (onOutputSetupDone S T e).offerIdByOutput = e.offerIdByOutput
    ∧ (∀ payload, JsMap.get e.offerByOutput (keyFor S T) = some payload →
        EngineEffect.sendMessage (.offerGenerated payload) ∈ (onOutputSetupDone S T e).trace) := by
  unfold onOutputSetupDone
  simp only []
  cases ho : JsMap.get e.offerByOutput (keyFor S T) with
  | none =>
    simp only []
    refine ⟨?_, ?_, ?_, ?_⟩
    · split
      · split <;> rfl
      · rfl
    · split
      · split <;> rfl
      · rfl
    · split
      · split <;> rfl
      · rfl
    · intro payload hp
      cases hp
  | some offerPayload =>
    simp only []
    refine ⟨?_, ?_, ?_, ?_⟩
    · split
      · split <;> rfl
      · rfl
    · split
      · split <;> rfl
      · rfl
    · split
      · split <;> rfl
      · rfl
    · intro payload hp
      cases hp
      split
      · split <;> simp [Engine.emit]
      · simp [Engine.emit]

theorem setupResume_maps (p : Platform) (s : OutputSetup) (e : Engine) (sdp : String)
    (hsdp : p.offerSdp = some sdp) :
    (setupPeerConnectionForOutputResume p s e).2 = true
    ∧ JsMap.get (setupPeerConnectionForOutputResume p s e).1.offerIdByOutput s.key
        = some p.offerId
    ∧ (∃ payload,
        JsMap.get (setupPeerConnectionForOutputResume p s e).1.offerByOutput s.key = some payload
        ∧ payload.offerId = p.offerId ∧ payload.sessionId = s.sessionId
        ∧ payload.tabId = s.tabId ∧ payload.sdp = sdp)
    ∧ (JsMap.get e.pcByOutput s.key = none →
        JsMap.get (setupPeerConnectionForOutputResume p s e).1.pcByOutput s.key = none) := by
  unfold setupPeerConnectionForOutputResume
  simp only [hsdp]
  refine ⟨trivial, ?_, ?_, ?_⟩
  · exact JsMap.get_set_self _ _ _
  · exact ⟨_, JsMap.get_set_self _ _ _, rfl, rfl, rfl, rfl⟩
  · intro hnone
    simp only [hnone]

set_option maxRecDepth 20000 in
/-- C28, as worded, fails: the setup of link (`s1`, tab 7) is suspended,
stop-output-peer (or `stopCapture`) tears the link down, and the continuation
then stores offer id `o1` and its offer under the key of the link and the
offer is sent, although no connection is registered for the link any more.
The same happens when the link is torn down after a second setup of the same
key has replaced the connection: the connection of the first setup is never
closed and its continuation stores and sends its offer. -/
theorem C28_offer_recorded_for_torn_down_link :
    JsMap.get (setupInterleaved platformA "s1" (.num 7) (onStopOutputPeer "s1" (.num 7))
        engineCapturing).offerIdByOutput "s1:7" = some "o1"
    ∧ JsMap.get (setupInterleaved platformA "s1" (.num 7) (onStopOutputPeer "s1" (.num 7))
        engineCapturing).offerByOutput "s1:7"
      = some { sessionId := "s1", sdp := "v=0", srcW := 1280, srcH := 720, offerId := "o1",
               tabId := .num 7 }
    ∧ JsMap.get (setupInterleaved platformA "s1" (.num 7) (onStopOutputPeer "s1" (.num 7))
        engineCapturing).pcByOutput "s1:7" = none
    ∧ EngineEffect.sendMessage (.offerGenerated
          { sessionId := "s1", sdp := "v=0", srcW := 1280, srcH := 720, offerId := "o1",
            tabId := .num 7 })
        ∈ (setupInterleaved platformA "s1" (.num 7) (onStopOutputPeer "s1" (.num 7))
            engineCapturing).trace
    ∧ JsMap.get (setupInterleaved platformA "s1" (.num 7) (stopCapture "s1")
        engineCapturing).offerIdByOutput "s1:7" = some "o1"
    ∧ EngineEffect.sendMessage (.offerGenerated
          { sessionId := "s1", sdp := "v=0", srcW := 1280, srcH := 720, offerId := "o1",
            tabId := .num 7 })
        ∈ (setupInterleaved platformA "s1" (.num 7) (stopCapture "s1") engineCapturing).trace
    ∧ JsMap.get (setupInterleaved platformA "s1" (.num 7)
        (fun e => onStopOutputPeer "s1" (.num 7) (onNewOutputAddedForTab platformB "s1" (.num 7) e).1)
        engineCapturing).offerIdByOutput "s1:7" = some "o1"
    ∧ EngineEffect.pcClose 1
        ∉ (setupInterleaved platformA "s1" (.num 7)
            (fun e => onStopOutputPeer "s1" (.num 7) (onNewOutputAddedForTab platformB "s1" (.num 7) e).1)
            engineCapturing).trace := by
  decide

/-- C28, amended: when the setup of link (`S`, `T`) is suspended awaiting the
offer and the local description, the continuation applies its result without
checking that the link still exists: whatever runs in between (stop-output-
peer or `stopCapture` among them), after the continuation the offer-id map and
the pending-offer map hold the new offer id and offer under the key of
(`S`, `T`) and that offer is sent; after a stop-output-peer in between no
connection is registered for the link. -/
theorem C28_continuation_applies_without_recheck (p : Platform) (S : String) (T : TabId)
    (e : Engine) (s : OutputSetup) (sdp : String) (between : Engine → Engine)
    (hsusp : (onNewOutputAddedForTab p S T e).2 = some s) (hsdp : p.offerSdp = some sdp) :
    JsMap.get (setupInterleaved p S T between e).offerIdByOutput (keyFor S T) = some p.offerId
    ∧ (∃ payload,
        JsMap.get (setupInterleaved p S T between e).offerByOutput (keyFor S T) = some payload
        ∧ payload.offerId = p.offerId ∧ payload.sessionId = S ∧ payload.tabId = T
        ∧ EngineEffect.sendMessage (.offerGenerated payload)
            ∈ (setupInterleaved p S T between e).trace)
    ∧ JsMap.get (setupInterleaved p S T (onStopOutputPeer S T) e).pcByOutput (keyFor S T) = none := by
  obtain ⟨hk, hsid, htab⟩ := setupBegin_closure p S T _ s hsusp
  have hrun : ∀ f : Engine → Engine, setupInterleaved p S T f e
      = onOutputSetupDone S T
          (setupPeerConnectionForOutputResume p s (f (onNewOutputAddedForTab p S T e).1)).1 := by
    intro f
    unfold setupInterleaved finishOutputSetup
    simp only [hsusp]
    rw [(setupResume_maps p s _ sdp hsdp).1, hsid, htab]
    simp
  refine ⟨?_, ?_, ?_⟩
  · rw [hrun, (onOutputSetupDone_maps _ _ _).2.2.1, ← hk]
    exact (setupResume_maps p s _ sdp hsdp).2.1
  · obtain ⟨payload, hget, h1, h2, h3, _⟩ := (setupResume_maps p s (between
      (onNewOutputAddedForTab p S T e).1) sdp hsdp).2.2.1
    rw [hk] at hget
    refine ⟨payload, ?_, h1, h2.trans hsid, h3.trans htab, ?_⟩
    · rw [hrun, (onOutputSetupDone_maps _ _ _).2.1]
      exact hget
    · rw [hrun]
      exact (onOutputSetupDone_maps _ _ _).2.2.2 payload hget
  · rw [hrun, (onOutputSetupDone_maps _ _ _).1, ← hk]
    apply (setupResume_maps p s _ sdp hsdp).2.2.2
    rw [hk]
    exact onStopOutputPeer_pc_none S T _

set_option maxRecDepth 20000 in
/-- C28, amended, on link (`s1`, tab 7) torn down by stop-output-peer while
its setup is suspended. -/
theorem C28_continuation_witness :
    (onNewOutputAddedForTab platformA "s1" (.num 7) engineCapturing).2
        = some { sessionId := "s1", tabId := .num 7, key := "s1:7",
                 pc := { id := 1, signalingState := .stable, remoteDescription := none,
                         addedIce := [] },
                 settings := { id := 100, ended := false, width := 1280, height := 720 } }
    ∧ JsMap.get (setupInterleaved platformA "s1" (.num 7) (onStopOutputPeer "s1" (.num 7))
        engineCapturing).offerIdByOutput (keyFor "s1" (.num 7)) = some "o1"
    ∧ JsMap.get (setupInterleaved platformA "s1" (.num 7) (onStopOutputPeer "s1" (.num 7))
        engineCapturing).pcByOutput (keyFor "s1" (.num 7)) = none :=
  have w := C28_continuation_applies_without_recheck platformA "s1" (.num 7) engineCapturing
    { sessionId := "s1", tabId := .num 7, key := "s1:7",
      pc := { id := 1, signalingState := .stable, remoteDescription := none, addedIce := [] },
      settings := { id := 100, ended := false, width := 1280, height := 720 } }
    "v=0" (onStopOutputPeer "s1" (.num 7)) (by decide) rfl
  ⟨by decide, w.1, w.2.2⟩

/-! ## Render loops and active viewers -/

theorem loops_emit (e : Engine) (x : EngineEffect) : (e.emit x).loops = e.loops := rfl

theorem loops_stopTrack (t : Option Track) (e : Engine) : (stopTrack t e).loops = e.loops := by
  cases t <;> rfl

theorem loops_foldl_trackStop (tracks : List MediaTrack) (e : Engine) :
    (tracks.foldl (fun acc tr => acc.emit (.trackStop (.capture tr.id))) e).loops = e.loops := by
  induction tracks generalizing e with
  | nil => rfl
  | cons t ts ih => simp only [List.foldl_cons]; rw [ih]; rfl

theorem loops_foldl_stopTrack (tracks : List MediaTrack) (e : Engine) :
    (tracks.foldl (fun acc tr => stopTrack (some (.canvas tr.id)) acc) e).loops = e.loops := by
  induction tracks generalizing e with
  | nil => rfl
  | cons t ts ih => simp only [List.foldl_cons]; rw [ih]; rfl

theorem loops_releaseSessionTrack (S : String) (e : Engine) :
    (releaseSessionTrack S e).loops = e.loops := by
  unfold releaseSessionTrack
  split <;> rfl

theorem loops_releaseOutputTrack (S : String) (T : TabId) (e : Engine) :
    (releaseOutputTrack S T e).loops = e.loops := by
  unfold releaseOutputTrack
  simp only []
  split <;> rfl

theorem loops_detachFromTab (S : String) (e : Engine) : (detachFromTab S e).2.loops = e.loops := by
  unfold detachFromTab
  split
  · rfl
  · split
    · simp only []
      split <;> rfl
    · rfl

theorem loops_closeOutputPc (k : String) (e : Engine) : (closeOutputPc k e).loops = e.loops := by
  unfold closeOutputPc
  split <;> rfl

theorem loops_closeSessionPc (S : String) (e : Engine) : (closeSessionPc S e).loops = e.loops := by
  unfold closeSessionPc
  split <;> rfl

theorem loops_releaseCanvasStream (S : String) (e : Engine) :
    (releaseCanvasStream S e).loops = e.loops := by
  unfold releaseCanvasStream
  split
  · have h := loops_foldl_stopTrack
    simp only [Engine.loops] at h ⊢
    rw [h]
  · rfl

theorem loops_releaseBase (tid : Option TabId) (e : Engine) : (releaseBase tid e).loops = e.loops := by
  unfold releaseBase
  split
  · rfl
  · split
    · have h := loops_foldl_trackStop
      simp only [Engine.loops] at h ⊢
      rw [h]
    · rfl

theorem loops_stopOutputsOf (S : String) (l : List (String × PeerConnection)) (e : Engine) :
    (stopOutputsOf S l e).loops = e.loops := by
  induction l generalizing e with
  | nil => rfl
  | cons a l ih =>
    obtain ⟨k, outPc⟩ := a
    unfold stopOutputsOf
    split
    · simp only []
      rw [ih, loops_releaseOutputTrack]
      rfl
    · exact ih e

theorem loops_ite (c : Bool) (a b : Engine) :
    (if c = true then a else b).loops = if c = true then a.loops else b.loops := by
  cases c <;> rfl

theorem loops_eq {a b : Engine} (h : a.loops = b.loops) :
    a.animationFrameIds = b.animationFrameIds ∧ a.activeOutputTabs = b.activeOutputTabs := by
  simpa [Engine.loops, Prod.mk.injEq] using h

theorem stopRenderLoop_loops (S : String) (e : Engine) :
    (stopRenderLoop S e).activeOutputTabs = e.activeOutputTabs
    ∧ ∀ k, JsMap.get (stopRenderLoop S e).animationFrameIds k
        = if k = S then none else JsMap.get e.animationFrameIds k := by
  unfold stopRenderLoop
  cases hg : JsMap.get e.animationFrameIds S with
  | none =>
    simp only []
    refine ⟨trivial, ?_⟩
    intro k
    by_cases hk : k = S
    · simp [hk, hg]
    · simp [hk]
  | some handle =>
    simp only []
    refine ⟨?_, ?_⟩
    · split <;> split <;> rfl
    · intro k
      rw [JsMap.get_delete]
      by_cases hk : k = S
      · simp [hk]
      · simp only [hk, if_false]
        split <;> split <;> rfl

theorem stopCapture_loops_eq (S : String) (e : Engine) :
    (stopCapture S e).loops
      = (JsMap.delete (stopRenderLoop S
            (if (detachFromTab S e).1 = true then
              releaseBase (JsMap.get e.sessionTab S)
                (stopOutputsOf S
                  (JsMap.entries (releaseSessionTrack S (closeSessionPc S (detachFromTab S e).2)).pcByOutput)
                  (releaseSessionTrack S (closeSessionPc S (detachFromTab S e).2)))
            else
              stopOutputsOf S
                (JsMap.entries (releaseSessionTrack S (closeSessionPc S (detachFromTab S e).2)).pcByOutput)
                (releaseSessionTrack S (closeSessionPc S (detachFromTab S e).2)))).animationFrameIds S,
         JsMap.delete (stopRenderLoop S
            (if (detachFromTab S e).1 = true then
              releaseBase (JsMap.get e.sessionTab S)
                (stopOutputsOf S
                  (JsMap.entries (releaseSessionTrack S (closeSessionPc S (detachFromTab S e).2)).pcByOutput)
                  (releaseSessionTrack S (closeSessionPc S (detachFromTab S e).2)))
            else
              stopOutputsOf S
                (JsMap.entries (releaseSessionTrack S (closeSessionPc S (detachFromTab S e).2)).pcByOutput)
                (releaseSessionTrack S (closeSessionPc S (detachFromTab S e).2)))).activeOutputTabs S) := by
  have hend : ∀ x : Engine,
      ({ x with activeOutputTabs := JsMap.delete x.activeOutputTabs S } : Engine).loops
        = (x.loops.1, JsMap.delete x.loops.2 S) := fun _ => rfl
  have h1 : ∀ x : Engine,
      ({ x with originalStreams := JsMap.delete x.originalStreams S } : Engine).loops = x.loops :=
    fun _ => rfl
  have hclear : ∀ x : Engine,
      (clearSessionMaps S x).loops = (JsMap.delete x.animationFrameIds S, x.activeOutputTabs) :=
    fun _ => rfl
  unfold stopCapture
  simp only []
  rw [hend, loops_releaseCanvasStream, loops_ite, h1, hclear]
  simp

theorem stopCapture_loops (S : String) (e : Engine) :
    (stopCapture S e).activeOutputTabs = JsMap.delete e.activeOutputTabs S
    ∧ ∀ k, JsMap.get (stopCapture S e).animationFrameIds k
        = if k = S then none else JsMap.get e.animationFrameIds k := by
  have hpre : (if (detachFromTab S e).1 = true
        then releaseBase (JsMap.get e.sessionTab S)
          (stopOutputsOf S
            (JsMap.entries (releaseSessionTrack S (closeSessionPc S (detachFromTab S e).2)).pcByOutput)
            (releaseSessionTrack S (closeSessionPc S (detachFromTab S e).2)))
        else stopOutputsOf S
            (JsMap.entries (releaseSessionTrack S (closeSessionPc S (detachFromTab S e).2)).pcByOutput)
            (releaseSessionTrack S (closeSessionPc S (detachFromTab S e).2))).loops = e.loops := by
    rw [loops_ite, loops_releaseBase, loops_stopOutputsOf, loops_releaseSessionTrack,
      loops_closeSessionPc, loops_detachFromTab]
    simp
  have hmain := stopCapture_loops_eq S e
  have ha : (stopCapture S e).animationFrameIds = _ := congrArg Prod.fst hmain
  have hb : (stopCapture S e).activeOutputTabs = _ := congrArg Prod.snd hmain
  constructor
  · rw [hb, (stopRenderLoop_loops S _).1, (loops_eq hpre).2]
  · intro k
    rw [ha, JsMap.get_delete, (stopRenderLoop_loops S _).2, (loops_eq hpre).1]
    by_cases hk : k = S
    · simp [hk]
    · simp [hk]

theorem startRenderLoop_keeps (p : Platform) (S : String) (e : Engine)
    (h : loopsOnlyWhileViewed e) : loopsOnlyWhileViewed (startRenderLoop p S e) := by
  unfold startRenderLoop
  split
  · exact h
  · cases ha : JsMap.get e.activeOutputTabs S with
    | none => simpa [ha] using h
    | some tabs =>
      simp only []
      by_cases hl : tabs.length = 0
      · simpa [hl] using h
      · simp only [hl, if_false]
        have hne : tabs ≠ [] := fun hh => hl (by simp [hh])
        have hstep : ∀ handle : RenderHandle, loopsOnlyWhileViewed
            ({ e with animationFrameIds := JsMap.set e.animationFrameIds S handle } : Engine) := by
          intro handle sid hs
          by_cases hsid : sid = S
          · subst hsid
            exact ⟨tabs, ha, hne⟩
          · have hs' : (JsMap.get (JsMap.set e.animationFrameIds S handle) sid).isSome = true := hs
            rw [JsMap.get_set_other _ _ hsid] at hs'
            exact h sid hs'
        split
        · split
          · exact hstep _
          · exact hstep _
        · exact h

theorem markOutputActive_keeps (p : Platform) (S : String) (T : TabId) (e : Engine)
    (h : loopsOnlyWhileViewed e) : loopsOnlyWhileViewed (markOutputActive p S T e) := by
  have he1 : ∀ b : Bool,
      (if b = true then e
        else ({ e with activeOutputTabs := JsMap.set e.activeOutputTabs S [] } : Engine)).animationFrameIds
          = e.animationFrameIds
      ∧ ∀ sid, sid ≠ S →
          JsMap.get (if b = true then e
            else ({ e with activeOutputTabs := JsMap.set e.activeOutputTabs S [] } : Engine)).activeOutputTabs
            sid = JsMap.get e.activeOutputTabs sid := by
    intro b
    cases b
    · exact ⟨rfl, fun sid hsid => JsMap.get_set_other _ _ hsid⟩
    · exact ⟨rfl, fun _ _ => rfl⟩
  unfold markOutputActive
  split
  · exact h
  · simp only []
    by_cases hmem : normalizeOutputKey T ∈ (JsMap.get e.activeOutputTabs S).getD []
    · simp only [hmem, if_true]
      have hhas : JsMap.has e.activeOutputTabs S = true := by
        unfold JsMap.has
        cases hg : JsMap.get e.activeOutputTabs S with
        | none => simp [hg] at hmem
        | some tabs => rfl
      simp only [hhas, if_true]
      exact h
    · simp only [hmem, if_false]
      have hfacts := he1 (JsMap.has e.activeOutputTabs S)
      generalize (if JsMap.has e.activeOutputTabs S = true then e
        else ({ e with activeOutputTabs := JsMap.set e.activeOutputTabs S [] } : Engine)) = e1
        at hfacts ⊢
      apply startRenderLoop_keeps
      intro sid hs
      have hs' : (JsMap.get e1.animationFrameIds sid).isSome = true := hs
      rw [hfacts.1] at hs'
      show ∃ tabs, JsMap.get (JsMap.set e1.activeOutputTabs S
          ((JsMap.get e.activeOutputTabs S).getD [] ++ [normalizeOutputKey T])) sid = some tabs
        ∧ tabs ≠ []
      by_cases hsid : sid = S
      · subst hsid
        exact ⟨_, JsMap.get_set_self _ _ _, by simp⟩
      · obtain ⟨tabs, ht, hne⟩ := h sid hs'
        refine ⟨tabs, ?_, hne⟩
        rw [JsMap.get_set_other _ _ hsid, hfacts.2 sid hsid]
        exact ht

theorem markOutputInactive_keeps (S : String) (T : TabId) (e : Engine)
    (h : loopsOnlyWhileViewed e) : loopsOnlyWhileViewed (markOutputInactive S T e) := by
  unfold markOutputInactive
  split
  · exact h
  · cases ha : JsMap.get e.activeOutputTabs S with
    | none => simpa [ha] using h
    | some tabs =>
      simp only []
      by_cases hmem : normalizeOutputKey T ∈ tabs
      · simp only [hmem, if_true]
        by_cases hl : (tabs.erase (normalizeOutputKey T)).length = 0
        · simp only [hl, if_true]
          intro sid hs
          obtain ⟨hact, hanim⟩ := stopRenderLoop_loops S
            ({ e with activeOutputTabs := JsMap.delete e.activeOutputTabs S } : Engine)
          rw [hanim] at hs
          rw [hact]
          by_cases hsid : sid = S
          · simp [hsid] at hs
          · simp only [hsid, if_false] at hs
            have hd : JsMap.get (JsMap.delete e.activeOutputTabs S) sid
                = JsMap.get e.activeOutputTabs sid := JsMap.get_delete_other _ hsid
            obtain ⟨tabs', ht, hne⟩ := h sid hs
            exact ⟨tabs', hd.trans ht, hne⟩
        · simp only [hl, if_false]
          intro sid hs
          have hs' : (JsMap.get e.animationFrameIds sid).isSome = true := hs
          by_cases hsid : sid = S
          · subst hsid
            refine ⟨_, JsMap.get_set_self _ _ _, ?_⟩
            intro hnil
            exact hl (by simp [hnil])
          · obtain ⟨tabs', ht, hne⟩ := h sid hs'
            exact ⟨tabs', (JsMap.get_set_other _ _ hsid).trans ht, hne⟩
      · simp only [hmem, if_false]
        exact h

theorem loopsOnlyWhileViewed_of_loops {a b : Engine} (hab : a.loops = b.loops)
    (h : loopsOnlyWhileViewed b) : loopsOnlyWhileViewed a := by
  obtain ⟨h1, h2⟩ := loops_eq hab
  intro sid hs
  rw [h1] at hs
  rw [h2]
  exact h sid hs

theorem onStopOutputPeer_keeps (S : String) (T : TabId) (e : Engine)
    (h : loopsOnlyWhileViewed e) : loopsOnlyWhileViewed (onStopOutputPeer S T e) := by
  unfold onStopOutputPeer
  simp only []
  apply markOutputInactive_keeps
  apply loopsOnlyWhileViewed_of_loops _ h
  rw [loops_releaseOutputTrack]
  have h1 : ∀ x : Engine, ∀ a b c d,
      ({ x with pcByOutput := a, offerByOutput := b, pendingIceByOutput := c,
                offerIdByOutput := d } : Engine).loops = x.loops := fun _ _ _ _ _ => rfl
  rw [h1, loops_closeOutputPc]

theorem stopCapture_keeps (S : String) (e : Engine)
    (h : loopsOnlyWhileViewed e) : loopsOnlyWhileViewed (stopCapture S e) := by
  obtain ⟨hact, hanim⟩ := stopCapture_loops S e
  intro sid hs
  rw [hanim] at hs
  rw [hact]
  by_cases hsid : sid = S
  · simp [hsid] at hs
  · simp only [hsid, if_false] at hs
    obtain ⟨tabs, ht, hne⟩ := h sid hs
    exact ⟨tabs, (JsMap.get_delete_other _ hsid).trans ht, hne⟩

theorem runViewerOp_keeps (op : ViewerOp) (e : Engine) (h : loopsOnlyWhileViewed e) :
    loopsOnlyWhileViewed (runViewerOp op e) := by
  cases op with
  | markActive p S T => exact markOutputActive_keeps p S T e h
  | markInactive S T => exact markOutputInactive_keeps S T e h
  | startLoop p S => exact startRenderLoop_keeps p S e h
  | stopOutputPeer S T => exact onStopOutputPeer_keeps S T e h
  | stopCapture S => exact stopCapture_keeps S e h

theorem runViewerOps_keeps (ops : List ViewerOp) (e : Engine) (h : loopsOnlyWhileViewed e) :
    loopsOnlyWhileViewed (runViewerOps ops e) := by
  induction ops generalizing e with
  | nil => exact h
  | cons op ops ih =>
    unfold runViewerOps
    simp only [List.foldl_cons]
    exact ih (runViewerOp op e) (runViewerOp_keeps op e h)

theorem loopsOnlyWhileViewed_init : loopsOnlyWhileViewed Engine.init := by
  intro sid hs
  simp [Engine.init, JsMap.get] at hs

/-- C24: from an engine state in which a render loop is registered only for
sessions with a non-empty set of active viewers, every sequence of
`markOutputActive`, `markOutputInactive`, `startRenderLoop`, stop-output-peer
and `stopCapture` leads to such a state again; the freshly loaded engine is
such a state, so every state reached from it through these operations is
one; and when `markOutputInactive` removes the last active viewer of a
session, the session has no render loop and no viewer set after that same
step. -/
theorem C24_render_loop_only_while_viewed (e : Engine) (h : loopsOnlyWhileViewed e) :
    (∀ ops, loopsOnlyWhileViewed (runViewerOps ops e))
    ∧ (∀ ops, loopsOnlyWhileViewed (runViewerOps ops Engine.init))
    ∧ (∀ S T, truthyStr S = true →
        JsMap.get e.activeOutputTabs S = some [normalizeOutputKey T] →
          JsMap.get (markOutputInactive S T e).animationFrameIds S = none
          ∧ JsMap.get (markOutputInactive S T e).activeOutputTabs S = none) := by
  refine ⟨fun ops => runViewerOps_keeps ops e h,
    fun ops => runViewerOps_keeps ops Engine.init loopsOnlyWhileViewed_init, ?_⟩
  · intro S T hS ha
    unfold markOutputInactive
    simp only [hS, Bool.not_true, Bool.false_eq_true, if_false, ha, List.mem_singleton, if_true,
      List.erase_cons_head, List.length_nil]
    obtain ⟨hact, hanim⟩ := stopRenderLoop_loops S
      ({ e with activeOutputTabs := JsMap.delete e.activeOutputTabs S } : Engine)
    constructor
    · rw [hanim]
      simp
    · rw [hact]
      exact JsMap.get_delete_self _ _

set_option maxRecDepth 20000 in
/-- C24 on the capturing engine: the first viewer of `s1` starts its render
loop, and the loop is gone after `markOutputInactive` has removed that
viewer. -/
theorem C24_render_loop_witness :
    loopsOnlyWhileViewed engineCapturing
    ∧ (JsMap.get (runViewerOps [.markActive platformA "s1" (.num 7)]
        engineCapturing).animationFrameIds "s1").isSome = true
    ∧ loopsOnlyWhileViewed (runViewerOps
        [.markActive platformA "s1" (.num 7), .markInactive "s1" (.num 7)] engineCapturing)
    ∧ JsMap.get (runViewerOps
        [.markActive platformA "s1" (.num 7), .markInactive "s1" (.num 7)]
        engineCapturing).animationFrameIds "s1" = none :=
  have h0 : loopsOnlyWhileViewed engineCapturing := fun _ hs => by
    simp [engineCapturing, Engine.init, JsMap.get] at hs
  ⟨h0, by decide,
   (C24_render_loop_only_while_viewed engineCapturing h0).1
     [.markActive platformA "s1" (.num 7), .markInactive "s1" (.num 7)],
   by decide⟩

end BoxBox
